import Mathlib

/-!
Verification development for the autocurator catalog engine
(src/src/base/IndexedDataset.cpp, src/src/base/IndexedDataset.h).

The C++ core is shallowly embedded below: every mutating member function of
DataObjectInfo, SubAxis, AxisInfo, VariableInfo, FileInfo and IndexedDataset
that the verified claims touch is translated into a pure Lean function over
explicit state.  C++ std::map and LookupVectorHeap containers are modelled as
association lists with the same insert semantics (insert keeps an existing
key; LookupVectorHeap preserves insertion order).  The iteration order of
std::map (sorted by key) differs from insertion order, but none of the
verified statements depend on iteration order of those maps.  Fatal
exceptions (the EXCEPTION macros) are modelled with Except.error; recoverable
error strings returned by the C++ functions are modelled as plain String
results in which the empty string means success, exactly as in the source.
Floating point coordinate values are modelled as rationals.
-/

/-! ## Association list maps (model of std::map and LookupVectorHeap) -/

def alookup {κ α : Type} [DecidableEq κ] : List (κ × α) → κ → Option α
  | [], _ => none
  | (k, v) :: rest, key => if k = key then some v else alookup rest key

/-- Model of std::map::insert: if the key is already present the map is
unchanged (the C++ insert returns false and keeps the old value). -/
def ainsert {κ α : Type} [DecidableEq κ] (m : List (κ × α)) (k : κ) (v : α) :
    List (κ × α) :=
  if (alookup m k).isSome then m else m ++ [(k, v)]

/-- Replace the value stored at an existing key (model of mutating a value
reached through a reference or pointer); appends when the key is absent. -/
def aupdate {κ α : Type} [DecidableEq κ] : List (κ × α) → κ → α → List (κ × α)
  | [], k, v => [(k, v)]
  | (k', v') :: rest, k, v =>
      if k' = k then (k, v) :: rest else (k', v') :: aupdate rest k v

/-! ## Decimal rendering of identifiers (model of std::to_string) -/

def decDigit (d : Nat) : Char := Char.ofNat (48 + d)

/-- Digit accumulation for the decimal rendering; structural recursion on a
fuel argument so that the function reduces definitionally.  The fuel n + 1 is
always sufficient because n / 10 < n. -/
def toDecimalCore : Nat → Nat → List Char → List Char
  | 0, _, acc => acc
  | fuel + 1, n, acc =>
    if n < 10 then decDigit n :: acc
    else toDecimalCore fuel (n / 10) (decDigit (n % 10) :: acc)

/-- Model of std::to_string on a non-negative integer. -/
def toDecimal (n : Nat) : String := String.mk (toDecimalCore (n + 1) n [])

/-! ## NetCDF types.  Only the type constants that the indexing core
inspects are modelled (ncNoType, ncInt, ncFloat, ncDouble). -/

inductive NcType where
  | ncNoType
  | ncInt
  | ncFloat
  | ncDouble
deriving DecidableEq, Repr, Fintype

/-- Modelled from the spec: NcTypeToString lives in NetCDFUtilities, which is
not under src/.  Section 4.3 of the spec and the SubAxis::FromJSON error
message name the datatype strings "Int", "Float", "Double". -/
def NcTypeToString : NcType → String
  | .ncNoType => "NoType"
  | .ncInt => "Int"
  | .ncFloat => "Float"
  | .ncDouble => "Double"

/-- Modelled from the spec: StringToNcType lives in NetCDFUtilities, which is
not under src/; inverse of NcTypeToString, with none for unknown strings. -/
def StringToNcType (s : String) : Option NcType :=
  if s = "NoType" then some .ncNoType
  else if s = "Int" then some .ncInt
  else if s = "Float" then some .ncFloat
  else if s = "Double" then some .ncDouble
  else none

/-! ## Floating comparison -/

def ratAbs (q : ℚ) : ℚ := if q < 0 then -q else q

/-- Modelled from the spec: fpa::almost_equal comes from a header that is not
under src/.  Section 3 of the spec prescribes tolerance-based comparison and
Scenario B names the tolerance 1e-6.  The predicate is the comparison
abs (a - b) le 1e-6, written by cross-multiplication over numerators and
denominators so that it evaluates by kernel reduction; the lemma
fpaAlmostEqual_iff below proves it equal to the direct form. -/
def fpaAlmostEqual (a b : ℚ) : Bool :=
  decide ((a.num * (b.den : Int) - b.num * (a.den : Int)).natAbs * 1000000
    ≤ a.den * b.den)

/-- The cross-multiplied tolerance predicate is the direct comparison of the
absolute difference against 1e-6. -/
theorem fpaAlmostEqual_iff (a b : ℚ) :
    fpaAlmostEqual a b = true ↔ ratAbs (a - b) ≤ 1 / 1000000 := by
  have hra : ratAbs (a - b) = |a - b| := by
    unfold ratAbs
    rcases lt_or_le (a - b) 0 with h | h
    · rw [if_pos h, abs_of_neg h]
    · rw [if_neg (not_lt.mpr h), abs_of_nonneg h]
  unfold fpaAlmostEqual
  rw [decide_eq_true_eq, hra]
  have hda : (0 : ℚ) < (a.den : ℚ) := by exact_mod_cast a.den_pos
  have hdb : (0 : ℚ) < (b.den : ℚ) := by exact_mod_cast b.den_pos
  have ha : a * (a.den : ℚ) = (a.num : ℚ) := Rat.mul_den_eq_num a
  have hb : b * (b.den : ℚ) = (b.num : ℚ) := Rat.mul_den_eq_num b
  have hq : a - b = ((a.num * (b.den : Int) - b.num * (a.den : Int) : Int) : ℚ)
      / ((a.den : ℚ) * (b.den : ℚ)) := by
    rw [eq_div_iff (by positivity)]
    push_cast
    rw [sub_mul, ← mul_assoc, ha, mul_comm (a.den : ℚ) (b.den : ℚ), ← mul_assoc, hb]
  rw [hq, abs_div, abs_of_pos (mul_pos hda hdb),
    div_le_div_iff₀ (mul_pos hda hdb) (by norm_num : (0:ℚ) < 1000000)]
  constructor
  · intro h
    have h2 := (Nat.cast_le (α := ℚ)).mpr h
    push_cast [Int.cast_natAbs] at h2
    push_cast
    linarith
  · intro h
    have h2 : (((a.num * (b.den : Int) - b.num * (a.den : Int)).natAbs * 1000000 : ℕ) : ℚ)
        ≤ ((a.den * b.den : ℕ) : ℚ) := by
      push_cast [Int.cast_natAbs]
      push_cast at h
      linarith
    exact_mod_cast h2

/-! ## External reader data (the file reader collaborator of section 6).
An NcFileData value is what the NetCDF reader exposes to the core: global
attributes, dimensions with sizes, and variables with their type, attribute
list and dimension names.  Coordinate payloads are the values field. -/

structure NcVarData where
  name : String
  nctype : NcType
  atts : List (String × String)
  dims : List String
  values : List ℚ
deriving DecidableEq, Repr

structure NcFileData where
  atts : List (String × String)
  dims : List (String × Int)
  vars : List NcVarData
deriving DecidableEq, Repr

/-- The get_att lookup used for the units attribute. -/
def NcVarData.unitsAtt (v : NcVarData) : String :=
  (alookup v.atts "units").getD ""

abbrev AttributeMap := List (String × String)

/-- ASCII lowercase of one character (model of ::tolower as used by
STLStringHelper::ToLower). -/
def asciiLower (c : Char) : Char :=
  if 65 ≤ c.toNat ∧ c.toNat ≤ 90 then Char.ofNat (c.toNat + 32) else c

/-- Model of STLStringHelper::ToLower. -/
def strToLower (s : String) : String := String.mk (s.data.map asciiLower)

/-! ## DataObjectInfo -/

structure DataObjectInfo where
  m_strName : String
  m_nctype : NcType
  m_strUnits : String
  m_mapKeyAttributes : AttributeMap
  m_mapOtherAttributes : AttributeMap
deriving DecidableEq, Repr

def DataObjectInfo.mkEmpty : DataObjectInfo :=
  ⟨"", .ncNoType, "", [], []⟩

def DataObjectInfo.ofName (n : String) : DataObjectInfo :=
  ⟨n, .ncNoType, "", [], []⟩

/-- DataObjectInfo::FromNcFile: classify each global attribute other than
units into key attributes (conventions, version, history, compared after
lowercasing) or other attributes.  The C++ function always returns the empty
string, so it is modelled as a pure state update. -/
def DataObjectInfo.fromNcFile (d : DataObjectInfo) (atts : List (String × String)) :
    DataObjectInfo :=
  atts.foldl (fun acc kv =>
    if kv.1 = "units" then acc
    else
      let low := strToLower kv.1
      if low = "conventions" ∨ low = "version" ∨ low = "history" then
        { acc with m_mapKeyAttributes := ainsert acc.m_mapKeyAttributes kv.1 kv.2 }
      else
        { acc with m_mapOtherAttributes := ainsert acc.m_mapOtherAttributes kv.1 kv.2 }) d

def isVariableKeyAttribute (s : String) : Bool :=
  s = "missing_value" ∨ s = "comments" ∨ s = "long_name" ∨
  s = "grid_name" ∨ s = "grid_type"

/-- The attribute loop of DataObjectInfo::FromNcVar.  In the populate pass
(check = false) attributes are classified and inserted; in the consistency
pass (check = true) each attribute is compared against the stored maps and a
descriptive error string is returned on the first inconsistency. -/
def DataObjectInfo.fromNcVarAtts (check : Bool) (vname : String) :
    DataObjectInfo → List (String × String) → String × DataObjectInfo
  | d, [] => ("", d)
  | d, (k, val) :: rest =>
    if k = "units" then DataObjectInfo.fromNcVarAtts check vname d rest
    else if check = false then
      let d' :=
        if isVariableKeyAttribute k then
          { d with m_mapKeyAttributes := ainsert d.m_mapKeyAttributes k val }
        else
          { d with m_mapOtherAttributes := ainsert d.m_mapOtherAttributes k val }
      DataObjectInfo.fromNcVarAtts check vname d' rest
    else
      match alookup d.m_mapKeyAttributes k with
      | some v0 =>
        if v0 ≠ val then
          ("ERROR: Variable \"" ++ vname ++ "\" has inconsistent value of \""
            ++ k ++ "\" across files", d)
        else
          match alookup d.m_mapOtherAttributes k with
          | some v1 =>
            if v1 ≠ val then
              ("ERROR: Variable \"" ++ vname ++ "\" has inconsistent value of \""
                ++ k ++ "\" across files", d)
            else DataObjectInfo.fromNcVarAtts check vname d rest
          | none => DataObjectInfo.fromNcVarAtts check vname d rest
      | none =>
        match alookup d.m_mapOtherAttributes k with
        | some v1 =>
          if v1 ≠ val then
            ("ERROR: Variable \"" ++ vname ++ "\" has inconsistent value of \""
              ++ k ++ "\" across files", d)
          else DataObjectInfo.fromNcVarAtts check vname d rest
        | none =>
          ("ERROR: Variable \"" ++ vname ++ "\" has inconsistent appearance of attribute \""
            ++ k ++ "\" across files", d)

/-- DataObjectInfo::FromNcVar.  Except.error models the EXCEPTION2 raised on
a variable-name mismatch in consistency mode; the String component of the ok
result is the recoverable error return of the C++ function (empty on
success). -/
def DataObjectInfo.fromNcVar (d : DataObjectInfo) (v : NcVarData)
    (fCheckConsistency : Bool) : Except String (String × DataObjectInfo) :=
  -- name
  if fCheckConsistency ∧ v.name ≠ d.m_strName then
    .error ("Calling DataObjectInfo::FromNcVar with mismatched variable names: \""
      ++ v.name ++ "\" \"" ++ d.m_strName ++ "\"")
  else
    let d1 := if fCheckConsistency then d else { d with m_strName := v.name }
    -- type
    if fCheckConsistency ∧ v.nctype ≠ d1.m_nctype then
      .ok ("ERROR: Variable \"" ++ v.name ++ "\" has inconsistent type across files", d1)
    else
      let d2 := if fCheckConsistency then d1 else { d1 with m_nctype := v.nctype }
      -- units
      if fCheckConsistency ∧ v.unitsAtt ≠ d2.m_strUnits then
        .ok ("ERROR: Variable \"" ++ v.name ++ "\" has inconsistent units across files", d2)
      else
        let d3 := if fCheckConsistency then d2 else { d2 with m_strUnits := v.unitsAtt }
        .ok (DataObjectInfo.fromNcVarAtts fCheckConsistency v.name d3 v.atts)

/-- DataObjectInfo::InsertAttribute.  The member m_setKeyAttributeNames is
declared outside src/ and never populated by any code under src/, so the
classification always selects the other-attribute map; a duplicate key raises
the modelled exception. -/
def DataObjectInfo.insertAttribute (d : DataObjectInfo) (k v : String) :
    Except String DataObjectInfo :=
  if (alookup d.m_mapOtherAttributes k).isSome then
    .error ("Attribute key \"" ++ k ++ "\" already exists")
  else
    .ok { d with m_mapOtherAttributes := d.m_mapOtherAttributes ++ [(k, v)] }

/-- DataObjectInfo::RemoveRedundantOtherAttributes: erase from the other
attributes every key that appears in the other attributes of the master
object (the collection-level DataObjectInfo).  Note that the C++ loop erases
by key alone; the stored values are never compared. -/
def DataObjectInfo.removeRedundantOtherAttributes (d master : DataObjectInfo) :
    DataObjectInfo :=
  let kept := d.m_mapOtherAttributes.filter
    (fun kv => (alookup master.m_mapOtherAttributes kv.1).isNone)
  { d with m_mapOtherAttributes := kept }

/-! ## SubAxis -/

structure SubAxis where
  /-- The inherited DataObjectInfo state.  Its nctype member is shadowed by
  the one below, exactly as the C++ SubAxis declares its own m_nctype. -/
  doi : DataObjectInfo
  m_nctype : NcType
  m_lSize : Int
  m_dValuesInts : List Int
  m_dValuesFloat : List ℚ
  m_dValuesDouble : List ℚ
deriving DecidableEq, Repr

def SubAxis.mkEmpty : SubAxis :=
  ⟨DataObjectInfo.mkEmpty, .ncNoType, 0, [], [], []⟩

/-- SubAxis::operator==.  Faithful to the source, including the loop bound
of the ncFloat branch, which iterates over the length of m_dValuesDouble
(IndexedDataset.cpp line 392) rather than m_dValuesFloat.  Out-of-range
vector reads cannot occur on states the program builds (the double list of a
float subaxis is always empty), and are modelled with getD 0.  The final
branch models the unreachable Unhandled-type exception: during ingestion an
ncInt candidate is never built, since Int-typed coordinate variables abort
earlier with the Unsupported-dimension fatal error. -/
def SubAxis.eqOp (this dimrange : SubAxis) : Bool :=
  if dimrange.m_nctype ≠ this.m_nctype then false
  else if this.m_nctype = .ncNoType then true
  else if this.m_nctype = .ncDouble then
    if dimrange.m_dValuesDouble.length ≠ this.m_dValuesDouble.length then false
    else (List.range this.m_dValuesDouble.length).all (fun s =>
      fpaAlmostEqual (dimrange.m_dValuesDouble.getD s 0) (this.m_dValuesDouble.getD s 0))
  else if this.m_nctype = .ncFloat then
    if dimrange.m_dValuesFloat.length ≠ this.m_dValuesFloat.length then false
    else (List.range this.m_dValuesDouble.length).all (fun s =>
      fpaAlmostEqual (dimrange.m_dValuesFloat.getD s 0) (this.m_dValuesFloat.getD s 0))
  else false

/-! ## AxisInfo, FileInfo, VariableInfo, IndexedDataset -/

structure AxisInfo where
  doi : DataObjectInfo
  /-- LookupVectorHeap from subaxis id to SubAxis, in insertion order. -/
  m_vecSubAxis : List (String × SubAxis)
deriving DecidableEq, Repr

def AxisInfo.mkNamed (n : String) : AxisInfo :=
  ⟨DataObjectInfo.ofName n, []⟩

structure FileInfo where
  doi : DataObjectInfo
  m_strFilename : String
  /-- Map from axis name to the subaxis id this file contributed. -/
  m_mapAxisSubAxis : List (String × String)
deriving DecidableEq, Repr

def FileInfo.mkNamed (fname : String) : FileInfo :=
  ⟨DataObjectInfo.mkEmpty, fname, []⟩

structure VariableInfo where
  doi : DataObjectInfo
  /-- Map from an axis-name list to the map from subaxis-id tuples to the
  file id storing that combination. -/
  m_mapSubAxisToFileIdMaps : List (List String × List (List String × String))
deriving DecidableEq, Repr

def VariableInfo.mkNamed (n : String) : VariableInfo :=
  ⟨DataObjectInfo.ofName n, []⟩

structure IndexedDataset where
  m_datainfo : DataObjectInfo
  m_vecFileInfo : List (String × FileInfo)
  m_vecAxisInfo : List (String × AxisInfo)
  m_vecVariableInfo : List (String × VariableInfo)
deriving DecidableEq, Repr

def IndexedDataset.mkEmpty : IndexedDataset :=
  ⟨DataObjectInfo.mkEmpty, [], [], []⟩

/-! ## Ingestion (IndexedDataset::IndexVariableData)

The external reader is a function from a full file name to the data the
NetCDF layer would expose, with none modelling a file that cannot be opened.
The result type distinguishes the fatal EXCEPTION path (which destroys no
observable state because the caller catches it and stops) from the normal
return carrying the recoverable error string and the mutated dataset. -/

abbrev NcReader := String → Option NcFileData

inductive IngestResult where
  | fatal (msg : String)
  | done (err : String) (d : IndexedDataset)
deriving DecidableEq, Repr

/-- The subaxis dedup scan and insert of IndexVariableData (lines 1220 to
1238): linear-scan the existing variants in creation order for a structural
match; reuse the matching id, otherwise append the candidate under the id
computed before the scan (the current variant count rendered in decimal).
Returns the chosen subaxis id together with the updated axis. -/
def subAxisScanInsert (axisinfo : AxisInfo) (strSubAxisId : String)
    (psubaxis : SubAxis) : String × AxisInfo :=
  match axisinfo.m_vecSubAxis.find? (fun p => SubAxis.eqOp p.2 psubaxis) with
  | some p => (p.1, axisinfo)
  | none =>
      (strSubAxisId,
        { axisinfo with m_vecSubAxis := axisinfo.m_vecSubAxis ++ [(strSubAxisId, psubaxis)] })

/-- One iteration of the dimension loop of IndexVariableData (lines 1124 to
1239), processing dimension dimName of size lSize.  The FileInfo of the file
being ingested is threaded separately (the C++ mutates it through a
reference) and written back by the caller. -/
def axisLookupOrCreate (axes : List (String × AxisInfo)) (aname : String) :
    List (String × AxisInfo) × AxisInfo × Bool :=
  match alookup axes aname with
  | some ax => (axes, ax, false)
  | none => (axes ++ [(aname, AxisInfo.mkNamed aname)], AxisInfo.mkNamed aname, true)

def processDim (d0 : IndexedDataset) (fileinfo : FileInfo) (file : NcFileData)
    (dimName : String) (lSize : Int) :
    Except String (String × IndexedDataset × FileInfo) :=
  let found := axisLookupOrCreate d0.m_vecAxisInfo dimName
  let fNewAxis := found.2.2
  let d := { d0 with m_vecAxisInfo := found.1 }
  let axisinfo := found.2.1
  let strSubAxisId := toDecimal axisinfo.m_vecSubAxis.length
  let psubaxis0 : SubAxis := { SubAxis.mkEmpty with m_lSize := lSize }
  let finish := fun (axisinfo' : AxisInfo) (psubaxis' : SubAxis) =>
    let (strId, axisinfo'') := subAxisScanInsert axisinfo' strSubAxisId psubaxis'
    let fileinfo' :=
      { fileinfo with m_mapAxisSubAxis := ainsert fileinfo.m_mapAxisSubAxis dimName strId }
    let d' := { d with m_vecAxisInfo := aupdate d.m_vecAxisInfo dimName axisinfo'' }
    Except.ok ("", d', fileinfo')
  match file.vars.find? (fun v => v.name == dimName) with
  | none =>
    if axisinfo.doi.m_nctype ≠ .ncNoType then
      .ok ("ERROR: Dimension variable \"" ++ dimName
        ++ "\" missing from file, but present in other files.", d, fileinfo)
    else
      finish axisinfo psubaxis0
  | some varDim =>
    if varDim.dims.length ≠ 1 then
      .ok ("ERROR: Dimension variable \"" ++ varDim.name
        ++ "\" must have exactly 1 dimension", d, fileinfo)
    else if varDim.dims.headD "" ≠ dimName then
      .ok ("ERROR: Dimension variable \"" ++ varDim.name
        ++ "\" does not have dimension \"", d, fileinfo)
    else if fNewAxis = false ∧ axisinfo.doi.m_nctype ≠ varDim.nctype then
      .ok ("ERROR: Dimension variable \"" ++ varDim.name
        ++ "\" type mismatch.  Possible duplicate dimension name in dataset.", d, fileinfo)
    else
      let axisinfo1 :=
        if fNewAxis then { axisinfo with doi := { axisinfo.doi with m_nctype := varDim.nctype } }
        else axisinfo
      let psubaxis1 := { psubaxis0 with m_nctype := axisinfo1.doi.m_nctype }
      -- axisinfo.FromNcVar(varDim, not fNewAxis): the returned error string is
      -- ignored by the source (line 1192); only the fatal path propagates.
      match axisinfo1.doi.fromNcVar varDim (!fNewAxis) with
      | .error m => .error m
      | .ok (_, doiAx) =>
        let axisinfo2 := { axisinfo1 with doi := doiAx }
        -- psubaxis.FromNcVar(varDim, false) initializes the inherited
        -- DataObjectInfo of the subaxis; with check false it cannot fail.
        match psubaxis1.doi.fromNcVar varDim false with
        | .error m => .error m
        | .ok (_, doiSub) =>
          let psubaxis2 := { psubaxis1 with doi := doiSub }
          if axisinfo2.doi.m_nctype = .ncDouble then
            finish axisinfo2 { psubaxis2 with m_dValuesDouble := varDim.values.take lSize.toNat }
          else if axisinfo2.doi.m_nctype = .ncFloat then
            finish axisinfo2 { psubaxis2 with m_dValuesFloat := varDim.values.take lSize.toNat }
          else
            .error "Unsupported dimension nctype"

/-- The dimension loop, stopping at the first recoverable error exactly as
the C++ returns from IndexVariableData. -/
def processDims (d : IndexedDataset) (fileinfo : FileInfo) (file : NcFileData) :
    List (String × Int) → Except String (String × IndexedDataset × FileInfo)
  | [] => .ok ("", d, fileinfo)
  | (dimName, lSize) :: rest =>
    match processDim d fileinfo file dimName lSize with
    | .error m => .error m
    | .ok (err, d', fi') =>
      if err ≠ "" then .ok (err, d', fi')
      else processDims d' fi' file rest

/-- Build the subaxis-id tuple of a variable from the axis-to-subaxis map of
the current file; a missing axis raises the modelled Logic-error exception
(lines 1296 to 1301). -/
def collectSubAxisIds (fileinfo : FileInfo) : List String → Except String (List String)
  | [] => .ok []
  | an :: rest =>
    match alookup fileinfo.m_mapAxisSubAxis an with
    | none => .error "Logic error"
    | some sid =>
      match collectSubAxisIds fileinfo rest with
      | .error m => .error m
      | .ok ids => .ok (sid :: ids)

/-- Lines 1304 to 1328 of IndexVariableData: locate or create the inner map
for the ordered axis-name list of the variable inside the location index, and
insert the pair from the subaxis-id tuple to the file id; the insert keeps an
existing tuple untouched (std::map::insert). -/
def varRecordLocation (varinfo : VariableInfo) (vecAxisNames vecSubAxisIds : List String)
    (strFileId : String) : VariableInfo :=
  let groups := varinfo.m_mapSubAxisToFileIdMaps
  let groups1 :=
    if (alookup groups vecAxisNames).isNone then groups ++ [(vecAxisNames, [])] else groups
  let inner := (alookup groups1 vecAxisNames).getD []
  let inner1 := ainsert inner vecSubAxisIds strFileId
  { varinfo with m_mapSubAxisToFileIdMaps := aupdate groups1 vecAxisNames inner1 }

/-- One iteration of the variable loop of IndexVariableData (lines 1244 to
1328). -/
def varLookupOrCreate (vars : List (String × VariableInfo)) (vname : String) :
    List (String × VariableInfo) × VariableInfo × Bool :=
  match alookup vars vname with
  | some vi => (vars, vi, false)
  | none => (vars ++ [(vname, VariableInfo.mkNamed vname)], VariableInfo.mkNamed vname, true)

def processVar (d : IndexedDataset) (fileinfo : FileInfo) (strFileId : String)
    (var : NcVarData) : Except String (String × IndexedDataset) :=
  -- dimension variables are not indexed; the check scans every axis known to
  -- the dataset, not only the axes of the current file (lines 1254 to 1263)
  if d.m_vecAxisInfo.any (fun p => p.2.doi.m_strName == var.name) then
    .ok ("", d)
  else
    let found := varLookupOrCreate d.m_vecVariableInfo var.name
    let fNewVariable := found.2.2
    let d1 := { d with m_vecVariableInfo := found.1 }
    let varinfo := found.2.1
    match varinfo.doi.fromNcVar var (!fNewVariable) with
    | .error m => .error m
    | .ok (strError, doiVar) =>
      let varinfo1 := { varinfo with doi := doiVar }
      let d2 := { d1 with m_vecVariableInfo := aupdate d1.m_vecVariableInfo var.name varinfo1 }
      if strError ≠ "" then .ok (strError, d2)
      else
        match collectSubAxisIds fileinfo var.dims with
        | .error m => .error m
        | .ok vecSubAxisIds =>
          let varinfo2 := varRecordLocation varinfo1 var.dims vecSubAxisIds strFileId
          let vlist := aupdate d2.m_vecVariableInfo var.name varinfo2
          .ok ("", { d2 with m_vecVariableInfo := vlist })

/-- The variable loop. -/
def processVars (d : IndexedDataset) (fileinfo : FileInfo) (strFileId : String) :
    List NcVarData → Except String (String × IndexedDataset)
  | [] => .ok ("", d)
  | v :: rest =>
    match processVar d fileinfo strFileId v with
    | .error m => .error m
    | .ok (err, d') =>
      if err ≠ "" then .ok (err, d')
      else processVars d' fileinfo strFileId rest

/-- The per-file processing that follows a successful open (steps 2 to 5 of
section 4.1): capture of collection attributes happened in the caller, so d1
is the dataset state after that step.  The FileInfo entry is appended to the
dataset on every exit path, matching the C++ where the entry is heap-inserted
before the dimension loop and then mutated through a reference; nothing reads
the file list in between, so the observable states agree. -/
def processOpenedFile (d1 : IndexedDataset) (strFullFilename : String)
    (file : NcFileData) : Except String (String × IndexedDataset) :=
  let strFileId := toDecimal d1.m_vecFileInfo.length
  let fi0 := FileInfo.mkNamed strFullFilename
  let fi1 := { fi0 with doi := fi0.doi.fromNcFile file.atts }
  let fi2 := { fi1 with doi := fi1.doi.removeRedundantOtherAttributes d1.m_datainfo }
  match processDims d1 fi2 file file.dims with
  | .error m => .error m
  | .ok (err, d2, fi3) =>
    let d3 := { d2 with m_vecFileInfo := d2.m_vecFileInfo ++ [(strFileId, fi3)] }
    if err ≠ "" then .ok (err, d3)
    else
      match processVars d3 fi3 strFileId file.vars with
      | .error m => .error m
      | .ok (err2, d4) => .ok (err2, d4)

/-- Ingestion of one file (the body of the outer loop of IndexVariableData). -/
def processOneFile (d : IndexedDataset) (strBaseDir fname : String) (reader : NcReader) :
    Except String (String × IndexedDataset) :=
  let strFullFilename := strBaseDir ++ fname
  match reader strFullFilename with
  | none =>
    .ok ("Unable to open data file \"" ++ strFullFilename ++ "\" for reading", d)
  | some file =>
    -- collection attributes are captured from the first file only
    let d1 := if d.m_vecFileInfo.length = 0 then
        { d with m_datainfo := d.m_datainfo.fromNcFile file.atts }
      else d
    processOpenedFile d1 strFullFilename file

/-- IndexedDataset::IndexVariableData: ingest the named files in order,
stopping at the first recoverable error (whose message is returned while the
already committed entries stay in the catalog) or fatal exception. -/
def IndexedDataset.indexVariableData (d : IndexedDataset) (strBaseDir : String)
    (vecFilenames : List String) (reader : NcReader) : IngestResult :=
  match vecFilenames with
  | [] => .done "" d
  | fname :: rest =>
    match processOneFile d strBaseDir fname reader with
    | .error m => .fatal m
    | .ok (err, d') =>
      if err ≠ "" then .done err d'
      else IndexedDataset.indexVariableData d' strBaseDir rest reader

/-! ## Lemmas about the association-list maps -/

theorem alookup_mem {κ α : Type} [DecidableEq κ] {m : List (κ × α)} {k : κ} {v : α}
    (h : alookup m k = some v) : (k, v) ∈ m := by
  induction m with
  | nil => simp [alookup] at h
  | cons p rest ih =>
    obtain ⟨a, b⟩ := p
    by_cases hk : a = k
    · subst hk
      simp [alookup] at h
      simp [h]
    · simp [alookup, hk] at h
      exact List.mem_cons_of_mem _ (ih h)

theorem alookup_append {κ α : Type} [DecidableEq κ] (m l : List (κ × α)) (k : κ) :
    alookup (m ++ l) k =
      match alookup m k with
      | some v => some v
      | none => alookup l k := by
  induction m with
  | nil => simp [alookup]
  | cons p rest ih =>
    obtain ⟨a, b⟩ := p
    by_cases hk : a = k
    · simp [alookup, hk]
    · simp [alookup, hk, ih]

theorem alookup_aupdate {κ α : Type} [DecidableEq κ] (m : List (κ × α)) (k : κ) (v : α)
    (k' : κ) :
    alookup (aupdate m k v) k' = if k = k' then some v else alookup m k' := by
  induction m with
  | nil => simp [aupdate, alookup]
  | cons p rest ih =>
    obtain ⟨a, b⟩ := p
    by_cases hak : a = k
    · subst hak
      by_cases hk : a = k'
      · subst hk; simp [aupdate, alookup]
      · simp [aupdate, alookup, hk]
    · by_cases hk : a = k'
      · subst hk
        have hne : ¬ k = a := fun h => hak h.symm
        simp [aupdate, alookup, hak, hne]
      · simp [aupdate, alookup, hak, hk, ih]

theorem mem_aupdate {κ α : Type} [DecidableEq κ] {m : List (κ × α)} {k : κ} {v : α}
    {p : κ × α} (h : p ∈ aupdate m k v) : p ∈ m ∨ p = (k, v) := by
  induction m with
  | nil => simp [aupdate] at h; simp [h]
  | cons q rest ih =>
    obtain ⟨a, b⟩ := q
    by_cases hak : a = k
    · subst hak
      simp [aupdate] at h
      rcases h with h | h
      · right; simp [h]
      · left; exact List.mem_cons_of_mem _ h
    · simp [aupdate, hak] at h
      rcases h with h | h
      · left; simp [h]
      · rcases ih h with h1 | h1
        · left; exact List.mem_cons_of_mem _ h1
        · right; exact h1

theorem alookup_ainsert_of_some {κ α : Type} [DecidableEq κ] {m : List (κ × α)}
    {k : κ} {v : α} {k' : κ} {w : α} (h : alookup m k' = some w) :
    alookup (ainsert m k v) k' = some w := by
  unfold ainsert
  split
  · exact h
  · rw [alookup_append, h]

theorem alookup_eq_none_iff {κ α : Type} [DecidableEq κ] {m : List (κ × α)} {k : κ} :
    alookup m k = none ↔ k ∉ m.map Prod.fst := by
  induction m with
  | nil => simp [alookup]
  | cons p rest ih =>
    obtain ⟨a, b⟩ := p
    by_cases hk : a = k
    · subst hk; simp [alookup]
    · simp [alookup, hk, ih, Ne.symm hk]

def NodupKeys {κ α : Type} (m : List (κ × α)) : Prop := (m.map Prod.fst).Nodup

theorem nodupKeys_ainsert {κ α : Type} [DecidableEq κ] {m : List (κ × α)} (k : κ) (v : α)
    (h : NodupKeys m) : NodupKeys (ainsert m k v) := by
  unfold ainsert
  split
  · exact h
  · next hnone =>
    have hk : k ∉ m.map Prod.fst := by
      rw [← alookup_eq_none_iff]
      exact Option.not_isSome_iff_eq_none.mp hnone
    unfold NodupKeys at h ⊢
    simp [List.nodup_append, h, hk]

theorem nodupKeys_aupdate {κ α : Type} [DecidableEq κ] {m : List (κ × α)} (k : κ) (v : α)
    (h : NodupKeys m) : NodupKeys (aupdate m k v) := by
  induction m with
  | nil => simp [aupdate, NodupKeys]
  | cons p rest ih =>
    obtain ⟨a, b⟩ := p
    by_cases hak : a = k
    · subst hak
      unfold NodupKeys at h ⊢
      simpa [aupdate] using h
    · unfold NodupKeys at h ih ⊢
      simp only [List.map_cons, List.nodup_cons] at h
      simp only [aupdate, if_neg hak, List.map_cons, List.nodup_cons]
      constructor
      · intro hmem
        rcases List.mem_map.mp hmem with ⟨q, hq, hfst⟩
        rcases mem_aupdate hq with h1 | h1
        · apply h.1
          rw [← hfst]
          exact List.mem_map_of_mem _ h1
        · apply hak
          rw [← hfst, h1]
      · exact ih h.2

/-! ## The decimal rendering is injective -/

def digitsVal (l : List Char) : Nat :=
  l.foldl (fun a c => 10 * a + (c.toNat - 48)) 0

theorem toDecimalCore_spill : ∀ (n fuel1 fuel2 : Nat) (acc : List Char),
    n < fuel1 → n < fuel2 →
    toDecimalCore fuel1 n acc = toDecimalCore fuel2 n [] ++ acc := by
  intro n
  induction n using Nat.strong_induction_on with
  | _ n ih =>
    intro fuel1 fuel2 acc h1 h2
    obtain ⟨f1, rfl⟩ : ∃ f1, fuel1 = f1 + 1 := ⟨fuel1 - 1, by omega⟩
    obtain ⟨f2, rfl⟩ : ∃ f2, fuel2 = f2 + 1 := ⟨fuel2 - 1, by omega⟩
    by_cases h10 : n < 10
    · simp [toDecimalCore, h10]
    · have hdiv : n / 10 < n := Nat.div_lt_self (by omega) (by decide)
      simp only [toDecimalCore, if_neg h10]
      rw [ih _ hdiv f1 (n / 10 + 1) _ (by omega) (by omega),
        ih _ hdiv f2 (n / 10 + 1) _ (by omega) (by omega)]
      simp

theorem decDigit_toNat {d : Nat} (h : d < 10) : (decDigit d).toNat = 48 + d := by
  have hall : ∀ m : Fin 10, (decDigit m.1).toNat = 48 + m.1 := by decide
  exact hall ⟨d, h⟩

theorem digitsVal_append_singleton (l : List Char) (c : Char) :
    digitsVal (l ++ [c]) = 10 * digitsVal l + (c.toNat - 48) := by
  simp [digitsVal]

theorem digitsVal_toDecimalCore (n : Nat) :
    digitsVal (toDecimalCore (n + 1) n []) = n := by
  induction n using Nat.strong_induction_on with
  | _ n ih =>
    by_cases h : n < 10
    · simp [toDecimalCore, h, digitsVal, decDigit_toNat h]
    · have hdiv : n / 10 < n := Nat.div_lt_self (by omega) (by decide)
      simp only [toDecimalCore, if_neg h]
      rw [toDecimalCore_spill (n / 10) n (n / 10 + 1) [decDigit (n % 10)]
        (by omega) (by omega)]
      rw [digitsVal_append_singleton, ih _ hdiv,
        decDigit_toNat (Nat.mod_lt _ (by decide))]
      simp [Nat.div_add_mod]

theorem toDecimal_injective : Function.Injective toDecimal := by
  intro m n h
  have h2 : toDecimalCore (m + 1) m [] = toDecimalCore (n + 1) n [] := by
    have := congrArg String.data h
    simpa [toDecimal] using this
  have := congrArg digitsVal h2
  rwa [digitsVal_toDecimalCore, digitsVal_toDecimalCore] at this

/-! ## State-component lemmas about ingestion -/

theorem processDim_state {d : IndexedDataset} {fi : FileInfo} {file : NcFileData}
    {n : String} {s : Int} {e : String} {d' : IndexedDataset} {fi' : FileInfo}
    (h : processDim d fi file n s = .ok (e, d', fi')) :
    d'.m_vecFileInfo = d.m_vecFileInfo ∧
    d'.m_vecVariableInfo = d.m_vecVariableInfo ∧
    d'.m_datainfo = d.m_datainfo := by
  unfold processDim subAxisScanInsert at h
  simp only [] at h
  repeat' split at h
  all_goals simp only [Except.ok.injEq, Except.error.injEq, Prod.mk.injEq,
    reduceCtorEq, false_and, and_false] at h
  all_goals obtain ⟨-, hd, -⟩ := h
  all_goals subst hd
  all_goals exact ⟨rfl, rfl, rfl⟩

theorem processDims_state {file : NcFileData} {dims : List (String × Int)} :
    ∀ {d : IndexedDataset} {fi : FileInfo} {e : String} {d' : IndexedDataset} {fi' : FileInfo},
    processDims d fi file dims = .ok (e, d', fi') →
    d'.m_vecFileInfo = d.m_vecFileInfo ∧
    d'.m_vecVariableInfo = d.m_vecVariableInfo ∧
    d'.m_datainfo = d.m_datainfo := by
  induction dims with
  | nil =>
    intro d fi e d' fi' h
    simp [processDims] at h
    simp [h.2.1]
  | cons p rest ih =>
    intro d fi e d' fi' h
    obtain ⟨dn, ds⟩ := p
    unfold processDims at h
    split at h
    · exact absurd h (by simp)
    · next heq =>
      split at h
      · obtain ⟨h1, h2, h3⟩ := processDim_state heq
        simp at h
        rw [← h.2.1]
        exact ⟨h1, h2, h3⟩
      · obtain ⟨h1, h2, h3⟩ := processDim_state heq
        obtain ⟨g1, g2, g3⟩ := ih h
        exact ⟨g1.trans h1, g2.trans h2, g3.trans h3⟩

theorem processVar_state {d : IndexedDataset} {fi : FileInfo} {fid : String}
    {v : NcVarData} {e : String} {d' : IndexedDataset}
    (h : processVar d fi fid v = .ok (e, d')) :
    d'.m_vecFileInfo = d.m_vecFileInfo ∧
    d'.m_vecAxisInfo = d.m_vecAxisInfo ∧
    d'.m_datainfo = d.m_datainfo := by
  unfold processVar at h
  simp only [] at h
  repeat' split at h
  all_goals simp only [Except.ok.injEq, Except.error.injEq, Prod.mk.injEq,
    reduceCtorEq, false_and, and_false] at h
  all_goals obtain ⟨-, hd⟩ := h
  all_goals subst hd
  all_goals exact ⟨rfl, rfl, rfl⟩

theorem processVars_state {fi : FileInfo} {fid : String} {vs : List NcVarData} :
    ∀ {d : IndexedDataset} {e : String} {d' : IndexedDataset},
    processVars d fi fid vs = .ok (e, d') →
    d'.m_vecFileInfo = d.m_vecFileInfo ∧
    d'.m_vecAxisInfo = d.m_vecAxisInfo ∧
    d'.m_datainfo = d.m_datainfo := by
  induction vs with
  | nil =>
    intro d e d' h
    simp [processVars] at h
    simp [h.2]
  | cons v rest ih =>
    intro d e d' h
    unfold processVars at h
    split at h
    · exact absurd h (by simp)
    · next heq =>
      split at h
      · obtain ⟨h1, h2, h3⟩ := processVar_state heq
        simp at h
        rw [← h.2]
        exact ⟨h1, h2, h3⟩
      · obtain ⟨h1, h2, h3⟩ := processVar_state heq
        obtain ⟨g1, g2, g3⟩ := ih h
        exact ⟨g1.trans h1, g2.trans h2, g3.trans h3⟩

theorem string_data_append (a b : String) : (a ++ b).data = a.data ++ b.data := rfl

/-- Every normal return of the post-open processing appends exactly one
catalog entry whose id is the decimal rendering of the previous file count. -/
theorem processOpenedFile_fileIds {d1 : IndexedDataset} {full : String}
    {file : NcFileData} {e : String} {d' : IndexedDataset}
    (h : processOpenedFile d1 full file = .ok (e, d')) :
    d'.m_vecFileInfo.map Prod.fst =
      d1.m_vecFileInfo.map Prod.fst ++ [toDecimal d1.m_vecFileInfo.length] := by
  unfold processOpenedFile at h
  simp only [] at h
  split at h
  · exact absurd h (by simp)
  · next e2 d2 fi3 heq =>
    have h1 := (processDims_state heq).1
    split at h
    · simp only [Except.ok.injEq, Prod.mk.injEq] at h
      obtain ⟨-, hd⟩ := h
      subst hd
      simp [h1]
    · split at h
      · exact absurd h (by simp)
      · next e3 d4 heq2 =>
        have g1 := (processVars_state heq2).1
        simp only [Except.ok.injEq, Prod.mk.injEq] at h
        obtain ⟨-, hd⟩ := h
        subst hd
        rw [g1]
        simp [h1]

/-- On a successful return, processing one file appends exactly one catalog
entry whose id is the decimal rendering of the previous file count. -/
theorem processOneFile_fileIds {d : IndexedDataset} {bd f : String} {r : NcReader}
    {d' : IndexedDataset} (h : processOneFile d bd f r = .ok ("", d')) :
    d'.m_vecFileInfo.map Prod.fst =
      d.m_vecFileInfo.map Prod.fst ++ [toDecimal d.m_vecFileInfo.length] := by
  unfold processOneFile at h
  simp only [] at h
  split at h
  · -- the open failure message is a nonempty string, so it cannot equal ""
    simp only [Except.ok.injEq, Prod.mk.injEq] at h
    have hdata := congrArg String.data h.1
    rw [string_data_append, string_data_append] at hdata
    have hnil := List.append_eq_nil.mp (List.append_eq_nil.mp hdata).1
    exact absurd hnil.1 (by decide)
  · have happ := processOpenedFile_fileIds h
    rw [happ]
    congr 1 <;> [skip; congr 2] <;> split <;> rfl

theorem indexVariableData_fileIds {bd : String} {r : NcReader} {files : List String} :
    ∀ {d d' : IndexedDataset},
    d.indexVariableData bd files r = .done "" d' →
    d'.m_vecFileInfo.map Prod.fst =
      d.m_vecFileInfo.map Prod.fst ++
        (List.range files.length).map (fun i => toDecimal (d.m_vecFileInfo.length + i)) := by
  induction files with
  | nil =>
    intro d d' h
    simp [IndexedDataset.indexVariableData] at h
    simp [h]
  | cons f rest ih =>
    intro d d' h
    unfold IndexedDataset.indexVariableData at h
    split at h
    · exact absurd h (by simp)
    · next e1 d1 heq =>
      split at h
      · next hne =>
        simp only [IngestResult.done.injEq] at h
        exact absurd h.1 hne
      · next hne =>
        have he : e1 = "" := by
          by_contra hc
          exact hne hc
        subst he
        have hids := processOneFile_fileIds heq
        have hlen : d1.m_vecFileInfo.length = d.m_vecFileInfo.length + 1 := by
          have := congrArg List.length hids
          simpa using this
        rw [ih h, hids, hlen]
        simp only [List.length_cons, List.range_succ_eq_map, List.map_cons, List.map_map,
          List.append_assoc, List.singleton_append, Function.comp, Nat.add_zero]
        congr 2
        apply List.map_congr_left
        intro i _
        simp only [Function.comp_apply]
        congr 1
        omega

/-! ## Shared concrete inputs for instantiating the claims -/

/-- A two-file reader over the fixed names f0 and f1 (base directory ""). -/
def twoFileReader (a b : NcFileData) : NcReader :=
  fun s => if s = "f0" then some a else if s = "f1" then some b else none

def emptyNcFile : NcFileData := ⟨[], [], []⟩

def datasetOf : IngestResult → IndexedDataset
  | .done _ d => d
  | .fatal _ => IndexedDataset.mkEmpty

/-- C5: Ingesting a list of N files into a fresh catalog assigns file ids
"0", "1", ..., "N-1" (decimal renderings of 0..N-1) in the order the file
names are given, independent of base directory, reader and file content, and
re-ingesting a same-length list into another fresh catalog reproduces
identical ids. -/
theorem claim_C5 :
    (∀ (strBaseDir : String) (vecFilenames : List String) (reader : NcReader)
      (d' : IndexedDataset),
      IndexedDataset.mkEmpty.indexVariableData strBaseDir vecFilenames reader = .done "" d' →
      d'.m_vecFileInfo.map Prod.fst = (List.range vecFilenames.length).map toDecimal) ∧
    (∀ (bd1 bd2 : String) (fs1 fs2 : List String) (r1 r2 : NcReader)
      (d1 d2 : IndexedDataset),
      fs1.length = fs2.length →
      IndexedDataset.mkEmpty.indexVariableData bd1 fs1 r1 = .done "" d1 →
      IndexedDataset.mkEmpty.indexVariableData bd2 fs2 r2 = .done "" d2 →
      d1.m_vecFileInfo.map Prod.fst = d2.m_vecFileInfo.map Prod.fst) := by
  have base : ∀ (bd : String) (fs : List String) (r : NcReader) (d' : IndexedDataset),
      IndexedDataset.mkEmpty.indexVariableData bd fs r = .done "" d' →
      d'.m_vecFileInfo.map Prod.fst = (List.range fs.length).map toDecimal := by
    intro bd fs r d' h
    have := indexVariableData_fileIds h
    simpa [IndexedDataset.mkEmpty] using this
  refine ⟨base, ?_⟩
  intro bd1 bd2 fs1 fs2 r1 r2 d1 d2 hlen h1 h2
  rw [base bd1 fs1 r1 d1 h1, base bd2 fs2 r2 d2 h2, hlen]

def c5run : IngestResult :=
  IndexedDataset.mkEmpty.indexVariableData "" ["f0", "f1"]
    (twoFileReader emptyNcFile emptyNcFile)

def c5result : IndexedDataset := datasetOf c5run

/-- Witness for C5 at a concrete two-file ingestion. -/
theorem claim_C5_witness :
    c5result.m_vecFileInfo.map Prod.fst = (List.range 2).map toDecimal :=
  claim_C5.1 "" ["f0", "f1"] (twoFileReader emptyNcFile emptyNcFile) c5result rfl

/-! ## C6: coordinate-less axes -/

def cellFile (sz : Int) : NcFileData := ⟨[], [("cell", sz)], []⟩

def c6run : IngestResult :=
  IndexedDataset.mkEmpty.indexVariableData "" ["f0", "f1"]
    (twoFileReader (cellFile 100) (cellFile 50))

def c6result : IndexedDataset := datasetOf c6run

/-- C6 counterexample: ingesting a coordinate-less axis cell of size 100 and
then one of size 50 does NOT yield two variants "0" (size 100) and "1"
(size 50) as claimed; SubAxis::operator== returns true for any two untyped
subaxes without comparing m_lSize, so the size-50 occurrence is deduplicated
onto variant "0" and only one variant exists. -/
theorem claim_C6_counterexample :
    c6run = .done "" c6result ∧
    ¬ (c6result.m_vecAxisInfo.map
        (fun p => (p.1, p.2.m_vecSubAxis.map (fun q => (q.1, q.2.m_lSize))))
      = [("cell", [("0", 100), ("1", 50)])]) ∧
    c6result.m_vecAxisInfo.map
        (fun p => (p.1, p.2.m_vecSubAxis.map (fun q => (q.1, q.2.m_lSize))))
      = [("cell", [("0", 100)])] := by
  refine ⟨rfl, by decide, rfl⟩

/-- C6 as amended: for an axis with no coordinate variable in any file there
is no value comparison at all, size included: any later coordinate-less
occurrence of the axis, of any size, structurally matches the first variant,
so both occurrences are assigned variant id "0" and the axis keeps exactly
one variant, which records the first occurrence size. -/
theorem claim_C6 (n m : Int) :
    ∃ d', IndexedDataset.mkEmpty.indexVariableData "" ["f0", "f1"]
        (twoFileReader (cellFile n) (cellFile m)) = .done "" d' ∧
      (alookup d'.m_vecAxisInfo "cell").map
          (fun ax => ax.m_vecSubAxis.map (fun q => (q.1, q.2.m_nctype, q.2.m_lSize)))
        = some [("0", .ncNoType, n)] ∧
      (alookup d'.m_vecFileInfo "0").map (fun fi => fi.m_mapAxisSubAxis)
        = some [("cell", "0")] ∧
      (alookup d'.m_vecFileInfo "1").map (fun fi => fi.m_mapAxisSubAxis)
        = some [("cell", "0")] := by
  exact ⟨_, rfl, rfl, rfl, rfl⟩

/-! ## C7: pruning of redundant other attributes -/

def attOnlyFile (atts : List (String × String)) : NcFileData := ⟨atts, [], []⟩

def c7run : IngestResult :=
  IndexedDataset.mkEmpty.indexVariableData "" ["f0", "f1"]
    (twoFileReader (attOnlyFile [("note", "a")]) (attOnlyFile [("note", "b")]))

def c7result : IndexedDataset := datasetOf c7run

/-- C7 counterexample: the first file carries the other attribute note = a
(captured as the collection-level value) and the second file carries
note = b.  The claim says a key whose value differs from the collection-level
value is retained, so the entry for file "1" should keep note = b; the code
erases by key alone and the attribute is gone. -/
theorem claim_C7_counterexample :
    c7run = .done "" c7result ∧
    ¬ ((alookup c7result.m_vecFileInfo "1").bind
        (fun fi => alookup fi.doi.m_mapOtherAttributes "note") = some "b") ∧
    (alookup c7result.m_vecFileInfo "1").bind
        (fun fi => alookup fi.doi.m_mapOtherAttributes "note") = none := by
  refine ⟨rfl, by decide, rfl⟩

/-- C7 as amended: when a new file entry is created during ingestion, every
key of its classified "other" attributes that is present (under any value) in
the collection-level "other" attributes is removed from the file entry, and
every other key is retained; the stored values play no role in the
removal. -/
theorem claim_C7 (atts1 atts2 : List (String × String)) :
    ∃ d', IndexedDataset.mkEmpty.indexVariableData "" ["f0", "f1"]
        (twoFileReader (attOnlyFile atts1) (attOnlyFile atts2)) = .done "" d' ∧
      (alookup d'.m_vecFileInfo "1").map (fun fi => fi.doi.m_mapOtherAttributes)
        = some ((DataObjectInfo.mkEmpty.fromNcFile atts2).m_mapOtherAttributes.filter
            (fun kv =>
              (alookup (DataObjectInfo.mkEmpty.fromNcFile atts1).m_mapOtherAttributes
                kv.1).isNone)) := by
  exact ⟨_, rfl, rfl⟩

/-! ## C4: consistency enforcement -/

/-- A file whose only content is a dimensionless variable T of type t. -/
def c4varFile (t : NcType) : NcFileData := ⟨[], [], [⟨"T", t, [], [], []⟩]⟩

/-- A file with axis lat of size 1 carrying a coordinate variable of type t. -/
def c4axisFile (t : NcType) : NcFileData := ⟨[], [("lat", 1)], [⟨"lat", t, [], ["lat"], [1]⟩]⟩

/-- A file with axis lat of size 1 and no coordinate variable. -/
def c4bareAxisFile : NcFileData := ⟨[], [("lat", 1)], []⟩

def c4pairRun (a b : NcFileData) : IngestResult :=
  IndexedDataset.mkEmpty.indexVariableData "" ["f0", "f1"] (twoFileReader a b)

def c4firstRun (a b : NcFileData) : IngestResult :=
  IndexedDataset.mkEmpty.indexVariableData "" ["f0"] (twoFileReader a b)

/-- C4: (a) a second file whose variable T has a different element type than
the recorded one makes ingestion return the descriptive error naming T, and
the catalog entry for T is exactly the entry committed by the first file;
(b) a second sighting of axis lat whose coordinate variable has a different
element type returns the descriptive error naming lat, leaving the axis entry
unaltered; (c) a file lacking a coordinate variable for axis lat, which
previously had one, returns the descriptive missing-variable error naming
lat, leaving the axis entry unaltered. -/
theorem claim_C4 :
    (∀ t t' : NcType, t ≠ t' →
      c4pairRun (c4varFile t) (c4varFile t')
        = .done "ERROR: Variable \"T\" has inconsistent type across files"
            (datasetOf (c4pairRun (c4varFile t) (c4varFile t'))) ∧
      alookup (datasetOf (c4pairRun (c4varFile t) (c4varFile t'))).m_vecVariableInfo "T"
        = alookup (datasetOf (c4firstRun (c4varFile t) (c4varFile t'))).m_vecVariableInfo "T" ∧
      c4firstRun (c4varFile t) (c4varFile t')
        = .done "" (datasetOf (c4firstRun (c4varFile t) (c4varFile t')))) ∧
    (∀ t t' : NcType, (t = .ncFloat ∨ t = .ncDouble) → t' ≠ t →
      c4pairRun (c4axisFile t) (c4axisFile t')
        = .done ("ERROR: Dimension variable \"lat\" type mismatch.  "
            ++ "Possible duplicate dimension name in dataset.")
            (datasetOf (c4pairRun (c4axisFile t) (c4axisFile t'))) ∧
      alookup (datasetOf (c4pairRun (c4axisFile t) (c4axisFile t'))).m_vecAxisInfo "lat"
        = alookup (datasetOf (c4firstRun (c4axisFile t) (c4axisFile t'))).m_vecAxisInfo "lat" ∧
      c4firstRun (c4axisFile t) (c4axisFile t')
        = .done "" (datasetOf (c4firstRun (c4axisFile t) (c4axisFile t')))) ∧
    (∀ t : NcType, (t = .ncFloat ∨ t = .ncDouble) →
      c4pairRun (c4axisFile t) c4bareAxisFile
        = .done "ERROR: Dimension variable \"lat\" missing from file, but present in other files."
            (datasetOf (c4pairRun (c4axisFile t) c4bareAxisFile)) ∧
      alookup (datasetOf (c4pairRun (c4axisFile t) c4bareAxisFile)).m_vecAxisInfo "lat"
        = alookup (datasetOf (c4firstRun (c4axisFile t) c4bareAxisFile)).m_vecAxisInfo "lat") := by
  decide

/-- Witness for C4 at concrete type pairs. -/
theorem claim_C4_witness :
    (c4pairRun (c4varFile .ncFloat) (c4varFile .ncDouble)
      = .done "ERROR: Variable \"T\" has inconsistent type across files"
          (datasetOf (c4pairRun (c4varFile .ncFloat) (c4varFile .ncDouble)))) ∧
    (c4pairRun (c4axisFile .ncDouble) (c4axisFile .ncFloat)
      = .done ("ERROR: Dimension variable \"lat\" type mismatch.  "
          ++ "Possible duplicate dimension name in dataset.")
          (datasetOf (c4pairRun (c4axisFile .ncDouble) (c4axisFile .ncFloat)))) ∧
    (c4pairRun (c4axisFile .ncDouble) c4bareAxisFile
      = .done "ERROR: Dimension variable \"lat\" missing from file, but present in other files."
          (datasetOf (c4pairRun (c4axisFile .ncDouble) c4bareAxisFile))) :=
  ⟨(claim_C4.1 .ncFloat .ncDouble (by decide)).1,
   (claim_C4.2.1 .ncDouble .ncFloat (Or.inr rfl) (by decide)).1,
   (claim_C4.2.2 .ncDouble (Or.inr rfl)).1⟩

/-! ## C2: the location index is single-valued and first-writer-wins -/

theorem aupdate_self {κ α : Type} [DecidableEq κ] {m : List (κ × α)} {k : κ} {v : α}
    (h : alookup m k = some v) : aupdate m k v = m := by
  induction m with
  | nil => simp [alookup] at h
  | cons p rest ih =>
    obtain ⟨a, b⟩ := p
    by_cases hak : a = k
    · subst hak
      simp [alookup] at h
      simp [aupdate, h]
    · simp [alookup, hak] at h
      simp [aupdate, hak, ih h]

theorem ainsert_noop {κ α : Type} [DecidableEq κ] {m : List (κ × α)} {k : κ} (v : α)
    (h : (alookup m k).isSome) : ainsert m k v = m := by
  simp [ainsert, h]

theorem varLookupOrCreate_found {vars : List (String × VariableInfo)} {n : String}
    {vi : VariableInfo} (h : alookup vars n = some vi) :
    varLookupOrCreate vars n = (vars, vi, false) := by
  simp [varLookupOrCreate, h]

theorem varLookupOrCreate_lookup_ne {vars : List (String × VariableInfo)} {n w : String}
    (hw : ¬ n = w) :
    alookup (varLookupOrCreate vars n).1 w = alookup vars w := by
  unfold varLookupOrCreate
  split
  · rfl
  · rw [alookup_append]
    split
    · next heq2 => exact heq2.symm
    · next heq2 =>
      rw [heq2]
      simp [alookup, hw]

theorem varLookupOrCreate_mem {vars : List (String × VariableInfo)} {n : String}
    {p : String × VariableInfo} (hp : p ∈ (varLookupOrCreate vars n).1) :
    p ∈ vars ∨ p = (n, VariableInfo.mkNamed n) := by
  unfold varLookupOrCreate at hp
  split at hp
  · exact Or.inl hp
  · simp at hp
    rcases hp with hp | hp
    · exact Or.inl hp
    · right; simp [hp]

/-- A tuple that is already mapped leaves the variable entry entirely
unchanged: the group-map insert is a no-op of std::map::insert. -/
theorem varRecordLocation_noop {vi : VariableInfo} {names : List String}
    {m0 : List (List String × String)} (ids : List String) (fid : String)
    (hm : alookup vi.m_mapSubAxisToFileIdMaps names = some m0)
    (ht : (alookup m0 ids).isSome) :
    varRecordLocation vi names ids fid = vi := by
  unfold varRecordLocation
  simp only [hm, Option.isNone_some]
  rw [if_neg (by simp)]
  simp only [hm, Option.getD_some]
  rw [ainsert_noop fid ht, aupdate_self hm]

theorem varRecordLocation_preserved {vi : VariableInfo} (vnames ids : List String)
    (fid : String) {names tuple : List String} {m0 : List (List String × String)}
    {f0 : String}
    (hm : alookup vi.m_mapSubAxisToFileIdMaps names = some m0)
    (ht : alookup m0 tuple = some f0) :
    ∃ m1, alookup (varRecordLocation vi vnames ids fid).m_mapSubAxisToFileIdMaps names
        = some m1 ∧ alookup m1 tuple = some f0 := by
  unfold varRecordLocation
  by_cases hv : vnames = names
  · subst hv
    simp only [hm, Option.isNone_some]
    rw [if_neg (by simp)]
    simp only [hm, Option.getD_some]
    refine ⟨ainsert m0 ids fid, ?_, alookup_ainsert_of_some ht⟩
    simp [alookup_aupdate]
  · refine ⟨m0, ?_, ht⟩
    simp only []
    rw [alookup_aupdate]
    rw [if_neg hv]
    split
    · rw [alookup_append, hm]
    · exact hm

def locationWF (vars : List (String × VariableInfo)) : Prop :=
  ∀ p ∈ vars, ∀ g ∈ p.2.m_mapSubAxisToFileIdMaps, NodupKeys g.2

theorem varRecordLocation_nodup {vi : VariableInfo} (vnames ids : List String)
    (fid : String) (h : ∀ g ∈ vi.m_mapSubAxisToFileIdMaps, NodupKeys g.2) :
    ∀ g ∈ (varRecordLocation vi vnames ids fid).m_mapSubAxisToFileIdMaps, NodupKeys g.2 := by
  intro g hg
  unfold varRecordLocation at hg
  simp only [] at hg
  rcases mem_aupdate hg with hg1 | hg1
  · split at hg1
    · simp at hg1
      rcases hg1 with hg1 | hg1
      · exact h g hg1
      · rw [hg1]
        simp [NodupKeys]
    · exact h g hg1
  · subst hg1
    apply nodupKeys_ainsert
    by_cases hnone : alookup vi.m_mapSubAxisToFileIdMaps vnames = none
    · rw [if_pos (by simp [hnone])]
      rw [alookup_append, hnone]
      simp [alookup, NodupKeys]
    · obtain ⟨m1, hm1⟩ := Option.ne_none_iff_exists'.mp hnone
      rw [if_neg (by simp [hm1])]
      rw [hm1]
      simp only [Option.getD_some]
      exact h _ (alookup_mem hm1)

theorem aupdate_aupdate {κ α : Type} [DecidableEq κ] (m : List (κ × α)) (k : κ) (v w : α) :
    aupdate (aupdate m k v) k w = aupdate m k w := by
  induction m with
  | nil => simp [aupdate]
  | cons p rest ih =>
    obtain ⟨a, b⟩ := p
    by_cases hak : a = k
    · subst hak
      simp [aupdate]
    · simp [aupdate, hak, ih]

theorem varLookupOrCreate_snd (vars : List (String × VariableInfo)) (n : String) :
    (n, (varLookupOrCreate vars n).2.1) ∈ vars ∨
    (varLookupOrCreate vars n).2.1 = VariableInfo.mkNamed n := by
  unfold varLookupOrCreate
  split
  · next vi hvi => exact Or.inl (alookup_mem hvi)
  · exact Or.inr rfl

/-- The per-variable lookup state after the location index is threaded
through lookup-or-create and a single in-place update. -/
def lookupLocation (vars : List (String × VariableInfo)) (vname : String)
    (names tuple : List String) : Option String :=
  match alookup vars vname with
  | none => none
  | some vi =>
    match alookup vi.m_mapSubAxisToFileIdMaps names with
    | none => none
    | some m => alookup m tuple

theorem loc_preserved_step (vars : List (String × VariableInfo)) (n : String)
    (f : VariableInfo → VariableInfo)
    (hf : ∀ (vi : VariableInfo) (names tuple : List String) (f0 : String)
      (m0 : List (List String × String)),
      alookup vi.m_mapSubAxisToFileIdMaps names = some m0 →
      alookup m0 tuple = some f0 →
      ∃ m1, alookup (f vi).m_mapSubAxisToFileIdMaps names = some m1 ∧
        alookup m1 tuple = some f0)
    {vname : String} {names tuple : List String} {f0 : String}
    (hl : lookupLocation vars vname names tuple = some f0) :
    lookupLocation (aupdate (varLookupOrCreate vars n).1 n (f (varLookupOrCreate vars n).2.1))
      vname names tuple = some f0 := by
  unfold lookupLocation at hl ⊢
  by_cases hv : n = vname
  · subst hv
    cases hvi : alookup vars n with
    | none => rw [hvi] at hl; simp at hl
    | some vi0 =>
      rw [hvi] at hl
      simp only [] at hl
      rw [varLookupOrCreate_found hvi]
      simp only []
      rw [alookup_aupdate, if_pos rfl]
      simp only []
      cases hm : alookup vi0.m_mapSubAxisToFileIdMaps names with
      | none => rw [hm] at hl; simp at hl
      | some m0 =>
        rw [hm] at hl
        simp only [] at hl
        obtain ⟨m1, hm1, ht1⟩ := hf vi0 names tuple f0 m0 hm hl
        rw [hm1]
        exact ht1
  · rw [alookup_aupdate, if_neg hv, varLookupOrCreate_lookup_ne hv]
    exact hl

theorem locWF_step (vars : List (String × VariableInfo)) (n : String)
    (f : VariableInfo → VariableInfo)
    (hf : ∀ vi : VariableInfo, (∀ g ∈ vi.m_mapSubAxisToFileIdMaps, NodupKeys g.2) →
      ∀ g ∈ (f vi).m_mapSubAxisToFileIdMaps, NodupKeys g.2)
    (h : locationWF vars) :
    locationWF (aupdate (varLookupOrCreate vars n).1 n (f (varLookupOrCreate vars n).2.1)) := by
  intro p hp
  rcases mem_aupdate hp with hp1 | hp1
  · rcases varLookupOrCreate_mem hp1 with hp2 | hp2
    · exact h p hp2
    · rw [hp2]
      intro g hg
      simp [VariableInfo.mkNamed] at hg
  · rw [hp1]
    intro g hg
    refine hf _ ?_ g hg
    rcases varLookupOrCreate_snd vars n with h2 | h2
    · exact h _ h2
    · rw [h2]
      intro g2 hg2
      simp [VariableInfo.mkNamed] at hg2

theorem processVar_loc {d : IndexedDataset} {fi : FileInfo} {fid : String}
    {v : NcVarData} {e : String} {d' : IndexedDataset}
    (h : processVar d fi fid v = .ok (e, d')) :
    (∀ (vname : String) (names tuple : List String) (f0 : String),
      lookupLocation d.m_vecVariableInfo vname names tuple = some f0 →
      lookupLocation d'.m_vecVariableInfo vname names tuple = some f0) ∧
    (locationWF d.m_vecVariableInfo → locationWF d'.m_vecVariableInfo) := by
  unfold processVar at h
  simp only [] at h
  split at h
  · simp only [Except.ok.injEq, Prod.mk.injEq] at h
    obtain ⟨-, hd⟩ := h
    subst hd
    exact ⟨fun _ _ _ _ hl => hl, id⟩
  · split at h
    · exact absurd h (by simp)
    · next strError doiVar heqv =>
      split at h
      · simp only [Except.ok.injEq, Prod.mk.injEq] at h
        obtain ⟨-, hd⟩ := h
        subst hd
        constructor
        · intro vname names tuple f0 hl
          exact loc_preserved_step d.m_vecVariableInfo v.name
            (fun vi => { vi with doi := doiVar })
            (fun vi names tuple f0 m0 hm ht => ⟨m0, hm, ht⟩) hl
        · intro hwf
          exact locWF_step d.m_vecVariableInfo v.name
            (fun vi => { vi with doi := doiVar })
            (fun vi hvi => hvi) hwf
      · split at h
        · exact absurd h (by simp)
        · next ids heqids =>
          simp only [Except.ok.injEq, Prod.mk.injEq] at h
          obtain ⟨-, hd⟩ := h
          subst hd
          constructor
          · intro vname names tuple f0 hl
            simp only [aupdate_aupdate]
            exact loc_preserved_step d.m_vecVariableInfo v.name
              (fun vi => varRecordLocation { vi with doi := doiVar } v.dims ids fid)
              (fun vi names tuple f0 m0 hm ht =>
                varRecordLocation_preserved v.dims ids fid hm ht) hl
          · intro hwf
            simp only [aupdate_aupdate]
            exact locWF_step d.m_vecVariableInfo v.name
              (fun vi => varRecordLocation { vi with doi := doiVar } v.dims ids fid)
              (fun vi hvi => varRecordLocation_nodup v.dims ids fid hvi) hwf

theorem processVars_loc {fi : FileInfo} {fid : String} {vs : List NcVarData} :
    ∀ {d : IndexedDataset} {e : String} {d' : IndexedDataset},
    processVars d fi fid vs = .ok (e, d') →
    (∀ (vname : String) (names tuple : List String) (f0 : String),
      lookupLocation d.m_vecVariableInfo vname names tuple = some f0 →
      lookupLocation d'.m_vecVariableInfo vname names tuple = some f0) ∧
    (locationWF d.m_vecVariableInfo → locationWF d'.m_vecVariableInfo) := by
  induction vs with
  | nil =>
    intro d e d' h
    simp [processVars] at h
    rw [← h.2]
    exact ⟨fun _ _ _ _ hl => hl, id⟩
  | cons v rest ih =>
    intro d e d' h
    unfold processVars at h
    split at h
    · exact absurd h (by simp)
    · next heq =>
      obtain ⟨p1, p2⟩ := processVar_loc heq
      split at h
      · simp only [Except.ok.injEq, Prod.mk.injEq] at h
        obtain ⟨-, hd⟩ := h
        subst hd
        exact ⟨p1, p2⟩
      · obtain ⟨q1, q2⟩ := ih h
        exact ⟨fun vn ns tp f0 hl => q1 vn ns tp f0 (p1 vn ns tp f0 hl), fun hw => q2 (p2 hw)⟩

theorem processOneFile_loc {d : IndexedDataset} {bd f : String} {r : NcReader}
    {e : String} {d' : IndexedDataset} (h : processOneFile d bd f r = .ok (e, d')) :
    (∀ (vname : String) (names tuple : List String) (f0 : String),
      lookupLocation d.m_vecVariableInfo vname names tuple = some f0 →
      lookupLocation d'.m_vecVariableInfo vname names tuple = some f0) ∧
    (locationWF d.m_vecVariableInfo → locationWF d'.m_vecVariableInfo) := by
  unfold processOneFile processOpenedFile at h
  simp only [] at h
  split at h
  · simp only [Except.ok.injEq, Prod.mk.injEq] at h
    obtain ⟨-, hd⟩ := h
    subst hd
    exact ⟨fun _ _ _ _ hl => hl, id⟩
  · split at h
    · exact absurd h (by simp)
    · next e2 d2 fi3 heq =>
      have h2 := (processDims_state heq).2.1
      have hvars : d2.m_vecVariableInfo = d.m_vecVariableInfo := by
        rw [h2]
        split <;> rfl
      split at h
      · simp only [Except.ok.injEq, Prod.mk.injEq] at h
        obtain ⟨-, hd⟩ := h
        subst hd
        rw [← hvars] at *
        exact ⟨fun vn ns tp f0 hl => by simpa [hvars] using hl,
          fun hw => by simpa [hvars] using hw⟩
      · split at h
        · exact absurd h (by simp)
        · next e3 d4 heq2 =>
          simp only [Except.ok.injEq, Prod.mk.injEq] at h
          obtain ⟨-, hd⟩ := h
          subst hd
          obtain ⟨q1, q2⟩ := processVars_loc heq2
          constructor
          · intro vn ns tp f0 hl
            apply q1
            simpa [hvars] using hl
          · intro hw
            apply q2
            simpa [hvars] using hw

theorem indexVariableData_loc {bd : String} {r : NcReader} {files : List String} :
    ∀ {d : IndexedDataset} {e : String} {d' : IndexedDataset},
    d.indexVariableData bd files r = .done e d' →
    (∀ (vname : String) (names tuple : List String) (f0 : String),
      lookupLocation d.m_vecVariableInfo vname names tuple = some f0 →
      lookupLocation d'.m_vecVariableInfo vname names tuple = some f0) ∧
    (locationWF d.m_vecVariableInfo → locationWF d'.m_vecVariableInfo) := by
  induction files with
  | nil =>
    intro d e d' h
    simp [IndexedDataset.indexVariableData] at h
    rw [← h.2]
    exact ⟨fun _ _ _ _ hl => hl, id⟩
  | cons f rest ih =>
    intro d e d' h
    unfold IndexedDataset.indexVariableData at h
    split at h
    · exact absurd h (by simp)
    · next e1 d1 heq =>
      obtain ⟨p1, p2⟩ := processOneFile_loc heq
      split at h
      · simp only [IngestResult.done.injEq] at h
        rw [← h.2]
        exact ⟨p1, p2⟩
      · obtain ⟨q1, q2⟩ := ih h
        exact ⟨fun vn ns tp f0 hl => q1 vn ns tp f0 (p1 vn ns tp f0 hl), fun hw => q2 (p2 hw)⟩

/-! ## The C2 claim -/

def c2file : NcFileData :=
  ⟨[], [("lat", 3)], [⟨"lat", .ncDouble, [], ["lat"], [1, 2, 3]⟩,
    ⟨"temp", .ncFloat, [], ["lat"], []⟩]⟩

def c2reader : NcReader := twoFileReader c2file c2file

def c2run : IngestResult :=
  IndexedDataset.mkEmpty.indexVariableData "" ["f0", "f1"] c2reader

def c2result : IndexedDataset := datasetOf c2run

def c2mid : IndexedDataset :=
  datasetOf (IndexedDataset.mkEmpty.indexVariableData "" ["f0"] c2reader)

/-- C2: (i) a variant-id tuple that maps to a file id keeps exactly that file
id through any further ingestion (first writer wins); (ii) every inner map of
every location-index group stays single-valued (no duplicated tuple keys)
through ingestion; (iii) at the point of insertion, a tuple that is already
present leaves the variable entry completely unchanged; (iv) in the concrete
Scenario A, two identical files produce one mapping tuple ("0") to file "0",
the second file overriding nothing, and ingestion reports no error. -/
theorem claim_C2 :
    (∀ (d : IndexedDataset) (bd : String) (files : List String) (r : NcReader)
      (e : String) (d' : IndexedDataset),
      d.indexVariableData bd files r = .done e d' →
      (∀ (vname : String) (names tuple : List String) (f0 : String),
        lookupLocation d.m_vecVariableInfo vname names tuple = some f0 →
        lookupLocation d'.m_vecVariableInfo vname names tuple = some f0) ∧
      (locationWF d.m_vecVariableInfo → locationWF d'.m_vecVariableInfo)) ∧
    (∀ (vi : VariableInfo) (names ids : List String) (fid : String)
      (m0 : List (List String × String)),
      alookup vi.m_mapSubAxisToFileIdMaps names = some m0 →
      (alookup m0 ids).isSome →
      varRecordLocation vi names ids fid = vi) ∧
    (c2run = .done "" c2result ∧
      (alookup c2result.m_vecVariableInfo "temp").map
          (fun vi => vi.m_mapSubAxisToFileIdMaps)
        = some [(["lat"], [(["0"], "0")])]) := by
  refine ⟨?_, ?_, rfl, rfl⟩
  · intro d bd files r e d' h
    exact indexVariableData_loc h
  · intro vi names ids fid m0 hm ht
    exact varRecordLocation_noop ids fid hm ht

def c2vi : VariableInfo := ⟨DataObjectInfo.ofName "temp", [(["lat"], [(["0"], "0")])]⟩

/-- Witness for C2: the preservation part applied across the second file of
Scenario A, and the no-op part applied at a concrete occupied tuple. -/
theorem claim_C2_witness :
    lookupLocation c2result.m_vecVariableInfo "temp" ["lat"] ["0"] = some "0" ∧
    varRecordLocation c2vi ["lat"] ["0"] "1" = c2vi :=
  ⟨(claim_C2.1 c2mid "" ["f1"] c2reader "" c2result rfl).1 "temp" ["lat"] ["0"] "0" rfl,
   claim_C2.2.1 c2vi ["lat"] ["0"] "1" [(["0"], "0")] rfl (by decide)⟩

/-! ## C1: variant dedup and dense ids -/

theorem axisLookupOrCreate_mem {axes : List (String × AxisInfo)} {n : String}
    {p : String × AxisInfo} (hp : p ∈ (axisLookupOrCreate axes n).1) :
    p ∈ axes ∨ p = (n, AxisInfo.mkNamed n) := by
  unfold axisLookupOrCreate at hp
  split at hp
  · exact Or.inl hp
  · simp at hp
    rcases hp with hp | hp
    · exact Or.inl hp
    · right; simp [hp]

theorem axisLookupOrCreate_snd (axes : List (String × AxisInfo)) (n : String) :
    (n, (axisLookupOrCreate axes n).2.1) ∈ axes ∨
    (axisLookupOrCreate axes n).2.1 = AxisInfo.mkNamed n := by
  unfold axisLookupOrCreate
  split
  · next ax hax => exact Or.inl (alookup_mem hax)
  · exact Or.inr rfl

/-- Dense decimal subaxis ids on one axis. -/
def denseSub (ax : AxisInfo) : Prop :=
  ax.m_vecSubAxis.map Prod.fst = (List.range ax.m_vecSubAxis.length).map toDecimal

/-- Dense decimal subaxis ids on every axis of the catalog. -/
def denseAxes (axes : List (String × AxisInfo)) : Prop :=
  ∀ p ∈ axes, denseSub p.2

theorem denseAxes_lookupOrCreate {axes : List (String × AxisInfo)} (n : String)
    (hd : denseAxes axes) : denseAxes (axisLookupOrCreate axes n).1 := by
  intro p hp
  rcases axisLookupOrCreate_mem hp with h2 | h2
  · exact hd p h2
  · rw [h2]
    simp [AxisInfo.mkNamed, denseSub]

theorem denseAxes_aupdate {axes : List (String × AxisInfo)} {n : String}
    {ax : AxisInfo} (hd : denseAxes axes) (hax : denseSub ax) :
    denseAxes (aupdate (axisLookupOrCreate axes n).1 n ax) := by
  intro p hp
  rcases mem_aupdate hp with hp1 | hp1
  · exact denseAxes_lookupOrCreate n hd p hp1
  · rw [hp1]
    exact hax

/-- The dedup scan keeps ids dense: reuse keeps the axis unchanged, and a new
variant is appended under the id that renders the current count. -/
theorem subAxisScanInsert_dense {ax : AxisInfo} {cand : SubAxis}
    {out : String × AxisInfo}
    (heq : subAxisScanInsert ax (toDecimal ax.m_vecSubAxis.length) cand = out)
    (hax : denseSub ax) : denseSub out.2 := by
  unfold subAxisScanInsert at heq
  split at heq
  · rw [← heq]
    exact hax
  · rw [← heq]
    unfold denseSub at hax ⊢
    simp only [List.map_append, List.length_append, List.map_cons, List.map_nil,
      List.length_cons, List.length_nil]
    rw [hax]
    rw [show ax.m_vecSubAxis.length + (0 + 1) = ax.m_vecSubAxis.length + 1 from by omega]
    rw [List.range_succ]
    simp

theorem processDim_dense {d : IndexedDataset} {fi : FileInfo} {file : NcFileData}
    {n : String} {s : Int} {e : String} {d' : IndexedDataset} {fi' : FileInfo}
    (h : processDim d fi file n s = .ok (e, d', fi'))
    (hd : denseAxes d.m_vecAxisInfo) : denseAxes d'.m_vecAxisInfo := by
  unfold processDim at h
  simp only [] at h
  repeat' split at h
  all_goals simp only [Except.ok.injEq, Except.error.injEq, Prod.mk.injEq,
    reduceCtorEq, false_and, and_false] at h
  all_goals obtain ⟨-, hdd, -⟩ := h
  all_goals subst hdd
  all_goals simp only []
  all_goals first
    | exact denseAxes_lookupOrCreate n hd
    | exact denseAxes_aupdate hd (subAxisScanInsert_dense rfl (by
        rcases axisLookupOrCreate_snd d.m_vecAxisInfo n with h2 | h2
        · exact hd _ h2
        · rw [h2]; simp [AxisInfo.mkNamed, denseSub]))

theorem processDims_dense {file : NcFileData} {dims : List (String × Int)} :
    ∀ {d : IndexedDataset} {fi : FileInfo} {e : String} {d' : IndexedDataset} {fi' : FileInfo},
    processDims d fi file dims = .ok (e, d', fi') →
    denseAxes d.m_vecAxisInfo → denseAxes d'.m_vecAxisInfo := by
  induction dims with
  | nil =>
    intro d fi e d' fi' h hd
    simp [processDims] at h
    rw [← h.2.1]
    exact hd
  | cons p rest ih =>
    intro d fi e d' fi' h hd
    unfold processDims at h
    split at h
    · exact absurd h (by simp)
    · next heq =>
      split at h
      · simp only [Except.ok.injEq, Prod.mk.injEq] at h
        rw [← h.2.1]
        exact processDim_dense heq hd
      · exact ih h (processDim_dense heq hd)

theorem processOneFile_dense {d : IndexedDataset} {bd f : String} {r : NcReader}
    {e : String} {d' : IndexedDataset} (h : processOneFile d bd f r = .ok (e, d'))
    (hd : denseAxes d.m_vecAxisInfo) : denseAxes d'.m_vecAxisInfo := by
  unfold processOneFile processOpenedFile at h
  simp only [] at h
  split at h
  · simp only [Except.ok.injEq, Prod.mk.injEq] at h
    obtain ⟨-, hdd⟩ := h
    subst hdd
    exact hd
  · split at h
    · exact absurd h (by simp)
    · next e2 d2 fi3 heq =>
      have h2 : denseAxes d2.m_vecAxisInfo := by
        refine processDims_dense heq ?_
        intro p hp
        apply hd
        revert hp
        split <;> exact id
      split at h
      · simp only [Except.ok.injEq, Prod.mk.injEq] at h
        obtain ⟨-, hdd⟩ := h
        subst hdd
        exact h2
      · split at h
        · exact absurd h (by simp)
        · next e3 d4 heq2 =>
          simp only [Except.ok.injEq, Prod.mk.injEq] at h
          obtain ⟨-, hdd⟩ := h
          subst hdd
          have h3 := (processVars_state heq2).2.1
          intro p hp
          rw [h3] at hp
          exact h2 p hp

theorem indexVariableData_dense {bd : String} {r : NcReader} {files : List String} :
    ∀ {d : IndexedDataset} {e : String} {d' : IndexedDataset},
    d.indexVariableData bd files r = .done e d' →
    denseAxes d.m_vecAxisInfo → denseAxes d'.m_vecAxisInfo := by
  induction files with
  | nil =>
    intro d e d' h hd
    simp [IndexedDataset.indexVariableData] at h
    rw [← h.2]
    exact hd
  | cons f rest ih =>
    intro d e d' h hd
    unfold IndexedDataset.indexVariableData at h
    split at h
    · exact absurd h (by simp)
    · next e1 d1 heq =>
      split at h
      · simp only [IngestResult.done.injEq] at h
        rw [← h.2]
        exact processOneFile_dense heq hd
      · exact ih h (processOneFile_dense heq hd)

/-! ## The C1 claim -/

def c1file (vals : List ℚ) : NcFileData :=
  ⟨[], [("lat", vals.length)], [⟨"lat", .ncFloat, [], ["lat"], vals⟩]⟩

def c1reader : NcReader := twoFileReader (c1file [1]) (c1file [2])

def c1run : IngestResult :=
  IndexedDataset.mkEmpty.indexVariableData "" ["f0", "f1"] c1reader

def c1result : IndexedDataset := datasetOf c1run

/-- C1 counterexample: two files contribute Float coordinate arrays for axis
lat that differ in their only element by 1 (far beyond the 1e-6 tolerance),
yet both occurrences are assigned the same variant id "0" and the axis keeps
one variant holding [1]: the claim says differing arrays get distinct ids.
The cause is the ncFloat branch of SubAxis::operator== iterating over
m_dValuesDouble (empty for float subaxes), so any same-length float arrays
compare equal. -/
theorem claim_C1_counterexample :
    c1run = .done "" c1result ∧
    fpaAlmostEqual 1 2 = false ∧
    (alookup c1result.m_vecFileInfo "0").bind (fun fi => alookup fi.m_mapAxisSubAxis "lat")
      = some "0" ∧
    (alookup c1result.m_vecFileInfo "1").bind (fun fi => alookup fi.m_mapAxisSubAxis "lat")
      = some "0" ∧
    ¬ ((alookup c1result.m_vecFileInfo "0").bind (fun fi => alookup fi.m_mapAxisSubAxis "lat")
        ≠ (alookup c1result.m_vecFileInfo "1").bind (fun fi => alookup fi.m_mapAxisSubAxis "lat")) ∧
    (alookup c1result.m_vecAxisInfo "lat").map
        (fun ax => ax.m_vecSubAxis.map (fun q => (q.1, q.2.m_dValuesFloat)))
      = some [("0", [1])] := by
  refine ⟨rfl, by decide, rfl, rfl, by decide, rfl⟩

/-- C1 as amended: (i) on any ingestion run the variant ids of every axis are
the decimal renderings of 0..count-1 in creation order; (ii) a Double
candidate structurally matches a stored Double variant exactly when the value
arrays have the same length and agree element-wise within the 1e-6 tolerance,
so equal-within-tolerance arrays (against the stored variant values) reuse
the variant id; (iii) for Float subaxes the element loop of
SubAxis::operator== runs over the empty double-value array, so a Float
candidate matches a stored Float variant exactly when the float arrays have
equal length, regardless of values; (iv) the scan reuses the id of the first
structurally matching variant in creation order and leaves the axis
unchanged, and otherwise appends the candidate under the precomputed id. -/
theorem claim_C1 :
    (∀ (bd : String) (files : List String) (r : NcReader) (e : String)
      (d' : IndexedDataset),
      IndexedDataset.mkEmpty.indexVariableData bd files r = .done e d' →
      ∀ p ∈ d'.m_vecAxisInfo,
        p.2.m_vecSubAxis.map Prod.fst
          = (List.range p.2.m_vecSubAxis.length).map toDecimal) ∧
    (∀ s c : SubAxis, s.m_nctype = .ncDouble → c.m_nctype = .ncDouble →
      (SubAxis.eqOp s c = true ↔
        (c.m_dValuesDouble.length = s.m_dValuesDouble.length ∧
          ∀ i < s.m_dValuesDouble.length,
            fpaAlmostEqual (c.m_dValuesDouble.getD i 0) (s.m_dValuesDouble.getD i 0) = true))) ∧
    (∀ s c : SubAxis, s.m_nctype = .ncFloat → c.m_nctype = .ncFloat →
      s.m_dValuesDouble = [] →
      (SubAxis.eqOp s c = true ↔ c.m_dValuesFloat.length = s.m_dValuesFloat.length)) ∧
    (∀ (ax : AxisInfo) (sid : String) (cand : SubAxis),
      (∀ p, ax.m_vecSubAxis.find? (fun q => SubAxis.eqOp q.2 cand) = some p →
        subAxisScanInsert ax sid cand = (p.1, ax)) ∧
      (ax.m_vecSubAxis.find? (fun q => SubAxis.eqOp q.2 cand) = none →
        subAxisScanInsert ax sid cand
          = (sid, { ax with m_vecSubAxis := ax.m_vecSubAxis ++ [(sid, cand)] }))) := by
  refine ⟨?_, ?_, ?_, ?_⟩
  · intro bd files r e d' h
    exact indexVariableData_dense h (fun p hp => by simp [IndexedDataset.mkEmpty] at hp)
  · intro s c hs hc
    unfold SubAxis.eqOp
    rw [hs, hc]
    simp only [ne_eq, not_true_eq_false, if_false, reduceCtorEq, if_true, ite_false, ite_true]
    by_cases hlen : c.m_dValuesDouble.length = s.m_dValuesDouble.length
    · simp [hlen, List.all_eq_true, List.mem_range]
    · simp [hlen]
  · intro s c hs hc hdd
    unfold SubAxis.eqOp
    rw [hs, hc, hdd]
    by_cases hlen : c.m_dValuesFloat.length = s.m_dValuesFloat.length
    · simp [hlen]
    · simp [hlen]
  · intro ax sid cand
    constructor
    · intro p hp
      unfold subAxisScanInsert
      rw [hp]
    · intro hp
      unfold subAxisScanInsert
      rw [hp]

def c1subD (vals : List ℚ) : SubAxis :=
  ⟨DataObjectInfo.mkEmpty, .ncDouble, vals.length, [], [], vals⟩

def c1subF (vals : List ℚ) : SubAxis :=
  ⟨DataObjectInfo.mkEmpty, .ncFloat, vals.length, [], vals, []⟩

def c1axisD : AxisInfo := ⟨DataObjectInfo.ofName "lev", [("0", c1subD [1, 2])]⟩

/-- The rational 2.0000001, built as an explicit reduced fraction so that its
numerator and denominator evaluate by kernel reduction. -/
def c1q : ℚ := ⟨20000001, 10000000, by norm_num, by norm_num⟩

/-- Witness for C1: dense ids on the concrete float run; the Double
characterization at arrays within tolerance; the Float length-only
degeneration at unequal arrays; reuse of a matching variant at a concrete
scan. -/
theorem claim_C1_witness :
    (("lat", (alookup c1result.m_vecAxisInfo "lat").getD (AxisInfo.mkNamed "lat"))
        ∈ c1result.m_vecAxisInfo →
      ((alookup c1result.m_vecAxisInfo "lat").getD (AxisInfo.mkNamed "lat")).m_vecSubAxis.map
          Prod.fst
        = (List.range ((alookup c1result.m_vecAxisInfo "lat").getD
            (AxisInfo.mkNamed "lat")).m_vecSubAxis.length).map toDecimal) ∧
    SubAxis.eqOp (c1subD [1, 2]) (c1subD [1, c1q]) = true ∧
    SubAxis.eqOp (c1subF [1]) (c1subF [2]) = true ∧
    subAxisScanInsert c1axisD "1" (c1subD [1, 2]) = ("0", c1axisD) := by
  refine ⟨?_, ?_, ?_, ?_⟩
  · intro hmem
    exact claim_C1.1 "" ["f0", "f1"] c1reader "" c1result rfl _ hmem
  · exact (claim_C1.2.1 (c1subD [1, 2]) (c1subD [1, c1q]) rfl rfl).mpr
      (by constructor
          · rfl
          · intro i hi
            have hi2 : i < 2 := by simpa [c1subD] using hi
            interval_cases i <;> decide)
  · exact (claim_C1.2.2.1 (c1subF [1]) (c1subF [2]) rfl rfl rfl).mpr rfl
  · exact (claim_C1.2.2.2 c1axisD "1" (c1subD [1, 2])).1 ("0", c1subD [1, 2]) rfl

/-! ## JSON model (nlohmann::json as used by the serializer)

Objects are association lists in insertion order; assignment through
operator[] overwrites an existing key (aupdate).  An Except.error models the
type_error exceptions nlohmann raises when operator[] or push_back is applied
to a value of the wrong kind, and the EXCEPTION macros of the loader. -/

inductive Json where
  | null
  | str (s : String)
  | jint (n : Int)
  | num (q : ℚ)
  | arr (elems : List Json)
  | obj (members : List (String × Json))

def objGet : Json → String → Option Json
  | .obj kvs, k => alookup kvs k
  | _, _ => none

/-- Iteration over a json value: an object yields its members and null yields
nothing; iteration over other kinds (which the serializer never produces at
an iterated position) is modelled as empty. -/
def jsonEntries : Json → List (String × Json)
  | .obj kvs => kvs
  | _ => []

/-- Model of the assignment j[k] = v: creates an object from null and
overwrites an existing member. -/
def objSet (j : Json) (k : String) (v : Json) : Except String Json :=
  match j with
  | .null => .ok (.obj [(k, v)])
  | .obj kvs => .ok (.obj (aupdate kvs k v))
  | _ => .error "type_error: cannot use operator[] with this value"

def setAttrs : Json → AttributeMap → Except String Json
  | j, [] => .ok j
  | j, (k, v) :: rest =>
    match objSet j k (.str v) with
    | .error m => .error m
    | .ok j2 => setAttrs j2 rest

/-- Model of a sequence of push_back calls on the member reached through
j[k]: referencing the member creates it as null; push_back converts null to
an array and rejects other non-array values. -/
def pushAllE (j : Json) (items : List Json) : Except String Json :=
  match j with
  | .null => .ok (if items.isEmpty then .null else .arr items)
  | .arr xs => .ok (.arr (xs ++ items))
  | _ => .error "type_error: cannot use push_back with this value"

def pushMember (j : Json) (k : String) (items : List Json) : Except String Json :=
  match pushAllE ((objGet j k).getD .null) items with
  | .error m => .error m
  | .ok a => objSet j k a

def Json.asStrE : Json → Except String String
  | .str s => .ok s
  | _ => .error "type_error: value is not a string"

/-- Numeric read used by SubAxis::FromJSON for Int values; the truncating
conversion from a float json is unreachable from the serializer output. -/
def Json.asIntE : Json → Except String Int
  | .jint n => .ok n
  | .num q => .ok q.floor
  | _ => .error "type_error: value is not a number"

def Json.asRatE : Json → Except String ℚ
  | .jint n => .ok (n : ℚ)
  | .num q => .ok q
  | _ => .error "type_error: value is not a number"

def asIntListE : List Json → Except String (List Int)
  | [] => .ok []
  | x :: rest =>
    match x.asIntE with
    | .error m => .error m
    | .ok n =>
      match asIntListE rest with
      | .error m => .error m
      | .ok l => .ok (n :: l)

def asRatListE : List Json → Except String (List ℚ)
  | [] => .ok []
  | x :: rest =>
    match x.asRatE with
    | .error m => .error m
    | .ok q =>
      match asRatListE rest with
      | .error m => .error m
      | .ok l => .ok (q :: l)

def asStrListE : List Json → Except String (List String)
  | [] => .ok []
  | x :: rest =>
    match x.asStrE with
    | .error m => .error m
    | .ok s =>
      match asStrListE rest with
      | .error m => .error m
      | .ok l => .ok (s :: l)

/-- Decimal rendering of a signed integer (std::to_string on long long). -/
def intToString (n : Int) : String :=
  if n < 0 then "-" ++ toDecimal n.natAbs else toDecimal n.natAbs

/-- Model of std::to_string on a double-valued attribute; only the fact that
a string is produced matters to the verified statements. -/
def ratToString (q : ℚ) : String :=
  intToString q.num ++ "/" ++ toDecimal q.den

/-- The string/integer/float attribute classification the loader applies to
the remaining members of a file, axis or variable object; none means the
Invalid-JSON-attribute fatal error. -/
def attrValueToString : Json → Option String
  | .str s => some s
  | .jint n => some (intToString n)
  | .num q => some (ratToString q)
  | _ => none

/-- SubAxis::ToJSON (lines 267 to 304): write datatype and size into the
given object and push the typed values onto its values member. -/
def SubAxis.toJSON (sa : SubAxis) (j : Json) : Except String Json :=
  match objSet j "datatype" (.str (NcTypeToString sa.m_nctype)) with
  | .error m => .error m
  | .ok j1 =>
    match objSet j1 "size" (.jint sa.m_lSize) with
    | .error m => .error m
    | .ok j2 =>
      match sa.m_nctype with
      | .ncNoType => .ok j2
      | .ncInt => pushMember j2 "values" (sa.m_dValuesInts.map Json.jint)
      | .ncFloat => pushMember j2 "values" (sa.m_dValuesFloat.map Json.num)
      | .ncDouble => pushMember j2 "values" (sa.m_dValuesDouble.map Json.num)

/-- SubAxis::FromJSON (lines 308 to 361). -/
def SubAxis.fromJSON (strKey : String) (j : Json) : Except String SubAxis :=
  match objGet j "datatype" with
  | none => .error ("JSON subaxis \"" ++ strKey ++ "\" missing \"datatype\" key")
  | some jd =>
    match jd with
    | .str sdt =>
      match StringToNcType sdt with
      | none => .error ("Invalid datatype \"" ++ sdt ++ "\"")
      | some nct =>
        match objGet j "size" with
        | none => .error ("JSON subaxis \"" ++ strKey ++ "\" missing \"size\" key")
        | some js =>
          match js with
          | .jint sz =>
            let sa0 : SubAxis := { SubAxis.mkEmpty with m_nctype := nct, m_lSize := sz }
            match objGet j "values" with
            | none => .ok sa0
            | some jv =>
              match jv with
              | .arr xs =>
                match nct with
                | .ncInt =>
                  match asIntListE xs with
                  | .error m => .error m
                  | .ok l => .ok { sa0 with m_dValuesInts := l }
                | .ncFloat =>
                  match asRatListE xs with
                  | .error m => .error m
                  | .ok l => .ok { sa0 with m_dValuesFloat := l }
                | .ncDouble =>
                  match asRatListE xs with
                  | .error m => .error m
                  | .ok l => .ok { sa0 with m_dValuesDouble := l }
                | .ncNoType =>
                  .error ("JSON subaxis \"" ++ strKey
                    ++ "\" \"values\" unsupported type, expected [\"Int\", \"Float\", \"Double\"]")
              | _ => .error ("JSON subaxis \"" ++ strKey ++ "\" \"values\" must be type array")
          | _ => .error ("JSON subaxis \"" ++ strKey ++ "\" \"size\" must be type integer")
    | _ => .error ("JSON subaxis \"" ++ strKey ++ "\" \"datatype\" must be type string")

/-! ## ToJSONFile (lines 1995 to 2146) -/

def datasetSectionToJSON (d : DataObjectInfo) : Except String Json :=
  match setAttrs .null d.m_mapKeyAttributes with
  | .error m => .error m
  | .ok j1 => setAttrs j1 d.m_mapOtherAttributes

def fileEntryToJSON (fi : FileInfo) : Except String Json :=
  match objSet .null "name" (.str fi.m_strFilename) with
  | .error m => .error m
  | .ok j1 =>
    match setAttrs j1 fi.doi.m_mapKeyAttributes with
    | .error m => .error m
    | .ok j2 =>
      match setAttrs j2 fi.doi.m_mapOtherAttributes with
      | .error m => .error m
      | .ok j3 =>
        pushMember j3 "axes"
          (fi.m_mapAxisSubAxis.map (fun p => Json.arr [.str p.1, .str p.2]))

def filesSectionToJSON : List (String × FileInfo) → Json → Except String Json
  | [], j => .ok j
  | (fid, fi) :: rest, j =>
    match fileEntryToJSON fi with
    | .error m => .error m
    | .ok jfi =>
      match objSet j fid jfi with
      | .error m => .error m
      | .ok j2 => filesSectionToJSON rest j2

/-- The nested writes jaa[subaxes][id] for an axis with several variants. -/
def subaxesNestedToJSON : Json → List (String × SubAxis) → Except String Json
  | j, [] => .ok j
  | j, (sid, sa) :: rest =>
    match (objGet j "subaxes").getD .null with
    | .null =>
      match SubAxis.toJSON sa .null with
      | .error m => .error m
      | .ok e2 =>
        match objSet (Json.obj []) sid e2 with
        | .error m => .error m
        | .ok jsub2 =>
          match objSet j "subaxes" jsub2 with
          | .error m => .error m
          | .ok j2 => subaxesNestedToJSON j2 rest
    | .obj kvs =>
      match SubAxis.toJSON sa ((alookup kvs sid).getD .null) with
      | .error m => .error m
      | .ok e2 =>
        match objSet (Json.obj kvs) sid e2 with
        | .error m => .error m
        | .ok jsub2 =>
          match objSet j "subaxes" jsub2 with
          | .error m => .error m
          | .ok j2 => subaxesNestedToJSON j2 rest
    | _ => .error "type_error: cannot use operator[] with this value"

def axisEntryToJSON (ax : AxisInfo) : Except String Json :=
  match objSet (Json.obj [("units", .str ax.doi.m_strUnits)]) "datatype"
      (.str (NcTypeToString ax.doi.m_nctype)) with
  | .error m => .error m
  | .ok j1 =>
    match setAttrs j1 ax.doi.m_mapKeyAttributes with
    | .error m => .error m
    | .ok j2 =>
      match setAttrs j2 ax.doi.m_mapOtherAttributes with
      | .error m => .error m
      | .ok j3 =>
        match ax.m_vecSubAxis with
        | [(_, sa)] => SubAxis.toJSON sa j3
        | l => subaxesNestedToJSON j3 l

def axesSectionToJSON : List (String × AxisInfo) → Json → Except String Json
  | [], j => .ok j
  | (_, ax) :: rest, j =>
    match axisEntryToJSON ax with
    | .error m => .error m
    | .ok jaa =>
      match objSet j ax.doi.m_strName jaa with
      | .error m => .error m
      | .ok j2 => axesSectionToJSON rest j2

/-- One axis-name-list group written as the axisids and subaxismap pair. -/
def groupToJSON (g : List String × List (List String × String)) (j : Json) :
    Except String Json :=
  match pushMember j "axisids" (g.1.map Json.str) with
  | .error m => .error m
  | .ok j1 =>
    pushMember j1 "subaxismap"
      (g.2.map (fun e => Json.arr (e.1.map Json.str ++ [.str e.2])))

/-- The nested writes jvv[axisgroups][toString ixAxisGroup] when a variable
has more than one axis-name-list group.  The counter ixAxisGroup is declared
before the loop (line 2118) and read for the key (line 2125) but never
incremented, so every group is written under the same key "0" and the pushes
of the second and later groups append their names and entries onto the
arrays of the first group. -/
def axisgroupsNestedToJSON :
    Json → Nat → List (List String × List (List String × String)) → Except String Json
  | j, _, [] => .ok j
  | j, i, g :: rest =>
    match (objGet j "axisgroups").getD .null with
    | .null =>
      match groupToJSON g .null with
      | .error m => .error m
      | .ok e2 =>
        match objSet (Json.obj []) (toDecimal i) e2 with
        | .error m => .error m
        | .ok jg2 =>
          match objSet j "axisgroups" jg2 with
          | .error m => .error m
          | .ok j2 => axisgroupsNestedToJSON j2 i rest
    | .obj kvs =>
      match groupToJSON g ((alookup kvs (toDecimal i)).getD .null) with
      | .error m => .error m
      | .ok e2 =>
        match objSet (Json.obj kvs) (toDecimal i) e2 with
        | .error m => .error m
        | .ok jg2 =>
          match objSet j "axisgroups" jg2 with
          | .error m => .error m
          | .ok j2 => axisgroupsNestedToJSON j2 i rest
    | _ => .error "type_error: cannot use operator[] with this value"

def varEntryToJSON (vi : VariableInfo) : Except String Json :=
  match objSet (Json.obj [("units", .str vi.doi.m_strUnits)]) "datatype"
      (.str (NcTypeToString vi.doi.m_nctype)) with
  | .error m => .error m
  | .ok j1 =>
    match setAttrs j1 vi.doi.m_mapKeyAttributes with
    | .error m => .error m
    | .ok j2 =>
      match setAttrs j2 vi.doi.m_mapOtherAttributes with
      | .error m => .error m
      | .ok j3 =>
        match vi.m_mapSubAxisToFileIdMaps with
        | [] => .ok j3
        | [g] => groupToJSON g j3
        | l => axisgroupsNestedToJSON j3 0 l

def varsSectionToJSON : List (String × VariableInfo) → Json → Except String Json
  | [], j => .ok j
  | (_, vi) :: rest, j =>
    match varEntryToJSON vi with
    | .error m => .error m
    | .ok jvv =>
      match objSet j vi.doi.m_strName jvv with
      | .error m => .error m
      | .ok j2 => varsSectionToJSON rest j2

/-- IndexedDataset::ToJSONFile, modelled as producing the json document (the
stream write and pretty-print flag carry no catalog content). -/
def IndexedDataset.toJSONFile (d : IndexedDataset) : Except String Json :=
  match datasetSectionToJSON d.m_datainfo with
  | .error m => .error m
  | .ok jd =>
    match filesSectionToJSON d.m_vecFileInfo .null with
    | .error m => .error m
    | .ok jf =>
      match axesSectionToJSON d.m_vecAxisInfo .null with
      | .error m => .error m
      | .ok ja =>
        match varsSectionToJSON d.m_vecVariableInfo .null with
        | .error m => .error m
        | .ok jv =>
          .ok (.obj [("dataset", jd), ("file", jf), ("axes", ja), ("variables", jv)])

/-! ## FromJSONFile (lines 1724 to 1991) -/

def datasetAttrsFromJSON : DataObjectInfo → List (String × Json) → Except String DataObjectInfo
  | d, [] => .ok d
  | d, (k, v) :: rest =>
    match v.asStrE with
    | .error m => .error m
    | .ok s =>
      match d.insertAttribute k s with
      | .error m => .error m
      | .ok d2 => datasetAttrsFromJSON d2 rest

/-- The axes member of a file entry: an array of two-element arrays of
strings inserted into the axis-to-subaxis map. -/
def fileAxesFromJSON : FileInfo → List Json → Except String FileInfo
  | fi, [] => .ok fi
  | fi, e :: rest =>
    match e with
    | .arr [ja, jb] =>
      match ja.asStrE with
      | .error m => .error m
      | .ok a =>
        match jb.asStrE with
        | .error m => .error m
        | .ok b =>
          fileAxesFromJSON
            { fi with m_mapAxisSubAxis := ainsert fi.m_mapAxisSubAxis a b } rest
    | .arr _ => .error "\"axes\" must be an array of arrays of size 2"
    | _ => .error "\"axes\" must be an array of arrays"

def fileMembersFromJSON : FileInfo → List (String × Json) → Except String FileInfo
  | fi, [] => .ok fi
  | fi, (k, v) :: rest =>
    if k = "name" then fileMembersFromJSON fi rest
    else if k = "axes" then
      match v with
      | .arr l =>
        match fileAxesFromJSON fi l with
        | .error m => .error m
        | .ok fi2 => fileMembersFromJSON fi2 rest
      | _ => .error "\"axes\" must be of type array"
    else
      match attrValueToString v with
      | none => .error ("Invalid JSON attribute value in \"file\" with key \"" ++ k ++ "\"")
      | some s =>
        match fi.doi.insertAttribute k s with
        | .error m => .error m
        | .ok doi2 => fileMembersFromJSON { fi with doi := doi2 } rest

def filesFromJSON : List (String × FileInfo) → List (String × Json) →
    Except String (List (String × FileInfo))
  | acc, [] => .ok acc
  | acc, (fid, jff) :: rest =>
    match objGet jff "name" with
    | none => .error "JSON file entry missing \"name\" key"
    | some jn =>
      match jn.asStrE with
      | .error m => .error m
      | .ok nm =>
        match fileMembersFromJSON (FileInfo.mkNamed nm) (jsonEntries jff) with
        | .error m => .error m
        | .ok fi => filesFromJSON (ainsert acc fid fi) rest

def axisAttrsFromJSON : AxisInfo → List (String × Json) → Except String AxisInfo
  | ax, [] => .ok ax
  | ax, (k, v) :: rest =>
    if k = "subaxes" ∨ k = "values" ∨ k = "size" ∨ k = "datatype" then
      axisAttrsFromJSON ax rest
    else
      match attrValueToString v with
      | none => .error ("Invalid JSON attribute value in \"axes\" with key \"" ++ k ++ "\"")
      | some s =>
        match ax.doi.insertAttribute k s with
        | .error m => .error m
        | .ok doi2 => axisAttrsFromJSON { ax with doi := doi2 } rest

def subaxesFromJSON : AxisInfo → List (String × Json) → Except String AxisInfo
  | ax, [] => .ok ax
  | ax, (sid, jsa) :: rest =>
    match SubAxis.fromJSON sid jsa with
    | .error m => .error m
    | .ok sa =>
      subaxesFromJSON { ax with m_vecSubAxis := ainsert ax.m_vecSubAxis sid sa } rest

def axisFromJSON (aname : String) (jaa : Json) : Except String AxisInfo :=
  match objGet jaa "datatype" with
  | none => .error "JSON axis entry missing \"datatype\" key"
  | some jd =>
    match jd with
    | .str sdt =>
      match StringToNcType sdt with
      | none => .error ("Invalid datatype \"" ++ sdt ++ "\"")
      | some nct =>
        let ax0 : AxisInfo :=
          { AxisInfo.mkNamed aname with doi :=
              { (AxisInfo.mkNamed aname).doi with m_nctype := nct } }
        -- conflicting members (lines 1846 to 1858)
        match objGet jaa "subaxes" with
        | some _ =>
          if (objGet jaa "values").isSome then
            .error ("axis \"" ++ aname ++ "\" specifies both \"values\" and \"subaxes\"")
          else if (objGet jaa "size").isSome then
            .error ("axis \"" ++ aname ++ "\" specifies both \"size\" and \"subaxes\"")
          else
            match objGet jaa "subaxes" with
            | some jsub =>
              match subaxesFromJSON ax0 (jsonEntries jsub) with
              | .error m => .error m
              | .ok ax1 => axisAttrsFromJSON ax1 (jsonEntries jaa)
            | none => axisAttrsFromJSON ax0 (jsonEntries jaa)
        | none =>
          if (objGet jaa "size").isSome then
            match SubAxis.fromJSON aname jaa with
            | .error m => .error m
            | .ok sa =>
              axisAttrsFromJSON { ax0 with m_vecSubAxis := [("0", sa)] } (jsonEntries jaa)
          else
            axisAttrsFromJSON ax0 (jsonEntries jaa)
    | _ => .error ("JSON axis \"" ++ aname ++ "\" \"datatype\" must be type string")

def axesFromJSON : List (String × AxisInfo) → List (String × Json) →
    Except String (List (String × AxisInfo))
  | acc, [] => .ok acc
  | acc, (aname, jaa) :: rest =>
    match axisFromJSON aname jaa with
    | .error m => .error m
    | .ok ax => axesFromJSON (ainsert acc aname ax) rest

/-- VariableInfo::SubAxisToFileIdMapFromJSON (lines 471 to 543). -/
def subAxisMapEntriesFromJSON :
    List (List String × String) → String → List Json →
    Except String (List (List String × String))
  | acc, _, [] => .ok acc
  | acc, strKey, e :: rest =>
    match e with
    | .arr ys =>
      if ys.isEmpty then
        -- the C++ runs vecSubAxisId.resize(size()-1), underflowing for an
        -- empty entry; the library raises std::length_error (modelled message)
        .error ("JSON variable \"" ++ strKey ++ "\" \"subaxismap\" entry is empty")
      else
        match asStrListE ys with
        | .error _ =>
          .error ("JSON variable \"" ++ strKey
            ++ "\" \"subaxismap\" must be type array of arrays of strings")
        | .ok strs =>
          subAxisMapEntriesFromJSON
            (ainsert acc strs.dropLast (strs.getLastD "")) strKey rest
    | _ =>
      -- the C++ re-checks the outer array here (line 510) and then faults
      -- on element access of the non-array entry
      .error ("JSON variable \"" ++ strKey
        ++ "\" \"subaxismap\" must be type array of arrays of strings")

def VariableInfo.subAxisToFileIdMapFromJSON (vi : VariableInfo) (strKey : String)
    (j : Json) : Except String VariableInfo :=
  match objGet j "axisids" with
  | none => .error ("JSON variable \"" ++ strKey ++ "\" missing \"axisids\" key")
  | some jids =>
    let namesE : Except String (List String) :=
      match jids with
      | .null => .ok []
      | .arr l => asStrListE l
      | _ => .error ("JSON variable \"" ++ strKey ++ "\" \"axisids\" must be type array")
    match namesE with
    | .error m => .error m
    | .ok names =>
      match objGet j "subaxismap" with
      | none => .error ("JSON variable \"" ++ strKey ++ "\" missing \"subaxismap\" key")
      | some jmap =>
        match jmap with
        | .arr l =>
          match subAxisMapEntriesFromJSON [] strKey l with
          | .error m => .error m
          | .ok entries =>
            let newMaps := ainsert vi.m_mapSubAxisToFileIdMaps names entries
            .ok { vi with m_mapSubAxisToFileIdMaps := newMaps }
        | _ =>
          .error ("JSON variable \"" ++ strKey
            ++ "\" \"subaxismap\" must be type array of arrays of strings")

def varAttrsFromJSON : VariableInfo → List (String × Json) → Except String VariableInfo
  | vi, [] => .ok vi
  | vi, (k, v) :: rest =>
    if k = "axisids" ∨ k = "subaxismap" ∨ k = "axisgroups" ∨ k = "datatype" then
      varAttrsFromJSON vi rest
    else
      match attrValueToString v with
      | none =>
        .error ("Invalid JSON attribute value in \"variables\" with key \"" ++ k ++ "\"")
      | some s =>
        match vi.doi.insertAttribute k s with
        | .error m => .error m
        | .ok doi2 => varAttrsFromJSON { vi with doi := doi2 } rest

def varGroupsFromJSON : VariableInfo → String → List (String × Json) →
    Except String VariableInfo
  | vi, _, [] => .ok vi
  | vi, strKey, (_, jg) :: rest =>
    match vi.subAxisToFileIdMapFromJSON strKey jg with
    | .error m => .error m
    | .ok vi2 => varGroupsFromJSON vi2 strKey rest

def varFromJSON (vname : String) (jvv : Json) : Except String VariableInfo :=
  match objGet jvv "datatype" with
  | none => .error ("JSON variable \"" ++ vname ++ "\" missing \"datatype\" key")
  | some jd =>
    match jd with
    | .str sdt =>
      match StringToNcType sdt with
      | none => .error ("Invalid datatype \"" ++ sdt ++ "\"")
      | some nct =>
        let vi0 : VariableInfo :=
          { VariableInfo.mkNamed vname with doi :=
              { (VariableInfo.mkNamed vname).doi with m_nctype := nct } }
        -- the C++ passes it.key(), the key of the top-level "variables"
        -- member, as the message key (line 1938)
        match objGet jvv "axisgroups" with
        | none =>
          match vi0.subAxisToFileIdMapFromJSON "variables" jvv with
          | .error m => .error m
          | .ok vi1 => varAttrsFromJSON vi1 (jsonEntries jvv)
        | some jgs =>
          if (objGet jvv "axisids").isSome then
            .error ("variable \"" ++ vname ++ "\" specifies both \"axisgroups\" and \"axisids\"")
          else if (objGet jvv "subaxismap").isSome then
            .error ("variable \"" ++ vname
              ++ "\" specifies both \"axisgroups\" and \"subaxismap\"")
          else
            match varGroupsFromJSON vi0 "variables" (jsonEntries jgs) with
            | .error m => .error m
            | .ok vi1 => varAttrsFromJSON vi1 (jsonEntries jvv)
    | _ => .error ("JSON axis \"" ++ vname ++ "\" \"datatype\" must be type string")

def varsFromJSON : List (String × VariableInfo) → List (String × Json) →
    Except String (List (String × VariableInfo))
  | acc, [] => .ok acc
  | acc, (vname, jvv) :: rest =>
    match varFromJSON vname jvv with
    | .error m => .error m
    | .ok vi => varsFromJSON (ainsert acc vname vi) rest

/-- IndexedDataset::FromJSONFile, loading into a fresh dataset (the caller in
autocurator.cpp applies it to a newly constructed IndexedDataset). -/
def IndexedDataset.fromJSONFile (j : Json) : Except String IndexedDataset :=
  match objGet j "dataset" with
  | none => .error "JSON file missing \"dataset\" key"
  | some jd =>
    match datasetAttrsFromJSON DataObjectInfo.mkEmpty (jsonEntries jd) with
    | .error m => .error m
    | .ok datainfo =>
      match objGet j "file" with
      | none => .error "JSON file missing \"file\" key"
      | some jf =>
        match filesFromJSON [] (jsonEntries jf) with
        | .error m => .error m
        | .ok files =>
          match objGet j "axes" with
          | none => .error "JSON file missing \"axes\" key"
          | some ja =>
            match axesFromJSON [] (jsonEntries ja) with
            | .error m => .error m
            | .ok axes =>
              match objGet j "variables" with
              | none => .error "JSON file missing \"variables\" key"
              | some jv =>
                match varsFromJSON [] (jsonEntries jv) with
                | .error m => .error m
                | .ok vars => .ok ⟨datainfo, files, axes, vars⟩

/-! ## Additional generic lemmas for the JSON layer -/

theorem aupdate_of_none {κ α : Type} [DecidableEq κ] {m : List (κ × α)} {k : κ} (v : α)
    (h : alookup m k = none) : aupdate m k v = m ++ [(k, v)] := by
  induction m with
  | nil => simp [aupdate]
  | cons p rest ih =>
    obtain ⟨a, b⟩ := p
    by_cases hak : a = k
    · subst hak; simp [alookup] at h
    · simp [alookup, hak] at h
      simp [aupdate, hak, ih h]

theorem isEmpty_map {α β : Type} (f : α → β) (l : List α) :
    (l.map f).isEmpty = l.isEmpty := by
  cases l <;> simp

theorem asStrListE_map (l : List String) : asStrListE (l.map Json.str) = .ok l := by
  induction l with
  | nil => rfl
  | cons a t ih => simp [asStrListE, Json.asStrE, ih]

theorem asIntListE_map (l : List Int) : asIntListE (l.map Json.jint) = .ok l := by
  induction l with
  | nil => rfl
  | cons a t ih => simp [asIntListE, Json.asIntE, ih]

theorem asRatListE_map (l : List ℚ) : asRatListE (l.map Json.num) = .ok l := by
  induction l with
  | nil => rfl
  | cons a t ih => simp [asRatListE, Json.asRatE, ih]

theorem stringToNcType_roundtrip (t : NcType) :
    StringToNcType (NcTypeToString t) = some t := by
  cases t <;> rfl

/-! ## Rejection of conflicting members (FromJSONFile lines 1846 to 1858 and
1936 to 1952) -/

theorem axisFromJSON_subaxes_values (aname : String) (jaa : Json) (sdt : String)
    (nct : NcType) (jsub : Json)
    (hdt : objGet jaa "datatype" = some (.str sdt))
    (hnc : StringToNcType sdt = some nct)
    (hsub : objGet jaa "subaxes" = some jsub)
    (hv : (objGet jaa "values").isSome = true) :
    axisFromJSON aname jaa =
      .error ("axis \"" ++ aname ++ "\" specifies both \"values\" and \"subaxes\"") := by
  simp [axisFromJSON, hdt, hnc, hsub, hv]

theorem axisFromJSON_subaxes_size (aname : String) (jaa : Json) (sdt : String)
    (nct : NcType) (jsub : Json)
    (hdt : objGet jaa "datatype" = some (.str sdt))
    (hnc : StringToNcType sdt = some nct)
    (hsub : objGet jaa "subaxes" = some jsub)
    (hv : objGet jaa "values" = none)
    (hs : (objGet jaa "size").isSome = true) :
    axisFromJSON aname jaa =
      .error ("axis \"" ++ aname ++ "\" specifies both \"size\" and \"subaxes\"") := by
  simp [axisFromJSON, hdt, hnc, hsub, hv, hs]

theorem varFromJSON_groups_axisids (vname : String) (jvv : Json) (sdt : String)
    (nct : NcType) (jgs : Json)
    (hdt : objGet jvv "datatype" = some (.str sdt))
    (hnc : StringToNcType sdt = some nct)
    (hg : objGet jvv "axisgroups" = some jgs)
    (ha : (objGet jvv "axisids").isSome = true) :
    varFromJSON vname jvv =
      .error ("variable \"" ++ vname ++ "\" specifies both \"axisgroups\" and \"axisids\"") := by
  simp [varFromJSON, hdt, hnc, hg, ha]

theorem varFromJSON_groups_subaxismap (vname : String) (jvv : Json) (sdt : String)
    (nct : NcType) (jgs : Json)
    (hdt : objGet jvv "datatype" = some (.str sdt))
    (hnc : StringToNcType sdt = some nct)
    (hg : objGet jvv "axisgroups" = some jgs)
    (ha : objGet jvv "axisids" = none)
    (hs : (objGet jvv "subaxismap").isSome = true) :
    varFromJSON vname jvv =
      .error ("variable \"" ++ vname ++ "\" specifies both \"axisgroups\" and \"subaxismap\"") := by
  simp [varFromJSON, hdt, hnc, hg, ha, hs]

theorem axisFromJSON_conflict (aname : String) (jaa : Json)
    (hsub : (objGet jaa "subaxes").isSome = true)
    (hvs : (objGet jaa "values").isSome = true ∨ (objGet jaa "size").isSome = true) :
    ∃ m, axisFromJSON aname jaa = .error m := by
  unfold axisFromJSON
  simp only []
  repeat' split
  all_goals first
    | exact ⟨_, rfl⟩
    | simp_all

theorem varFromJSON_conflict (vname : String) (jvv : Json)
    (hg : (objGet jvv "axisgroups").isSome = true)
    (hvs : (objGet jvv "axisids").isSome = true ∨ (objGet jvv "subaxismap").isSome = true) :
    ∃ m, varFromJSON vname jvv = .error m := by
  unfold varFromJSON
  simp only []
  repeat' split
  all_goals first
    | exact ⟨_, rfl⟩
    | simp_all

theorem axesFromJSON_ok_forall (l : List (String × Json)) :
    ∀ acc res, axesFromJSON acc l = .ok res →
      ∀ p ∈ l, ∃ ax, axisFromJSON p.1 p.2 = .ok ax := by
  induction l with
  | nil => intro acc res _ p hp; cases hp
  | cons q t ih =>
    intro acc res h p hp
    obtain ⟨qk, qv⟩ := q
    unfold axesFromJSON at h
    split at h
    · cases h
    · next ax hax =>
      rcases List.mem_cons.mp hp with hpq | hpt
      · subst hpq; exact ⟨ax, hax⟩
      · exact ih _ _ h p hpt

theorem varsFromJSON_ok_forall (l : List (String × Json)) :
    ∀ acc res, varsFromJSON acc l = .ok res →
      ∀ p ∈ l, ∃ vi, varFromJSON p.1 p.2 = .ok vi := by
  induction l with
  | nil => intro acc res _ p hp; cases hp
  | cons q t ih =>
    intro acc res h p hp
    obtain ⟨qk, qv⟩ := q
    unfold varsFromJSON at h
    split at h
    · cases h
    · next vi hvi =>
      rcases List.mem_cons.mp hp with hpq | hpt
      · subst hpq; exact ⟨vi, hvi⟩
      · exact ih _ _ h p hpt

theorem fromJSONFile_ok_sections (j : Json) (d : IndexedDataset)
    (h : IndexedDataset.fromJSONFile j = .ok d) :
    ∃ ja jv, objGet j "axes" = some ja
      ∧ axesFromJSON [] (jsonEntries ja) = .ok d.m_vecAxisInfo
      ∧ objGet j "variables" = some jv
      ∧ varsFromJSON [] (jsonEntries jv) = .ok d.m_vecVariableInfo := by
  unfold IndexedDataset.fromJSONFile at h
  repeat' split at h
  all_goals simp only [Except.ok.injEq, Except.error.injEq, reduceCtorEq] at h
  subst h
  exact ⟨_, _, by assumption, by assumption, by assumption, by assumption⟩

/-- C9: loading a catalog from JSON rejects conflicting members.  An axis
entry carrying a well-formed datatype together with both a subaxes member and
a values (respectively size) member is rejected with the fatal message naming
the axis; a variable entry carrying axisgroups together with axisids
(respectively subaxismap) is rejected with the fatal message naming the
variable; and any document whose axes (respectively variables) section
contains such a conflicted entry makes FromJSONFile fail with a fatal parse
error. -/
theorem claim_C9 :
    (∀ (aname : String) (jaa : Json) (sdt : String) (nct : NcType) (jsub : Json),
      objGet jaa "datatype" = some (.str sdt) → StringToNcType sdt = some nct →
      objGet jaa "subaxes" = some jsub → (objGet jaa "values").isSome = true →
      axisFromJSON aname jaa =
        .error ("axis \"" ++ aname ++ "\" specifies both \"values\" and \"subaxes\""))
  ∧ (∀ (aname : String) (jaa : Json) (sdt : String) (nct : NcType) (jsub : Json),
      objGet jaa "datatype" = some (.str sdt) → StringToNcType sdt = some nct →
      objGet jaa "subaxes" = some jsub → objGet jaa "values" = none →
      (objGet jaa "size").isSome = true →
      axisFromJSON aname jaa =
        .error ("axis \"" ++ aname ++ "\" specifies both \"size\" and \"subaxes\""))
  ∧ (∀ (vname : String) (jvv : Json) (sdt : String) (nct : NcType) (jgs : Json),
      objGet jvv "datatype" = some (.str sdt) → StringToNcType sdt = some nct →
      objGet jvv "axisgroups" = some jgs → (objGet jvv "axisids").isSome = true →
      varFromJSON vname jvv =
        .error ("variable \"" ++ vname ++ "\" specifies both \"axisgroups\" and \"axisids\""))
  ∧ (∀ (vname : String) (jvv : Json) (sdt : String) (nct : NcType) (jgs : Json),
      objGet jvv "datatype" = some (.str sdt) → StringToNcType sdt = some nct →
      objGet jvv "axisgroups" = some jgs → objGet jvv "axisids" = none →
      (objGet jvv "subaxismap").isSome = true →
      varFromJSON vname jvv =
        .error ("variable \"" ++ vname ++ "\" specifies both \"axisgroups\" and \"subaxismap\""))
  ∧ (∀ (j : Json) (akvs : List (String × Json)) (aname : String) (jaa : Json),
      objGet j "axes" = some (.obj akvs) → (aname, jaa) ∈ akvs →
      (objGet jaa "subaxes").isSome = true →
      ((objGet jaa "values").isSome = true ∨ (objGet jaa "size").isSome = true) →
      ∃ m, IndexedDataset.fromJSONFile j = .error m)
  ∧ (∀ (j : Json) (vkvs : List (String × Json)) (vname : String) (jvv : Json),
      objGet j "variables" = some (.obj vkvs) → (vname, jvv) ∈ vkvs →
      (objGet jvv "axisgroups").isSome = true →
      ((objGet jvv "axisids").isSome = true ∨ (objGet jvv "subaxismap").isSome = true) →
      ∃ m, IndexedDataset.fromJSONFile j = .error m) := by
  refine ⟨axisFromJSON_subaxes_values, axisFromJSON_subaxes_size,
    varFromJSON_groups_axisids, varFromJSON_groups_subaxismap, ?_, ?_⟩
  · intro j akvs aname jaa hja hmem hsub hvs
    cases hfe : IndexedDataset.fromJSONFile j with
    | error m => exact ⟨m, rfl⟩
    | ok d =>
      exfalso
      obtain ⟨ja, _, hja2, haxs, -, -⟩ := fromJSONFile_ok_sections j d hfe
      rw [hja] at hja2
      obtain rfl := (Option.some.injEq _ _).mp hja2.symm
      obtain ⟨ax, hok⟩ :=
        axesFromJSON_ok_forall (jsonEntries (.obj akvs)) [] _ haxs (aname, jaa)
          (by simpa [jsonEntries] using hmem)
      obtain ⟨m, herr⟩ := axisFromJSON_conflict aname jaa hsub hvs
      rw [herr] at hok
      cases hok
  · intro j vkvs vname jvv hjv hmem hg hvs
    cases hfe : IndexedDataset.fromJSONFile j with
    | error m => exact ⟨m, rfl⟩
    | ok d =>
      exfalso
      obtain ⟨_, jv, -, -, hjv2, hvars⟩ := fromJSONFile_ok_sections j d hfe
      rw [hjv] at hjv2
      obtain rfl := (Option.some.injEq _ _).mp hjv2.symm
      obtain ⟨vi, hok⟩ :=
        varsFromJSON_ok_forall (jsonEntries (.obj vkvs)) [] _ hvars (vname, jvv)
          (by simpa [jsonEntries] using hmem)
      obtain ⟨m, herr⟩ := varFromJSON_conflict vname jvv hg hvs
      rw [herr] at hok
      cases hok

def c9jaaV : Json := .obj [("datatype", .str "Double"), ("values", .null), ("subaxes", .obj [])]

def c9jaaS : Json := .obj [("datatype", .str "Double"), ("size", .jint 1), ("subaxes", .obj [])]

def c9jvvA : Json := .obj [("datatype", .str "Double"), ("axisids", .null), ("axisgroups", .obj [])]

def c9jvvS : Json := .obj [("datatype", .str "Double"), ("subaxismap", .null), ("axisgroups", .obj [])]

def c9docA : Json := .obj [("axes", .obj [("lat", c9jaaV)])]

def c9docV : Json := .obj [("variables", .obj [("temp", c9jvvA)])]

theorem claim_C9_witness :
    axisFromJSON "lat" c9jaaV =
      .error "axis \"lat\" specifies both \"values\" and \"subaxes\""
  ∧ axisFromJSON "lat" c9jaaS =
      .error "axis \"lat\" specifies both \"size\" and \"subaxes\""
  ∧ varFromJSON "temp" c9jvvA =
      .error "variable \"temp\" specifies both \"axisgroups\" and \"axisids\""
  ∧ varFromJSON "temp" c9jvvS =
      .error "variable \"temp\" specifies both \"axisgroups\" and \"subaxismap\""
  ∧ (∃ m, IndexedDataset.fromJSONFile c9docA = .error m)
  ∧ (∃ m, IndexedDataset.fromJSONFile c9docV = .error m) :=
  ⟨claim_C9.1 "lat" c9jaaV "Double" .ncDouble (.obj []) rfl rfl rfl rfl,
   claim_C9.2.1 "lat" c9jaaS "Double" .ncDouble (.obj []) rfl rfl rfl rfl rfl,
   claim_C9.2.2.1 "temp" c9jvvA "Double" .ncDouble (.obj []) rfl rfl rfl rfl,
   claim_C9.2.2.2.1 "temp" c9jvvS "Double" .ncDouble (.obj []) rfl rfl rfl rfl rfl,
   claim_C9.2.2.2.2.1 c9docA [("lat", c9jaaV)] "lat" c9jaaV rfl (by simp) rfl (.inl rfl),
   claim_C9.2.2.2.2.2 c9docV [("temp", c9jvvA)] "temp" c9jvvA rfl (by simp) rfl (.inl rfl)⟩

/-- C10: ingesting a file whose coordinate (dimension) variable has Int
element type aborts with the fatal exception Unsupported dimension nctype
rather than a recoverable error, while the JSON catalog layer both writes and
reads Int-typed subaxis values (SubAxis::ToJSON and SubAxis::FromJSON
round-trip an Int subaxis with nonempty values). -/
theorem claim_C10 :
    (∀ (strBaseDir fname : String) (n : Int) (vals : List ℚ) (reader : NcReader),
      reader (strBaseDir ++ fname) =
        some ⟨[], [("x", n)], [⟨"x", .ncInt, [], ["x"], vals⟩]⟩ →
      IndexedDataset.mkEmpty.indexVariableData strBaseDir [fname] reader =
        .fatal "Unsupported dimension nctype")
  ∧ (∀ (strKey : String) (sz : Int) (vals : List Int), vals ≠ [] →
      ∃ jx, SubAxis.toJSON
          { SubAxis.mkEmpty with m_nctype := .ncInt, m_lSize := sz, m_dValuesInts := vals }
          .null = .ok jx
        ∧ SubAxis.fromJSON strKey jx =
          .ok { SubAxis.mkEmpty with
            m_nctype := .ncInt, m_lSize := sz, m_dValuesInts := vals }) := by
  constructor
  · intro strBaseDir fname n vals reader h
    unfold IndexedDataset.indexVariableData processOneFile
    simp only []
    rw [h]
    rfl
  · intro strKey sz vals hne
    obtain ⟨a, t, rfl⟩ := List.exists_cons_of_ne_nil hne
    refine ⟨.obj [("datatype", .str "Int"), ("size", .jint sz),
      ("values", .arr ((a :: t).map Json.jint))], rfl, ?_⟩
    have hl : asIntListE ((a :: t).map Json.jint) = .ok (a :: t) := asIntListE_map _
    simp only [List.map_cons] at hl
    simp [SubAxis.fromJSON, objGet, alookup, StringToNcType, hl]

def c10reader : NcReader := fun s =>
  if s = "f" then some ⟨[], [("x", 4)], [⟨"x", .ncInt, [], ["x"], [1, 2]⟩]⟩ else none

theorem claim_C10_witness :
    IndexedDataset.mkEmpty.indexVariableData "" ["f"] c10reader =
      .fatal "Unsupported dimension nctype"
  ∧ ([5, 7] ≠ ([] : List Int))
  ∧ (∃ jx, SubAxis.toJSON
        { SubAxis.mkEmpty with m_nctype := .ncInt, m_lSize := 2, m_dValuesInts := [5, 7] }
        .null = .ok jx
      ∧ SubAxis.fromJSON "x" jx =
        .ok { SubAxis.mkEmpty with
          m_nctype := .ncInt, m_lSize := 2, m_dValuesInts := [5, 7] }) :=
  ⟨claim_C10.1 "" "f" 4 [1, 2] c10reader rfl, by decide,
   claim_C10.2 "x" 2 [5, 7] (by decide)⟩

/-! ## Structure of the serialized axis entries (shared by the analyses of
the axes section and of the round-trip) -/

/-- The values member SubAxis::ToJSON leaves in the object: none for an
untyped subaxis, a null member for a typed subaxis with no stored values
(the member is created by reference but never pushed to), and the array of
the on-type values otherwise. -/
def valuesJson (sa : SubAxis) : Option Json :=
  match sa.m_nctype with
  | .ncNoType => none
  | .ncInt => some (if sa.m_dValuesInts.isEmpty then .null
      else .arr (sa.m_dValuesInts.map .jint))
  | .ncFloat => some (if sa.m_dValuesFloat.isEmpty then .null
      else .arr (sa.m_dValuesFloat.map .num))
  | .ncDouble => some (if sa.m_dValuesDouble.isEmpty then .null
      else .arr (sa.m_dValuesDouble.map .num))

def subAxisEntryKvs (sa : SubAxis) : List (String × Json) :=
  [("datatype", .str (NcTypeToString sa.m_nctype)), ("size", .jint sa.m_lSize)]
    ++ (match valuesJson sa with | none => [] | some v => [("values", v)])

def subAxisEntryJson (sa : SubAxis) : Json := .obj (subAxisEntryKvs sa)

theorem subAxis_toJSON_null (sa : SubAxis) :
    SubAxis.toJSON sa .null = .ok (subAxisEntryJson sa) := by
  cases h : sa.m_nctype <;>
    simp [SubAxis.toJSON, subAxisEntryJson, subAxisEntryKvs, valuesJson, objSet,
      aupdate, pushMember, objGet, alookup, pushAllE, h, isEmpty_map]

theorem subAxis_toJSON_obj (sa : SubAxis) (kvs : List (String × Json))
    (hs : alookup kvs "size" = none) (hv : alookup kvs "values" = none) :
    SubAxis.toJSON sa (.obj kvs) =
      .ok (.obj ((aupdate kvs "datatype" (.str (NcTypeToString sa.m_nctype))
        ++ [("size", Json.jint sa.m_lSize)])
        ++ (match valuesJson sa with | none => [] | some v => [("values", v)]))) := by
  have hsA : ∀ v : Json, alookup (aupdate kvs "datatype" v) "size" = none := by
    intro v; rw [alookup_aupdate]; simpa using hs
  have hvB : ∀ v w : Json,
      alookup (aupdate kvs "datatype" v ++ [("size", w)]) "values" = none := by
    intro v w
    rw [alookup_append, alookup_aupdate]
    simp [hv, alookup]
  cases h : sa.m_nctype <;>
    simp [SubAxis.toJSON, valuesJson, objSet, pushMember, objGet, pushAllE, h,
      aupdate_of_none _ (hsA _), aupdate_of_none _ (hvB _ _), hvB, isEmpty_map]

theorem setAttrs_obj (atts : AttributeMap) :
    ∀ kvs : List (String × Json),
    ∃ kvs2, setAttrs (.obj kvs) atts = .ok (.obj kvs2)
      ∧ (∀ k, k ∉ atts.map Prod.fst → alookup kvs2 k = alookup kvs k)
      ∧ (∀ p ∈ kvs2, p ∈ kvs ∨ (p.1 ∈ atts.map Prod.fst ∧ ∃ s, p.2 = .str s))
      ∧ (NodupKeys kvs → NodupKeys kvs2) := by
  induction atts with
  | nil =>
    intro kvs
    exact ⟨kvs, rfl, fun _ _ => rfl, fun p hp => .inl hp, fun h => h⟩
  | cons a t ih =>
    intro kvs
    obtain ⟨ak, av⟩ := a
    obtain ⟨kvs2, h1, h2, h3, h4⟩ := ih (aupdate kvs ak (.str av))
    refine ⟨kvs2, ?_, ?_, ?_, ?_⟩
    · simpa [setAttrs, objSet] using h1
    · intro k hk
      simp only [List.map_cons, List.mem_cons] at hk
      push_neg at hk
      rw [h2 k hk.2, alookup_aupdate]
      rw [if_neg (fun hh => hk.1 hh.symm)]
    · intro p hp
      rcases h3 p hp with hmem | hstr
      · rcases mem_aupdate hmem with hin | heq
        · exact .inl hin
        · subst heq
          exact .inr ⟨by simp, av, rfl⟩
      · exact .inr ⟨by simp [hstr.1], hstr.2⟩
    · intro hnd
      exact h4 (nodupKeys_aupdate _ _ hnd)

theorem subaxesNested_go (l : List (String × SubAxis)) :
    ∀ (kvs acc : List (String × Json)),
    (∀ p ∈ l, alookup acc p.1 = none) →
    NodupKeys l →
    alookup kvs "subaxes" = some (.obj acc) →
    ∃ kvs2, subaxesNestedToJSON (.obj kvs) l = .ok (.obj kvs2)
      ∧ alookup kvs2 "subaxes" =
          some (.obj (acc ++ l.map (fun p => (p.1, subAxisEntryJson p.2))))
      ∧ (∀ k, k ≠ "subaxes" → alookup kvs2 k = alookup kvs k)
      ∧ (NodupKeys kvs → NodupKeys kvs2)
      ∧ (∀ p ∈ kvs2, p ∈ kvs ∨ p.1 = "subaxes") := by
  induction l with
  | nil =>
    intro kvs acc _ _ hsub
    exact ⟨kvs, rfl, by simpa using hsub, fun _ _ => rfl, fun h => h, fun _ hp => .inl hp⟩
  | cons q t ih =>
    intro kvs acc hfresh hnd hsub
    obtain ⟨sid, sa⟩ := q
    have hobj : (objGet (.obj kvs) "subaxes").getD .null = .obj acc := by
      simp [objGet, hsub]
    have hfr : alookup acc sid = none := hfresh (sid, sa) (by simp)
    have hndc := hnd
    unfold NodupKeys at hndc
    simp only [List.map_cons, List.nodup_cons] at hndc
    have step : subaxesNestedToJSON (.obj kvs) ((sid, sa) :: t)
        = subaxesNestedToJSON
            (.obj (aupdate kvs "subaxes"
              (.obj (acc ++ [(sid, subAxisEntryJson sa)])))) t := by
      conv_lhs => rw [subaxesNestedToJSON.eq_def]
      simp only []
      rw [hobj]
      simp only []
      rw [hfr]
      simp only [Option.getD_none]
      rw [subAxis_toJSON_null]
      simp only [objSet]
      rw [aupdate_of_none _ hfr]
    have hsub2 : alookup (aupdate kvs "subaxes"
        (.obj (acc ++ [(sid, subAxisEntryJson sa)]))) "subaxes"
        = some (.obj (acc ++ [(sid, subAxisEntryJson sa)])) := by
      rw [alookup_aupdate]; simp
    have hfresh2 : ∀ p ∈ t, alookup (acc ++ [(sid, subAxisEntryJson sa)]) p.1 = none := by
      intro p hp
      rw [alookup_append, hfresh p (List.mem_cons_of_mem _ hp)]
      have hne : sid ≠ p.1 := by
        intro hh
        exact hndc.1 (hh ▸ List.mem_map_of_mem Prod.fst hp)
      simp [alookup, hne]
    obtain ⟨kvs2, hrun, hsubf, hpres, hnodup, hmem⟩ :=
      ih _ _ hfresh2 hndc.2 hsub2
    refine ⟨kvs2, by rw [step]; exact hrun, ?_, ?_, ?_, ?_⟩
    · rw [hsubf]
      simp [List.append_assoc]
    · intro k hk
      rw [hpres k hk, alookup_aupdate, if_neg (fun hh => hk hh.symm)]
    · intro hnkv
      exact hnodup (nodupKeys_aupdate _ _ hnkv)
    · intro p hp
      rcases hmem p hp with hp2 | hp2
      · rcases mem_aupdate hp2 with hin | heq
        · exact .inl hin
        · right; rw [heq]
      · exact .inr hp2

theorem axisEntryToJSON_base (ax : AxisInfo)
    (hres : ∀ k ∈ (ax.doi.m_mapKeyAttributes ++ ax.doi.m_mapOtherAttributes).map Prod.fst,
      k ≠ "datatype" ∧ k ≠ "size" ∧ k ≠ "values" ∧ k ≠ "subaxes") :
    ∃ kvs, axisEntryToJSON ax = (match ax.m_vecSubAxis with
        | [(_, sa)] => SubAxis.toJSON sa (.obj kvs)
        | l => subaxesNestedToJSON (.obj kvs) l)
      ∧ alookup kvs "datatype" = some (.str (NcTypeToString ax.doi.m_nctype))
      ∧ alookup kvs "size" = none ∧ alookup kvs "values" = none
      ∧ alookup kvs "subaxes" = none ∧ NodupKeys kvs
      ∧ (∀ p ∈ kvs, (∃ s, p.2 = .str s)
          ∧ p.1 ≠ "size" ∧ p.1 ≠ "values" ∧ p.1 ≠ "subaxes") := by
  have hmemK : ∀ k ∈ ax.doi.m_mapKeyAttributes.map Prod.fst,
      k ≠ "datatype" ∧ k ≠ "size" ∧ k ≠ "values" ∧ k ≠ "subaxes" := by
    intro k hk
    exact hres k (by rw [List.map_append]; exact List.mem_append_left _ hk)
  have hmemO : ∀ k ∈ ax.doi.m_mapOtherAttributes.map Prod.fst,
      k ≠ "datatype" ∧ k ≠ "size" ∧ k ≠ "values" ∧ k ≠ "subaxes" := by
    intro k hk
    exact hres k (by rw [List.map_append]; exact List.mem_append_right _ hk)
  have hninK : ∀ k, (k = "datatype" ∨ k = "size" ∨ k = "values" ∨ k = "subaxes") →
      k ∉ ax.doi.m_mapKeyAttributes.map Prod.fst := by
    intro k hk hmem
    rcases hk with h | h | h | h <;> subst h <;>
      first
        | exact (hmemK _ hmem).1 rfl
        | exact (hmemK _ hmem).2.1 rfl
        | exact (hmemK _ hmem).2.2.1 rfl
        | exact (hmemK _ hmem).2.2.2 rfl
  have hninO : ∀ k, (k = "datatype" ∨ k = "size" ∨ k = "values" ∨ k = "subaxes") →
      k ∉ ax.doi.m_mapOtherAttributes.map Prod.fst := by
    intro k hk hmem
    rcases hk with h | h | h | h <;> subst h <;>
      first
        | exact (hmemO _ hmem).1 rfl
        | exact (hmemO _ hmem).2.1 rfl
        | exact (hmemO _ hmem).2.2.1 rfl
        | exact (hmemO _ hmem).2.2.2 rfl
  obtain ⟨kvs1, e1, pres1, cls1, nd1⟩ :=
    setAttrs_obj ax.doi.m_mapKeyAttributes
      [("units", .str ax.doi.m_strUnits),
       ("datatype", .str (NcTypeToString ax.doi.m_nctype))]
  obtain ⟨kvs2, e2, pres2, cls2, nd2⟩ := setAttrs_obj ax.doi.m_mapOtherAttributes kvs1
  have look1 : ∀ k, (k = "datatype" ∨ k = "size" ∨ k = "values" ∨ k = "subaxes") →
      alookup kvs2 k = alookup
        [("units", Json.str ax.doi.m_strUnits),
         ("datatype", Json.str (NcTypeToString ax.doi.m_nctype))] k := by
    intro k hk
    rw [pres2 k (hninO k hk), pres1 k (hninK k hk)]
  refine ⟨kvs2, ?_, ?_, ?_, ?_, ?_, ?_, ?_⟩
  · simp only [axisEntryToJSON, objSet]
    have h0 : aupdate [("units", Json.str ax.doi.m_strUnits)] "datatype"
        (Json.str (NcTypeToString ax.doi.m_nctype)) =
        [("units", Json.str ax.doi.m_strUnits),
         ("datatype", Json.str (NcTypeToString ax.doi.m_nctype))] := rfl
    rw [h0]
    rw [e1]
    simp only []
    rw [e2]
  · rw [look1 "datatype" (.inl rfl)]; rfl
  · rw [look1 "size" (.inr (.inl rfl))]; rfl
  · rw [look1 "values" (.inr (.inr (.inl rfl)))]; rfl
  · rw [look1 "subaxes" (.inr (.inr (.inr rfl)))]; rfl
  · exact nd2 (nd1 (by simp [NodupKeys]))
  · intro p hp
    rcases cls2 p hp with hp1 | hstr
    · rcases cls1 p hp1 with hp0 | hstr
      · simp only [List.mem_cons, List.not_mem_nil, or_false] at hp0
        rcases hp0 with h | h <;> subst h <;>
          exact ⟨⟨_, rfl⟩, by simp, by simp, by simp⟩
      · exact ⟨hstr.2, (hmemK _ hstr.1).2.1, (hmemK _ hstr.1).2.2.1, (hmemK _ hstr.1).2.2.2⟩
    · exact ⟨hstr.2, (hmemO _ hstr.1).2.1, (hmemO _ hstr.1).2.2.1, (hmemO _ hstr.1).2.2.2⟩

/-- Per-axis serialized form, single-variant case: the variant data is
written inline into the axis object, which therefore carries size and the
typed values but no subaxes member. -/
theorem axisEntry_single (ax : AxisInfo) (sid : String) (sa : SubAxis)
    (hax : ax.m_vecSubAxis = [(sid, sa)])
    (hres : ∀ k ∈ (ax.doi.m_mapKeyAttributes ++ ax.doi.m_mapOtherAttributes).map Prod.fst,
      k ≠ "datatype" ∧ k ≠ "size" ∧ k ≠ "values" ∧ k ≠ "subaxes") :
    ∃ kvs, axisEntryToJSON ax = .ok (.obj kvs)
      ∧ alookup kvs "subaxes" = none
      ∧ alookup kvs "size" = some (.jint sa.m_lSize)
      ∧ alookup kvs "values" = valuesJson sa
      ∧ alookup kvs "datatype" = some (.str (NcTypeToString sa.m_nctype))
      ∧ NodupKeys kvs
      ∧ (∀ p ∈ kvs, p.1 = "size" ∨ p.1 = "values" ∨ p.1 = "datatype"
          ∨ ∃ s, p.2 = .str s) := by
  obtain ⟨kvs, hrun, hdt, hsz, hval, hsub, hnd, hcls⟩ := axisEntryToJSON_base ax hres
  rw [hax] at hrun
  simp only [] at hrun
  rw [subAxis_toJSON_obj sa kvs hsz hval] at hrun
  set k1 := aupdate kvs "datatype" (Json.str (NcTypeToString sa.m_nctype)) with hk1
  have hsz1 : alookup k1 "size" = none := by
    rw [hk1, alookup_aupdate]; simpa using hsz
  have hval1 : alookup k1 "values" = none := by
    rw [hk1, alookup_aupdate]; simpa using hval
  have hsub1 : alookup k1 "subaxes" = none := by
    rw [hk1, alookup_aupdate]; simpa using hsub
  have hk2 : k1 ++ [("size", Json.jint sa.m_lSize)] = aupdate k1 "size" (.jint sa.m_lSize) :=
    (aupdate_of_none _ hsz1).symm
  set k2 := aupdate k1 "size" (Json.jint sa.m_lSize) with hk2d
  have hval2 : alookup k2 "values" = none := by
    rw [hk2d, alookup_aupdate]; simpa using hval1
  have hsub2 : alookup k2 "subaxes" = none := by
    rw [hk2d, alookup_aupdate]; simpa using hsub1
  have hsz2 : alookup k2 "size" = some (.jint sa.m_lSize) := by
    rw [hk2d, alookup_aupdate]; simp
  have hdt2 : alookup k2 "datatype" = some (.str (NcTypeToString sa.m_nctype)) := by
    rw [hk2d, alookup_aupdate, hk1, alookup_aupdate]
    simp
  have hnd2 : NodupKeys k2 := nodupKeys_aupdate _ _ (nodupKeys_aupdate _ _ hnd)
  have hcls2 : ∀ p ∈ k2, p.1 = "size" ∨ p.1 = "values" ∨ p.1 = "datatype"
      ∨ ∃ s, p.2 = .str s := by
    intro p hp
    rcases mem_aupdate hp with hp1 | heq
    · rcases mem_aupdate hp1 with hp0 | heq
      · rcases hcls p hp0 with ⟨⟨s, hs⟩, -⟩
        exact .inr (.inr (.inr ⟨s, hs⟩))
      · rw [heq]; exact .inr (.inr (.inl rfl))
    · rw [heq]; exact .inl rfl
  cases hv : valuesJson sa with
  | none =>
    rw [hv] at hrun
    rw [hk2] at hrun
    refine ⟨k2, by simpa using hrun, hsub2, hsz2, hval2, hdt2, hnd2, hcls2⟩
  | some v =>
    rw [hv] at hrun
    rw [hk2] at hrun
    have hval3 : k2 ++ [("values", v)] = aupdate k2 "values" v :=
      (aupdate_of_none _ hval2).symm
    rw [hval3] at hrun
    refine ⟨aupdate k2 "values" v, by simpa using hrun, ?_, ?_, ?_, ?_, ?_, ?_⟩
    · rw [alookup_aupdate]; simpa using hsub2
    · rw [alookup_aupdate]; simpa using hsz2
    · rw [alookup_aupdate]; simp
    · rw [alookup_aupdate]; simpa using hdt2
    · exact nodupKeys_aupdate _ _ hnd2
    · intro p hp
      rcases mem_aupdate hp with hp1 | heq
      · exact hcls2 p hp1
      · rw [heq]; exact .inr (.inl rfl)

/-- Per-axis serialized form with at least two variants: the variant data
goes under a subaxes object keyed by the variant ids, and the axis object
itself carries neither size nor values. -/
theorem axisEntry_multi (ax : AxisInfo) (p1 p2 : String × SubAxis)
    (rest : List (String × SubAxis))
    (hax : ax.m_vecSubAxis = p1 :: p2 :: rest)
    (hnd : NodupKeys ax.m_vecSubAxis)
    (hres : ∀ k ∈ (ax.doi.m_mapKeyAttributes ++ ax.doi.m_mapOtherAttributes).map Prod.fst,
      k ≠ "datatype" ∧ k ≠ "size" ∧ k ≠ "values" ∧ k ≠ "subaxes") :
    ∃ kvs, axisEntryToJSON ax = .ok (.obj kvs)
      ∧ alookup kvs "size" = none
      ∧ alookup kvs "values" = none
      ∧ alookup kvs "subaxes" =
          some (.obj (ax.m_vecSubAxis.map (fun p => (p.1, subAxisEntryJson p.2))))
      ∧ alookup kvs "datatype" = some (.str (NcTypeToString ax.doi.m_nctype))
      ∧ NodupKeys kvs
      ∧ (∀ p ∈ kvs, p.1 = "subaxes" ∨ ∃ s, p.2 = .str s) := by
  obtain ⟨kvs, hrun, hdt, hsz, hval, hsub, hndk, hcls⟩ := axisEntryToJSON_base ax hres
  rw [hax] at hrun
  simp only [] at hrun
  rw [hax] at hnd
  unfold NodupKeys at hnd
  simp only [List.map_cons, List.nodup_cons] at hnd
  -- first iteration: the subaxes member does not exist yet
  have hobj : (objGet (.obj kvs) "subaxes").getD .null = .null := by
    simp [objGet, hsub]
  have step : subaxesNestedToJSON (.obj kvs) (p1 :: p2 :: rest)
      = subaxesNestedToJSON
          (.obj (aupdate kvs "subaxes" (.obj [(p1.1, subAxisEntryJson p1.2)])))
          (p2 :: rest) := by
    obtain ⟨sid, sa⟩ := p1
    conv_lhs => rw [subaxesNestedToJSON.eq_def]
    simp only []
    rw [hobj]
    simp only []
    rw [subAxis_toJSON_null]
    simp only [objSet, aupdate]
  rw [step] at hrun
  have hsub2 : alookup (aupdate kvs "subaxes" (.obj [(p1.1, subAxisEntryJson p1.2)]))
      "subaxes" = some (.obj [(p1.1, subAxisEntryJson p1.2)]) := by
    rw [alookup_aupdate]; simp
  have hfresh2 : ∀ p ∈ p2 :: rest, alookup [(p1.1, subAxisEntryJson p1.2)] p.1 = none := by
    intro p hp
    have hne : p1.1 ≠ p.1 := by
      intro hh
      exact hnd.1 (hh ▸ List.mem_map_of_mem Prod.fst hp)
    simp [alookup, hne]
  obtain ⟨kvs2, hrun2, hsubf, hpres, hnodup, hmem⟩ :=
    subaxesNested_go (p2 :: rest) _ _ hfresh2
      (by unfold NodupKeys; simp only [List.map_cons, List.nodup_cons]; exact hnd.2) hsub2
  rw [hrun2] at hrun
  refine ⟨kvs2, hrun, ?_, ?_, ?_, ?_, ?_, ?_⟩
  · rw [hpres "size" (by decide), alookup_aupdate]
    simpa using hsz
  · rw [hpres "values" (by decide), alookup_aupdate]
    simpa using hval
  · rw [hsubf, hax]
    simp
  · rw [hpres "datatype" (by decide), alookup_aupdate]
    simpa using hdt
  · exact hnodup (nodupKeys_aupdate _ _ hndk)
  · intro p hp
    rcases hmem p hp with hp1 | hp1
    · rcases mem_aupdate hp1 with hp0 | heq
      · exact .inr (hcls p hp0).1
      · left; rw [heq]
    · exact .inl hp1

theorem axesSection_preserve (l : List (String × AxisInfo)) :
    ∀ (kvs : List (String × Json)) (res : Json),
    axesSectionToJSON l (.obj kvs) = .ok res →
    ∀ k, (∀ p ∈ l, p.2.doi.m_strName ≠ k) →
    ∃ kvs2, res = .obj kvs2 ∧ alookup kvs2 k = alookup kvs k := by
  induction l with
  | nil =>
    intro kvs res h k _
    cases h
    exact ⟨kvs, rfl, rfl⟩
  | cons q t ih =>
    intro kvs res h k hk
    obtain ⟨qk, qa⟩ := q
    unfold axesSectionToJSON at h
    split at h
    · cases h
    · next jaa hjaa =>
      simp only [objSet] at h
      obtain ⟨kvs2, hres, hlook⟩ := ih _ _ h k (fun p hp => hk p (List.mem_cons_of_mem _ hp))
      refine ⟨kvs2, hres, ?_⟩
      rw [hlook, alookup_aupdate, if_neg (hk (qk, qa) (by simp))]

theorem axesSection_mem (l : List (String × AxisInfo)) :
    ∀ (kvs : List (String × Json)) (res : Json),
    axesSectionToJSON l (.obj kvs) = .ok res →
    ∀ q ∈ l, (l.map (fun p => p.2.doi.m_strName)).Nodup →
    alookup kvs q.2.doi.m_strName = none →
    ∃ kvs2 e, res = .obj kvs2 ∧ axisEntryToJSON q.2 = .ok e
      ∧ alookup kvs2 q.2.doi.m_strName = some e := by
  induction l with
  | nil => intro kvs res _ q hq; cases hq
  | cons p t ih =>
    intro kvs res h q hq hnd hfresh
    obtain ⟨pk, pa⟩ := p
    simp only [List.map_cons, List.nodup_cons] at hnd
    unfold axesSectionToJSON at h
    split at h
    · cases h
    · next jaa hjaa =>
      simp only [objSet] at h
      rcases List.mem_cons.mp hq with hqp | hqt
      · rw [hqp]
        simp only []
        obtain ⟨kvs2, hres, hlook⟩ := axesSection_preserve t _ _ h pa.doi.m_strName
          (fun p hp hpq => hnd.1 (hpq ▸ List.mem_map_of_mem (fun r => r.2.doi.m_strName) hp))
        refine ⟨kvs2, jaa, hres, hjaa, ?_⟩
        rw [hlook, alookup_aupdate, if_pos rfl]
      · have hne : pa.doi.m_strName ≠ q.2.doi.m_strName := by
          intro hh
          exact hnd.1 (hh ▸ List.mem_map_of_mem (fun r => r.2.doi.m_strName) hqt)
        have hfresh2 : alookup (aupdate kvs pa.doi.m_strName jaa) q.2.doi.m_strName
            = none := by
          rw [alookup_aupdate, if_neg hne]
          exact hfresh
        exact ih _ _ h q hqt hnd.2 hfresh2

theorem axesSection_null_mem (l : List (String × AxisInfo)) (res : Json)
    (h : axesSectionToJSON l .null = .ok res)
    (q : String × AxisInfo) (hq : q ∈ l)
    (hnd : (l.map (fun p => p.2.doi.m_strName)).Nodup) :
    ∃ kvs2 e, res = .obj kvs2 ∧ axisEntryToJSON q.2 = .ok e
      ∧ alookup kvs2 q.2.doi.m_strName = some e := by
  cases l with
  | nil => cases hq
  | cons p t =>
    obtain ⟨pk, pa⟩ := p
    simp only [List.map_cons, List.nodup_cons] at hnd
    unfold axesSectionToJSON at h
    split at h
    · cases h
    · next jaa hjaa =>
      simp only [objSet] at h
      rcases List.mem_cons.mp hq with hqp | hqt
      · rw [hqp]
        simp only []
        obtain ⟨kvs2, hres, hlook⟩ := axesSection_preserve t _ _ h pa.doi.m_strName
          (fun p hp hpq => hnd.1 (hpq ▸ List.mem_map_of_mem (fun r => r.2.doi.m_strName) hp))
        refine ⟨kvs2, jaa, hres, hjaa, ?_⟩
        rw [hlook]
        simp [aupdate, alookup]
      · have hne : pa.doi.m_strName ≠ q.2.doi.m_strName := by
          intro hh
          exact hnd.1 (hh ▸ List.mem_map_of_mem (fun r => r.2.doi.m_strName) hqt)
        have hfresh2 : alookup (aupdate [] pa.doi.m_strName jaa) q.2.doi.m_strName
            = none := by
          simp [aupdate, alookup, hne]
        exact axesSection_mem t _ _ h q hqt hnd.2 hfresh2

theorem toJSONFile_axes (d : IndexedDataset) (jdoc : Json)
    (h : IndexedDataset.toJSONFile d = .ok jdoc) :
    ∃ ja, objGet jdoc "axes" = some ja
      ∧ axesSectionToJSON d.m_vecAxisInfo .null = .ok ja := by
  unfold IndexedDataset.toJSONFile at h
  repeat' split at h
  all_goals simp only [Except.ok.injEq, reduceCtorEq] at h
  subst h
  exact ⟨_, rfl, by assumption⟩

def cellSub : SubAxis := ⟨DataObjectInfo.mkEmpty, .ncNoType, 100, [], [], []⟩

def cellAx : AxisInfo := ⟨⟨"cell", .ncNoType, "", [], []⟩, [("0", cellSub)]⟩

def c8d : IndexedDataset := ⟨DataObjectInfo.mkEmpty, [], [("cell", cellAx)], []⟩

def cellKvs : List (String × Json) :=
  [("units", .str ""), ("datatype", .str "NoType"), ("size", .jint 100)]

/-- Counterexample to C8 as stated: a single-variant axis whose variant has
no coordinate values (NoType, as created for a dimension without coordinate
variable) serializes with a size member but NO values member, although the
claim promises size and values inline for every single-variant axis. -/
theorem claim_C8_counterexample :
    IndexedDataset.toJSONFile c8d =
      .ok (.obj [("dataset", .null), ("file", .null),
        ("axes", .obj [("cell", .obj cellKvs)]), ("variables", .null)])
  ∧ alookup cellKvs "values" = none
  ∧ alookup cellKvs "subaxes" = none := ⟨rfl, rfl, rfl⟩

/-- C8 (amended): a single-variant axis is serialized with the variant's
size inline and its values member given by valuesJson (absent for an untyped
variant, null for a typed variant with no stored values, the value array
otherwise) and no subaxes member; an axis with two or more variants is
serialized with no inline size or values and a subaxes object keyed by the
variant ids, each entry holding that variant's datatype, size and values;
and in the full ToJSONFile document every axis appears in the axes object
under its name with exactly its axisEntryToJSON serialization. -/
theorem claim_C8 :
    (∀ (ax : AxisInfo) (sid : String) (sa : SubAxis),
      ax.m_vecSubAxis = [(sid, sa)] →
      (∀ k ∈ (ax.doi.m_mapKeyAttributes ++ ax.doi.m_mapOtherAttributes).map Prod.fst,
        k ≠ "datatype" ∧ k ≠ "size" ∧ k ≠ "values" ∧ k ≠ "subaxes") →
      ∃ kvs, axisEntryToJSON ax = .ok (.obj kvs)
        ∧ alookup kvs "subaxes" = none
        ∧ alookup kvs "size" = some (.jint sa.m_lSize)
        ∧ alookup kvs "values" = valuesJson sa)
  ∧ (∀ (ax : AxisInfo) (p1 p2 : String × SubAxis) (rest : List (String × SubAxis)),
      ax.m_vecSubAxis = p1 :: p2 :: rest →
      NodupKeys ax.m_vecSubAxis →
      (∀ k ∈ (ax.doi.m_mapKeyAttributes ++ ax.doi.m_mapOtherAttributes).map Prod.fst,
        k ≠ "datatype" ∧ k ≠ "size" ∧ k ≠ "values" ∧ k ≠ "subaxes") →
      ∃ kvs, axisEntryToJSON ax = .ok (.obj kvs)
        ∧ alookup kvs "size" = none
        ∧ alookup kvs "values" = none
        ∧ alookup kvs "subaxes" =
            some (.obj (ax.m_vecSubAxis.map (fun p => (p.1, subAxisEntryJson p.2)))))
  ∧ (∀ (d : IndexedDataset) (jdoc : Json) (q : String × AxisInfo),
      IndexedDataset.toJSONFile d = .ok jdoc →
      q ∈ d.m_vecAxisInfo →
      (d.m_vecAxisInfo.map (fun p => p.2.doi.m_strName)).Nodup →
      ∃ ja kvsa e, objGet jdoc "axes" = some ja ∧ ja = .obj kvsa
        ∧ axisEntryToJSON q.2 = .ok e
        ∧ alookup kvsa q.2.doi.m_strName = some e) := by
  refine ⟨?_, ?_, ?_⟩
  · intro ax sid sa hax hres
    obtain ⟨kvs, h1, h2, h3, h4, -, -, -⟩ := axisEntry_single ax sid sa hax hres
    exact ⟨kvs, h1, h2, h3, h4⟩
  · intro ax p1 p2 rest hax hnd hres
    obtain ⟨kvs, h1, h2, h3, h4, -, -, -⟩ := axisEntry_multi ax p1 p2 rest hax hnd hres
    exact ⟨kvs, h1, h2, h3, h4⟩
  · intro d jdoc q hd hq hnd
    obtain ⟨ja, hja, hsec⟩ := toJSONFile_axes d jdoc hd
    obtain ⟨kvsa, e, hres, hentry, hlook⟩ :=
      axesSection_null_mem d.m_vecAxisInfo ja hsec q hq hnd
    exact ⟨ja, kvsa, e, hja, hres, hentry, hlook⟩

def c8saD : SubAxis := ⟨DataObjectInfo.mkEmpty, .ncDouble, 2, [], [], [1, 2]⟩

def c8saD2 : SubAxis := ⟨DataObjectInfo.mkEmpty, .ncDouble, 2, [], [], [3, 4]⟩

def c8axSingle : AxisInfo := ⟨⟨"lat", .ncDouble, "", [], []⟩, [("0", c8saD)]⟩

def c8axMulti : AxisInfo :=
  ⟨⟨"lon", .ncDouble, "", [], []⟩, [("0", c8saD), ("1", c8saD2)]⟩

def c8dataset : IndexedDataset := ⟨DataObjectInfo.mkEmpty, [], [("lat", c8axSingle)], []⟩

theorem claim_C8_witness :
    (∃ kvs, axisEntryToJSON c8axSingle = .ok (.obj kvs)
      ∧ alookup kvs "subaxes" = none
      ∧ alookup kvs "size" = some (.jint c8saD.m_lSize)
      ∧ alookup kvs "values" = valuesJson c8saD)
  ∧ (∃ kvs, axisEntryToJSON c8axMulti = .ok (.obj kvs)
      ∧ alookup kvs "size" = none
      ∧ alookup kvs "values" = none
      ∧ alookup kvs "subaxes" =
          some (.obj (c8axMulti.m_vecSubAxis.map (fun p => (p.1, subAxisEntryJson p.2)))))
  ∧ (∃ jdoc, IndexedDataset.toJSONFile c8dataset = .ok jdoc ∧
      ∃ ja kvsa e, objGet jdoc "axes" = some ja ∧ ja = .obj kvsa
        ∧ axisEntryToJSON c8axSingle = .ok e
        ∧ alookup kvsa "lat" = some e) :=
  ⟨claim_C8.1 c8axSingle "0" c8saD rfl (by simp [c8axSingle]),
   claim_C8.2.1 c8axMulti ("0", c8saD) ("1", c8saD2) [] rfl
     (by simp [NodupKeys, c8axMulti]) (by simp [c8axMulti]),
   ⟨_, rfl, claim_C8.2.2 c8dataset _ ("lat", c8axSingle) rfl
     (by simp [c8dataset]) (by simp [c8dataset])⟩⟩

/-! ## Round-trip of the catalog through the JSON file (claim C3) -/

theorem ainsert_of_none {κ α : Type} [DecidableEq κ] {m : List (κ × α)} {k : κ} (v : α)
    (h : alookup m k = none) : ainsert m k v = m ++ [(k, v)] := by
  unfold ainsert
  rw [h]
  rfl

def subAxisView (sa : SubAxis) : NcType × Int × List Int × List ℚ × List ℚ :=
  (sa.m_nctype, sa.m_lSize, sa.m_dValuesInts, sa.m_dValuesFloat, sa.m_dValuesDouble)

/-- The variant states that survive the JSON round-trip: the value vectors of
the other types are empty and a typed variant stores at least one value (an
empty typed vector serializes as a null values member, which FromJSON
rejects). -/
def subAxisWF (sa : SubAxis) : Bool :=
  match sa.m_nctype with
  | .ncNoType => sa.m_dValuesInts.isEmpty && sa.m_dValuesFloat.isEmpty
      && sa.m_dValuesDouble.isEmpty
  | .ncInt => !sa.m_dValuesInts.isEmpty && sa.m_dValuesFloat.isEmpty
      && sa.m_dValuesDouble.isEmpty
  | .ncFloat => sa.m_dValuesInts.isEmpty && !sa.m_dValuesFloat.isEmpty
      && sa.m_dValuesDouble.isEmpty
  | .ncDouble => sa.m_dValuesInts.isEmpty && sa.m_dValuesFloat.isEmpty
      && !sa.m_dValuesDouble.isEmpty

theorem subAxis_fromJSON_of_lookups (sid : String) (kvs : List (String × Json))
    (sa : SubAxis) (hwf : subAxisWF sa = true)
    (hdt : alookup kvs "datatype" = some (.str (NcTypeToString sa.m_nctype)))
    (hsz : alookup kvs "size" = some (.jint sa.m_lSize))
    (hv : alookup kvs "values" = valuesJson sa) :
    ∃ sa2, SubAxis.fromJSON sid (.obj kvs) = .ok sa2
      ∧ subAxisView sa2 = subAxisView sa := by
  unfold subAxisWF at hwf
  unfold valuesJson at hv
  cases hn : sa.m_nctype <;> rw [hn] at hwf hv hdt <;>
    simp only [Bool.and_eq_true, Bool.not_eq_true', List.isEmpty_iff,
      List.isEmpty_eq_false] at hwf <;>
    simp only [] at hv
  case ncNoType =>
    obtain ⟨⟨h1, h2⟩, h3⟩ := hwf
    have hrun : SubAxis.fromJSON sid (.obj kvs)
        = .ok { SubAxis.mkEmpty with m_nctype := .ncNoType, m_lSize := sa.m_lSize } := by
      simp [SubAxis.fromJSON, objGet, hdt, hsz, hv, stringToNcType_roundtrip .ncNoType]
    exact ⟨_, hrun, by simp [subAxisView, SubAxis.mkEmpty, hn, h1, h2, h3]⟩
  case ncInt =>
    obtain ⟨⟨h1, h2⟩, h3⟩ := hwf
    rw [if_neg (by simpa using h1)] at hv
    have hrun : SubAxis.fromJSON sid (.obj kvs)
        = .ok { SubAxis.mkEmpty with m_nctype := .ncInt, m_lSize := sa.m_lSize, m_dValuesInts := sa.m_dValuesInts } := by
      simp [SubAxis.fromJSON, objGet, hdt, hsz, hv,
        stringToNcType_roundtrip .ncInt, asIntListE_map]
    exact ⟨_, hrun, by simp [subAxisView, SubAxis.mkEmpty, hn, h2, h3]⟩
  case ncFloat =>
    obtain ⟨⟨h1, h2⟩, h3⟩ := hwf
    rw [if_neg (by simpa using h2)] at hv
    have hrun : SubAxis.fromJSON sid (.obj kvs)
        = .ok { SubAxis.mkEmpty with m_nctype := .ncFloat, m_lSize := sa.m_lSize, m_dValuesFloat := sa.m_dValuesFloat } := by
      simp [SubAxis.fromJSON, objGet, hdt, hsz, hv,
        stringToNcType_roundtrip .ncFloat, asRatListE_map]
    exact ⟨_, hrun, by simp [subAxisView, SubAxis.mkEmpty, hn, h1, h3]⟩
  case ncDouble =>
    obtain ⟨⟨h1, h2⟩, h3⟩ := hwf
    rw [if_neg (by simpa using h3)] at hv
    have hrun : SubAxis.fromJSON sid (.obj kvs)
        = .ok { SubAxis.mkEmpty with m_nctype := .ncDouble, m_lSize := sa.m_lSize, m_dValuesDouble := sa.m_dValuesDouble } := by
      simp [SubAxis.fromJSON, objGet, hdt, hsz, hv,
        stringToNcType_roundtrip .ncDouble, asRatListE_map]
    exact ⟨_, hrun, by simp [subAxisView, SubAxis.mkEmpty, hn, h1, h2]⟩

theorem subAxisEntry_fromJSON (sid : String) (sa : SubAxis) (hwf : subAxisWF sa = true) :
    ∃ sa2, SubAxis.fromJSON sid (subAxisEntryJson sa) = .ok sa2
      ∧ subAxisView sa2 = subAxisView sa := by
  refine subAxis_fromJSON_of_lookups sid (subAxisEntryKvs sa) sa hwf ?_ ?_ ?_
  · simp [subAxisEntryKvs, alookup]
  · simp [subAxisEntryKvs, alookup]
  · cases hv : valuesJson sa <;> simp [subAxisEntryKvs, alookup, hv]

theorem axisAttrsFromJSON_ok (l : List (String × Json)) :
    ∀ ax : AxisInfo,
    (∀ p ∈ l, (p.1 = "subaxes" ∨ p.1 = "values" ∨ p.1 = "size" ∨ p.1 = "datatype")
        ∨ ∃ s, p.2 = .str s) →
    NodupKeys l →
    (∀ p ∈ l, alookup ax.doi.m_mapOtherAttributes p.1 = none) →
    ∃ ax2, axisAttrsFromJSON ax l = .ok ax2 ∧ ax2.m_vecSubAxis = ax.m_vecSubAxis := by
  induction l with
  | nil => intro ax _ _ _; exact ⟨ax, rfl, rfl⟩
  | cons q t ih =>
    intro ax hcls hnd hdisj
    obtain ⟨qk, qv⟩ := q
    unfold NodupKeys at hnd
    simp only [List.map_cons, List.nodup_cons] at hnd
    by_cases hq : qk = "subaxes" ∨ qk = "values" ∨ qk = "size" ∨ qk = "datatype"
    · obtain ⟨ax2, hrun, hsub⟩ :=
        ih ax (fun p hp => hcls p (List.mem_cons_of_mem _ hp)) hnd.2
          (fun p hp => hdisj p (List.mem_cons_of_mem _ hp))
      refine ⟨ax2, ?_, hsub⟩
      conv_lhs => rw [axisAttrsFromJSON.eq_def]
      simp only []
      rw [if_pos hq]
      exact hrun
    · obtain ⟨s, hs⟩ := (hcls (qk, qv) (by simp)).resolve_left hq
      have hqv : qv = Json.str s := hs
      have hd0 : alookup ax.doi.m_mapOtherAttributes qk = none := hdisj (qk, qv) (by simp)
      have hins : ax.doi.insertAttribute qk s
          = .ok { ax.doi with
              m_mapOtherAttributes := ax.doi.m_mapOtherAttributes ++ [(qk, s)] } := by
        unfold DataObjectInfo.insertAttribute
        rw [hd0]
        rfl
      have hfresh2 : ∀ p ∈ t,
          alookup (ax.doi.m_mapOtherAttributes ++ [(qk, s)]) p.1 = none := by
        intro p hp
        rw [alookup_append, hdisj p (List.mem_cons_of_mem _ hp)]
        have hne : qk ≠ p.1 := fun hh => hnd.1 (hh ▸ List.mem_map_of_mem Prod.fst hp)
        simp [alookup, hne]
      obtain ⟨ax2, hrun, hsub⟩ :=
        ih { ax with doi := { ax.doi with
              m_mapOtherAttributes := ax.doi.m_mapOtherAttributes ++ [(qk, s)] } }
          (fun p hp => hcls p (List.mem_cons_of_mem _ hp)) hnd.2 hfresh2
      refine ⟨ax2, ?_, hsub.trans rfl⟩
      conv_lhs => rw [axisAttrsFromJSON.eq_def]
      simp only []
      rw [if_neg hq, hqv]
      simp only [attrValueToString]
      rw [hins]
      exact hrun

theorem varAttrsFromJSON_ok (l : List (String × Json)) :
    ∀ vi : VariableInfo,
    (∀ p ∈ l, (p.1 = "axisids" ∨ p.1 = "subaxismap" ∨ p.1 = "axisgroups"
        ∨ p.1 = "datatype") ∨ ∃ s, p.2 = .str s) →
    NodupKeys l →
    (∀ p ∈ l, alookup vi.doi.m_mapOtherAttributes p.1 = none) →
    ∃ vi2, varAttrsFromJSON vi l = .ok vi2
      ∧ vi2.m_mapSubAxisToFileIdMaps = vi.m_mapSubAxisToFileIdMaps := by
  induction l with
  | nil => intro vi _ _ _; exact ⟨vi, rfl, rfl⟩
  | cons q t ih =>
    intro vi hcls hnd hdisj
    obtain ⟨qk, qv⟩ := q
    unfold NodupKeys at hnd
    simp only [List.map_cons, List.nodup_cons] at hnd
    by_cases hq : qk = "axisids" ∨ qk = "subaxismap" ∨ qk = "axisgroups" ∨ qk = "datatype"
    · obtain ⟨vi2, hrun, hsub⟩ :=
        ih vi (fun p hp => hcls p (List.mem_cons_of_mem _ hp)) hnd.2
          (fun p hp => hdisj p (List.mem_cons_of_mem _ hp))
      refine ⟨vi2, ?_, hsub⟩
      conv_lhs => rw [varAttrsFromJSON.eq_def]
      simp only []
      rw [if_pos hq]
      exact hrun
    · obtain ⟨s, hs⟩ := (hcls (qk, qv) (by simp)).resolve_left hq
      have hqv : qv = Json.str s := hs
      have hd0 : alookup vi.doi.m_mapOtherAttributes qk = none := hdisj (qk, qv) (by simp)
      have hins : vi.doi.insertAttribute qk s
          = .ok { vi.doi with
              m_mapOtherAttributes := vi.doi.m_mapOtherAttributes ++ [(qk, s)] } := by
        unfold DataObjectInfo.insertAttribute
        rw [hd0]
        rfl
      have hfresh2 : ∀ p ∈ t,
          alookup (vi.doi.m_mapOtherAttributes ++ [(qk, s)]) p.1 = none := by
        intro p hp
        rw [alookup_append, hdisj p (List.mem_cons_of_mem _ hp)]
        have hne : qk ≠ p.1 := fun hh => hnd.1 (hh ▸ List.mem_map_of_mem Prod.fst hp)
        simp [alookup, hne]
      obtain ⟨vi2, hrun, hsub⟩ :=
        ih { vi with doi := { vi.doi with
              m_mapOtherAttributes := vi.doi.m_mapOtherAttributes ++ [(qk, s)] } }
          (fun p hp => hcls p (List.mem_cons_of_mem _ hp)) hnd.2 hfresh2
      refine ⟨vi2, ?_, hsub.trans rfl⟩
      conv_lhs => rw [varAttrsFromJSON.eq_def]
      simp only []
      rw [if_neg hq, hqv]
      simp only [attrValueToString]
      rw [hins]
      exact hrun

def axisView (ax : AxisInfo) : List (String × (NcType × Int × List Int × List ℚ × List ℚ)) :=
  ax.m_vecSubAxis.map (fun p => (p.1, subAxisView p.2))

theorem subaxesFromJSON_ok (l : List (String × SubAxis)) :
    ∀ ax : AxisInfo,
    (∀ p ∈ l, subAxisWF p.2 = true) →
    (∀ p ∈ l, alookup ax.m_vecSubAxis p.1 = none) →
    NodupKeys l →
    ∃ ax2, subaxesFromJSON ax (l.map (fun p => (p.1, subAxisEntryJson p.2))) = .ok ax2
      ∧ axisView ax2 = axisView ax ++ l.map (fun p => (p.1, subAxisView p.2))
      ∧ ax2.doi = ax.doi := by
  induction l with
  | nil => intro ax _ _ _; exact ⟨ax, rfl, by simp [axisView], rfl⟩
  | cons q t ih =>
    intro ax hwf hfresh hnd
    obtain ⟨sid, sa⟩ := q
    unfold NodupKeys at hnd
    simp only [List.map_cons, List.nodup_cons] at hnd
    obtain ⟨sa2, hok, hview⟩ := subAxisEntry_fromJSON sid sa (hwf (sid, sa) (by simp))
    have hfr : alookup ax.m_vecSubAxis sid = none := hfresh (sid, sa) (by simp)
    have hins : ainsert ax.m_vecSubAxis sid sa2 = ax.m_vecSubAxis ++ [(sid, sa2)] :=
      ainsert_of_none _ hfr
    have hfresh2 : ∀ p ∈ t, alookup (ax.m_vecSubAxis ++ [(sid, sa2)]) p.1 = none := by
      intro p hp
      rw [alookup_append, hfresh p (List.mem_cons_of_mem _ hp)]
      have hne : sid ≠ p.1 := fun hh => hnd.1 (hh ▸ List.mem_map_of_mem Prod.fst hp)
      simp [alookup, hne]
    obtain ⟨ax2, hrun, hv2, hdoi⟩ :=
      ih { ax with m_vecSubAxis := ax.m_vecSubAxis ++ [(sid, sa2)] }
        (fun p hp => hwf p (List.mem_cons_of_mem _ hp)) hfresh2 hnd.2
    refine ⟨ax2, ?_, ?_, hdoi.trans rfl⟩
    · simp only [List.map_cons]
      conv_lhs => rw [subaxesFromJSON.eq_def]
      simp only []
      rw [hok]
      simp only []
      rw [hins]
      exact hrun
    · rw [hv2]
      simp [axisView, hview, List.append_assoc]

/-- The axis states reproduced by the JSON round-trip: key equal to the axis
name, at least one variant, distinct variant ids, single-variant id "0" (as
ingestion always assigns), well-formed variants, and attribute keys avoiding
the reserved member names of the axis entry. -/
def axisWF (aname : String) (ax : AxisInfo) : Bool :=
  (aname == ax.doi.m_strName)
  && !ax.m_vecSubAxis.isEmpty
  && decide ((ax.m_vecSubAxis.map Prod.fst).Nodup)
  && (match ax.m_vecSubAxis with
      | [(sid, _)] => sid == "0"
      | _ => true)
  && ax.m_vecSubAxis.all (fun p => subAxisWF p.2)
  && (ax.doi.m_mapKeyAttributes ++ ax.doi.m_mapOtherAttributes).all
      (fun kv => !(kv.1 == "datatype") && !(kv.1 == "size")
        && !(kv.1 == "values") && !(kv.1 == "subaxes"))

theorem axis_roundtrip (aname : String) (ax : AxisInfo) (hwf : axisWF aname ax = true) :
    ∃ jaa, axisEntryToJSON ax = .ok jaa
      ∧ ∃ ax2, axisFromJSON aname jaa = .ok ax2 ∧ axisView ax2 = axisView ax := by
  unfold axisWF at hwf
  simp only [Bool.and_eq_true, beq_iff_eq, Bool.not_eq_true', List.isEmpty_eq_false,
    List.all_eq_true, decide_eq_true_eq] at hwf
  obtain ⟨⟨⟨⟨⟨hname, hne⟩, hnd⟩, hsid⟩, hsawf⟩, hattrs⟩ := hwf
  have hres : ∀ k ∈ (ax.doi.m_mapKeyAttributes ++ ax.doi.m_mapOtherAttributes).map Prod.fst,
      k ≠ "datatype" ∧ k ≠ "size" ∧ k ≠ "values" ∧ k ≠ "subaxes" := by
    intro k hk
    obtain ⟨kv, hkv, rfl⟩ := List.mem_map.mp hk
    have h := hattrs kv hkv
    simp only [Bool.and_eq_true, Bool.not_eq_true', beq_eq_false_iff_ne, ne_eq] at h
    exact ⟨h.1.1.1, h.1.1.2, h.1.2, h.2⟩
  cases hax : ax.m_vecSubAxis with
  | nil => rw [hax] at hne; simp at hne
  | cons q1 tl =>
    cases htl : tl with
    | nil =>
      rw [htl] at hax
      obtain ⟨sid, sa⟩ := q1
      have hsid0 : sid = "0" := by
        rw [hax] at hsid
        simpa using hsid
      have hswf : subAxisWF sa = true := hsawf (sid, sa) (by rw [hax]; simp)
      obtain ⟨kvs, hok, hsubN, hsz, hval, hdt, hndk, hcls⟩ :=
        axisEntry_single ax sid sa hax hres
      obtain ⟨sa2, hsok, hsview⟩ :=
        subAxis_fromJSON_of_lookups aname kvs sa hswf hdt hsz hval
      obtain ⟨ax3, harun, havec⟩ := axisAttrsFromJSON_ok kvs
        { AxisInfo.mkNamed aname with doi := { (AxisInfo.mkNamed aname).doi with m_nctype := sa.m_nctype }, m_vecSubAxis := [("0", sa2)] }
        (by
          intro p hp
          rcases hcls p hp with h | h | h | h
          · exact .inl (.inr (.inr (.inl h)))
          · exact .inl (.inr (.inl h))
          · exact .inl (.inr (.inr (.inr h)))
          · exact .inr h)
        hndk (fun p _ => rfl)
      refine ⟨.obj kvs, hok, ax3, ?_, ?_⟩
      · simp only [axisFromJSON]
        rw [show objGet (Json.obj kvs) "datatype"
            = some (.str (NcTypeToString sa.m_nctype)) from hdt]
        simp only []
        rw [stringToNcType_roundtrip]
        simp only []
        rw [show objGet (Json.obj kvs) "subaxes" = none from hsubN]
        simp only []
        rw [show objGet (Json.obj kvs) "size" = some (.jint sa.m_lSize) from hsz]
        simp only [Option.isSome_some, reduceIte]
        rw [hsok]
        simp only [jsonEntries]
        exact harun
      · simp only [axisView]
        rw [havec, hax, hsid0]
        simp [hsview]
    | cons q2 rest =>
      rw [htl] at hax
      obtain ⟨kvs, hok, hszN, hvalN, hsubS, hdt, hndk, hcls⟩ :=
        axisEntry_multi ax q1 q2 rest hax hnd hres
      obtain ⟨ax1, hsrun, hsview, hsdoi⟩ := subaxesFromJSON_ok ax.m_vecSubAxis
        { AxisInfo.mkNamed aname with doi := { (AxisInfo.mkNamed aname).doi with m_nctype := ax.doi.m_nctype } }
        hsawf (fun p _ => rfl) hnd
      obtain ⟨ax3, harun, havec⟩ := axisAttrsFromJSON_ok kvs ax1
        (by
          intro p hp
          rcases hcls p hp with h | h
          · exact .inl (.inl h)
          · exact .inr h)
        hndk
        (by
          intro p hp
          rw [hsdoi]
          rfl)
      refine ⟨.obj kvs, hok, ax3, ?_, ?_⟩
      · simp only [axisFromJSON]
        rw [show objGet (Json.obj kvs) "datatype"
            = some (.str (NcTypeToString ax.doi.m_nctype)) from hdt]
        simp only []
        rw [stringToNcType_roundtrip]
        simp only []
        rw [show objGet (Json.obj kvs) "subaxes"
            = some (.obj (ax.m_vecSubAxis.map (fun p => (p.1, subAxisEntryJson p.2))))
            from hsubS]
        simp only []
        rw [show objGet (Json.obj kvs) "values" = none from hvalN]
        simp only [Option.isSome_none, reduceIte]
        rw [show objGet (Json.obj kvs) "size" = none from hszN]
        simp only [Option.isSome_none, reduceIte]
        simp only [jsonEntries]
        rw [hsrun]
        simp only []
        exact harun
      · have hv3 : axisView ax3 = axisView ax1 := by
          simp only [axisView]
          rw [havec]
        rw [hv3, hsview]
        simp [axisView, AxisInfo.mkNamed]

theorem varEntryToJSON_base (vi : VariableInfo)
    (hres : ∀ k ∈ (vi.doi.m_mapKeyAttributes ++ vi.doi.m_mapOtherAttributes).map Prod.fst,
      k ≠ "datatype" ∧ k ≠ "axisids" ∧ k ≠ "subaxismap" ∧ k ≠ "axisgroups") :
    ∃ kvs, varEntryToJSON vi = (match vi.m_mapSubAxisToFileIdMaps with
        | [] => .ok (.obj kvs)
        | [g] => groupToJSON g (.obj kvs)
        | l => axisgroupsNestedToJSON (.obj kvs) 0 l)
      ∧ alookup kvs "datatype" = some (.str (NcTypeToString vi.doi.m_nctype))
      ∧ alookup kvs "axisids" = none ∧ alookup kvs "subaxismap" = none
      ∧ alookup kvs "axisgroups" = none ∧ NodupKeys kvs
      ∧ (∀ p ∈ kvs, (∃ s, p.2 = .str s)
          ∧ p.1 ≠ "axisids" ∧ p.1 ≠ "subaxismap" ∧ p.1 ≠ "axisgroups") := by
  have hmemK : ∀ k ∈ vi.doi.m_mapKeyAttributes.map Prod.fst,
      k ≠ "datatype" ∧ k ≠ "axisids" ∧ k ≠ "subaxismap" ∧ k ≠ "axisgroups" := by
    intro k hk
    exact hres k (by rw [List.map_append]; exact List.mem_append_left _ hk)
  have hmemO : ∀ k ∈ vi.doi.m_mapOtherAttributes.map Prod.fst,
      k ≠ "datatype" ∧ k ≠ "axisids" ∧ k ≠ "subaxismap" ∧ k ≠ "axisgroups" := by
    intro k hk
    exact hres k (by rw [List.map_append]; exact List.mem_append_right _ hk)
  have hninK : ∀ k, (k = "datatype" ∨ k = "axisids" ∨ k = "subaxismap" ∨ k = "axisgroups") →
      k ∉ vi.doi.m_mapKeyAttributes.map Prod.fst := by
    intro k hk hmem
    rcases hk with h | h | h | h <;> subst h <;>
      first
        | exact (hmemK _ hmem).1 rfl
        | exact (hmemK _ hmem).2.1 rfl
        | exact (hmemK _ hmem).2.2.1 rfl
        | exact (hmemK _ hmem).2.2.2 rfl
  have hninO : ∀ k, (k = "datatype" ∨ k = "axisids" ∨ k = "subaxismap" ∨ k = "axisgroups") →
      k ∉ vi.doi.m_mapOtherAttributes.map Prod.fst := by
    intro k hk hmem
    rcases hk with h | h | h | h <;> subst h <;>
      first
        | exact (hmemO _ hmem).1 rfl
        | exact (hmemO _ hmem).2.1 rfl
        | exact (hmemO _ hmem).2.2.1 rfl
        | exact (hmemO _ hmem).2.2.2 rfl
  obtain ⟨kvs1, e1, pres1, cls1, nd1⟩ :=
    setAttrs_obj vi.doi.m_mapKeyAttributes
      [("units", .str vi.doi.m_strUnits),
       ("datatype", .str (NcTypeToString vi.doi.m_nctype))]
  obtain ⟨kvs2, e2, pres2, cls2, nd2⟩ := setAttrs_obj vi.doi.m_mapOtherAttributes kvs1
  have look1 : ∀ k, (k = "datatype" ∨ k = "axisids" ∨ k = "subaxismap" ∨ k = "axisgroups") →
      alookup kvs2 k = alookup
        [("units", Json.str vi.doi.m_strUnits),
         ("datatype", Json.str (NcTypeToString vi.doi.m_nctype))] k := by
    intro k hk
    rw [pres2 k (hninO k hk), pres1 k (hninK k hk)]
  refine ⟨kvs2, ?_, ?_, ?_, ?_, ?_, ?_, ?_⟩
  · simp only [varEntryToJSON, objSet]
    have h0 : aupdate [("units", Json.str vi.doi.m_strUnits)] "datatype"
        (Json.str (NcTypeToString vi.doi.m_nctype)) =
        [("units", Json.str vi.doi.m_strUnits),
         ("datatype", Json.str (NcTypeToString vi.doi.m_nctype))] := rfl
    rw [h0]
    rw [e1]
    simp only []
    rw [e2]
  · rw [look1 "datatype" (.inl rfl)]; rfl
  · rw [look1 "axisids" (.inr (.inl rfl))]; rfl
  · rw [look1 "subaxismap" (.inr (.inr (.inl rfl)))]; rfl
  · rw [look1 "axisgroups" (.inr (.inr (.inr rfl)))]; rfl
  · exact nd2 (nd1 (by simp [NodupKeys]))
  · intro p hp
    rcases cls2 p hp with hp1 | hstr
    · rcases cls1 p hp1 with hp0 | hstr
      · simp only [List.mem_cons, List.not_mem_nil, or_false] at hp0
        rcases hp0 with h | h <;> subst h <;>
          exact ⟨⟨_, rfl⟩, by simp, by simp, by simp⟩
      · exact ⟨hstr.2, (hmemK _ hstr.1).2.1, (hmemK _ hstr.1).2.2.1, (hmemK _ hstr.1).2.2.2⟩
    · exact ⟨hstr.2, (hmemO _ hstr.1).2.1, (hmemO _ hstr.1).2.2.1, (hmemO _ hstr.1).2.2.2⟩

/-- The axisids member written for one group: referencing creates it null and
each name is pushed, so an empty name list leaves a null member. -/
def axisidsJson (names : List String) : Json :=
  if names.isEmpty then .null else .arr (names.map .str)

def entryArr (e : List String × String) : Json :=
  .arr (e.1.map .str ++ [.str e.2])

def subaxismapJson (inner : List (List String × String)) : Json :=
  if inner.isEmpty then .null else .arr (inner.map entryArr)

theorem groupToJSON_obj (g : List String × List (List String × String))
    (kvs : List (String × Json))
    (ha : alookup kvs "axisids" = none) (hsm : alookup kvs "subaxismap" = none) :
    groupToJSON g (.obj kvs) =
      .ok (.obj ((kvs ++ [("axisids", axisidsJson g.1)])
        ++ [("subaxismap", subaxismapJson g.2)])) := by
  have hmap : (fun (e : List String × String) =>
      Json.arr (List.map Json.str e.1 ++ [Json.str e.2])) = entryArr := rfl
  simp [groupToJSON, pushMember, pushAllE, objSet, objGet, ha, hsm, alookup_append,
    alookup, aupdate_of_none, isEmpty_map, axisidsJson, subaxismapJson, hmap]

theorem groupToJSON_null (g : List String × List (List String × String)) :
    groupToJSON g .null =
      .ok (.obj [("axisids", axisidsJson g.1), ("subaxismap", subaxismapJson g.2)]) := by
  have hmap : (fun (e : List String × String) =>
      Json.arr (List.map Json.str e.1 ++ [Json.str e.2])) = entryArr := rfl
  simp [groupToJSON, pushMember, pushAllE, objSet, objGet, aupdate, isEmpty_map,
    axisidsJson, subaxismapJson, alookup, hmap]

theorem subAxisMapEntries_roundtrip (inner : List (List String × String)) :
    ∀ (acc : List (List String × String)) (strKey : String),
    (∀ e ∈ inner, alookup acc e.1 = none) →
    NodupKeys inner →
    subAxisMapEntriesFromJSON acc strKey (inner.map entryArr) = .ok (acc ++ inner) := by
  induction inner with
  | nil => intro acc strKey _ _; simp [subAxisMapEntriesFromJSON]
  | cons e t ih =>
    intro acc strKey hfresh hnd
    obtain ⟨ids, fid⟩ := e
    unfold NodupKeys at hnd
    simp only [List.map_cons, List.nodup_cons] at hnd
    have hstr : asStrListE (ids.map Json.str ++ [Json.str fid]) = .ok (ids ++ [fid]) := by
      have hm : ids.map Json.str ++ [Json.str fid] = (ids ++ [fid]).map Json.str := by
        simp
      rw [hm, asStrListE_map]
    have hins : ainsert acc ids fid = acc ++ [(ids, fid)] :=
      ainsert_of_none _ (hfresh (ids, fid) (by simp))
    have hfresh2 : ∀ p ∈ t, alookup (acc ++ [(ids, fid)]) p.1 = none := by
      intro p hp
      rw [alookup_append, hfresh p (List.mem_cons_of_mem _ hp)]
      have hne : ids ≠ p.1 := fun hh => hnd.1 (hh ▸ List.mem_map_of_mem Prod.fst hp)
      simp [alookup, hne]
    have step := ih (acc ++ [(ids, fid)]) strKey hfresh2 hnd.2
    simp only [List.map_cons]
    conv_lhs => rw [subAxisMapEntriesFromJSON.eq_def]
    simp only [entryArr]
    rw [if_neg (by simp)]
    rw [hstr]
    simp only []
    rw [List.dropLast_concat, List.getLastD_concat, hins, step]
    simp

theorem subAxisToFileIdMapFromJSON_ok (vi : VariableInfo) (strKey : String)
    (g : List String × List (List String × String)) (j : Json)
    (ha : objGet j "axisids" = some (axisidsJson g.1))
    (hsm : objGet j "subaxismap" = some (subaxismapJson g.2))
    (hinner : g.2 ≠ []) (hnd : NodupKeys g.2) :
    vi.subAxisToFileIdMapFromJSON strKey j
      = .ok { vi with m_mapSubAxisToFileIdMaps := ainsert vi.m_mapSubAxisToFileIdMaps g.1 g.2 } := by
  have hnames : (match axisidsJson g.1 with
      | Json.null => Except.ok ([] : List String)
      | Json.arr l => asStrListE l
      | _ => Except.error ("JSON variable \"" ++ strKey
          ++ "\" \"axisids\" must be type array")) = .ok g.1 := by
    cases hg : g.1 with
    | nil => simp [axisidsJson]
    | cons a t =>
      have : asStrListE ((a :: t).map Json.str) = .ok (a :: t) := asStrListE_map _
      simp only [List.map_cons] at this
      simp [axisidsJson, this]
  have hentries : subAxisMapEntriesFromJSON [] strKey (g.2.map entryArr) = .ok g.2 :=
    subAxisMapEntries_roundtrip g.2 [] strKey (fun e _ => rfl) hnd
  unfold VariableInfo.subAxisToFileIdMapFromJSON
  rw [ha]
  simp only []
  rw [hnames]
  simp only []
  rw [hsm]
  simp only []
  rw [show subaxismapJson g.2 = .arr (g.2.map entryArr) from by
    simp [subaxismapJson, hinner]]
  simp only []
  rw [hentries]

def groupObjJson (g : List String × List (List String × String)) : Json :=
  .obj [("axisids", axisidsJson g.1), ("subaxismap", subaxismapJson g.2)]

theorem groupToJSON_null_obj (g : List String × List (List String × String)) :
    groupToJSON g .null = .ok (groupObjJson g) := groupToJSON_null g

theorem varEntry_single (vi : VariableInfo) (g : List String × List (List String × String))
    (hvi : vi.m_mapSubAxisToFileIdMaps = [g])
    (hres : ∀ k ∈ (vi.doi.m_mapKeyAttributes ++ vi.doi.m_mapOtherAttributes).map Prod.fst,
      k ≠ "datatype" ∧ k ≠ "axisids" ∧ k ≠ "subaxismap" ∧ k ≠ "axisgroups") :
    ∃ kvs, varEntryToJSON vi = .ok (.obj kvs)
      ∧ alookup kvs "axisgroups" = none
      ∧ alookup kvs "axisids" = some (axisidsJson g.1)
      ∧ alookup kvs "subaxismap" = some (subaxismapJson g.2)
      ∧ alookup kvs "datatype" = some (.str (NcTypeToString vi.doi.m_nctype))
      ∧ NodupKeys kvs
      ∧ (∀ p ∈ kvs, p.1 = "axisids" ∨ p.1 = "subaxismap" ∨ ∃ s, p.2 = .str s) := by
  obtain ⟨kvs, hrun, hdt, ha, hsm, hg, hnd, hcls⟩ := varEntryToJSON_base vi hres
  rw [hvi] at hrun
  simp only [] at hrun
  rw [groupToJSON_obj g kvs ha hsm] at hrun
  have hlook1 : alookup (kvs ++ [("axisids", axisidsJson g.1)]) "subaxismap" = none := by
    rw [alookup_append, hsm]; rfl
  refine ⟨_, hrun, ?_, ?_, ?_, ?_, ?_, ?_⟩
  · simp [alookup_append, hg, alookup]
  · simp [alookup_append, ha, alookup]
  · simp [alookup_append, hlook1, hsm, alookup]
  · simp [alookup_append, hdt, alookup]
  · rw [show (kvs ++ [("axisids", axisidsJson g.1)]) ++ [("subaxismap", subaxismapJson g.2)]
        = aupdate (aupdate kvs "axisids" (axisidsJson g.1)) "subaxismap"
            (subaxismapJson g.2) from by
      rw [aupdate_of_none _ ha]
      rw [aupdate_of_none _ hlook1]]
    exact nodupKeys_aupdate _ _ (nodupKeys_aupdate _ _ hnd)
  · intro p hp
    rcases List.mem_append.mp hp with hp1 | hp1
    · rcases List.mem_append.mp hp1 with hp0 | hp0
      · exact .inr (.inr (hcls p hp0).1)
      · simp only [List.mem_cons, List.not_mem_nil, or_false] at hp0
        left; rw [hp0]
    · simp only [List.mem_cons, List.not_mem_nil, or_false] at hp1
      right; left; rw [hp1]

/-- The variable states reproduced by the JSON round-trip: key equal to the
variable name, exactly one axis-name-list group (for two or more groups the
serializer writes every group under axisgroups key "0" because ixAxisGroup
is never incremented, so the groups are merged and cannot be reproduced), a
nonempty inner map with distinct tuple keys (an empty inner map serializes
as a null subaxismap member, which the loader rejects), and attribute keys
avoiding the reserved member names of the variable entry. -/
def varWF (vname : String) (vi : VariableInfo) : Bool :=
  (vname == vi.doi.m_strName)
  && (vi.m_mapSubAxisToFileIdMaps.length == 1)
  && vi.m_mapSubAxisToFileIdMaps.all
      (fun g => !g.2.isEmpty && decide ((g.2.map Prod.fst).Nodup))
  && (vi.doi.m_mapKeyAttributes ++ vi.doi.m_mapOtherAttributes).all
      (fun kv => !(kv.1 == "datatype") && !(kv.1 == "axisids")
        && !(kv.1 == "subaxismap") && !(kv.1 == "axisgroups"))

theorem var_roundtrip (vname : String) (vi : VariableInfo) (hwf : varWF vname vi = true) :
    ∃ jvv, varEntryToJSON vi = .ok jvv
      ∧ ∃ vi2, varFromJSON vname jvv = .ok vi2
        ∧ vi2.m_mapSubAxisToFileIdMaps = vi.m_mapSubAxisToFileIdMaps := by
  unfold varWF at hwf
  simp only [Bool.and_eq_true, beq_iff_eq, Bool.not_eq_true', List.isEmpty_eq_false,
    List.all_eq_true, decide_eq_true_eq] at hwf
  obtain ⟨⟨⟨hname, hlen⟩, hgwf⟩, hattrs⟩ := hwf
  have hres : ∀ k ∈ (vi.doi.m_mapKeyAttributes ++ vi.doi.m_mapOtherAttributes).map Prod.fst,
      k ≠ "datatype" ∧ k ≠ "axisids" ∧ k ≠ "subaxismap" ∧ k ≠ "axisgroups" := by
    intro k hk
    obtain ⟨kv, hkv, rfl⟩ := List.mem_map.mp hk
    have h := hattrs kv hkv
    simp only [Bool.and_eq_true, Bool.not_eq_true', beq_eq_false_iff_ne, ne_eq] at h
    exact ⟨h.1.1.1, h.1.1.2, h.1.2, h.2⟩
  have hgwf2 : ∀ g ∈ vi.m_mapSubAxisToFileIdMaps, g.2 ≠ [] ∧ NodupKeys g.2 := by
    intro g hg
    have h := hgwf g hg
    simp only [Bool.and_eq_true, Bool.not_eq_true', List.isEmpty_eq_false,
      decide_eq_true_eq] at h
    exact ⟨h.1, h.2⟩
  obtain ⟨g1, hvi⟩ := List.length_eq_one.mp hlen
  obtain ⟨kvs, hok, hgN, ha, hsm, hdt, hndk, hcls⟩ := varEntry_single vi g1 hvi hres
  have hg1 := hgwf2 g1 (by rw [hvi]; simp)
  have hgok := subAxisToFileIdMapFromJSON_ok
    { VariableInfo.mkNamed vname with doi := { (VariableInfo.mkNamed vname).doi with m_nctype := vi.doi.m_nctype } }
    "variables" g1 (.obj kvs) ha hsm hg1.1 hg1.2
  obtain ⟨vi3, harun, hamaps⟩ := varAttrsFromJSON_ok kvs
    { VariableInfo.mkNamed vname with doi := { (VariableInfo.mkNamed vname).doi with m_nctype := vi.doi.m_nctype }, m_mapSubAxisToFileIdMaps := ainsert [] g1.1 g1.2 }
    (by
      intro p hp
      rcases hcls p hp with h | h | h
      · exact .inl (.inl h)
      · exact .inl (.inr (.inl h))
      · exact .inr h)
    hndk (fun p _ => rfl)
  refine ⟨.obj kvs, hok, vi3, ?_, ?_⟩
  · simp only [varFromJSON]
    rw [show objGet (Json.obj kvs) "datatype"
        = some (.str (NcTypeToString vi.doi.m_nctype)) from hdt]
    simp only []
    rw [stringToNcType_roundtrip]
    simp only []
    rw [show objGet (Json.obj kvs) "axisgroups" = none from hgN]
    simp only []
    rw [hgok]
    simp only [jsonEntries]
    exact harun
  · rw [hamaps]
    simp [hvi, ainsert, alookup]

theorem axesSection_build (axes : List (String × AxisInfo)) :
    ∀ kvs : List (String × Json),
    (∀ p ∈ axes, axisWF p.1 p.2 = true) →
    (∀ p ∈ axes, alookup kvs p.1 = none) →
    (axes.map Prod.fst).Nodup →
    ∃ ents, axesSectionToJSON axes (.obj kvs) = .ok (.obj (kvs ++ ents))
      ∧ ents.map Prod.fst = axes.map Prod.fst
      ∧ List.Forall₂ (fun p e => ∃ ax2, axisFromJSON p.1 e.2 = .ok ax2
          ∧ axisView ax2 = axisView p.2) axes ents := by
  induction axes with
  | nil =>
    intro kvs _ _ _
    exact ⟨[], by simp [axesSectionToJSON], rfl, List.Forall₂.nil⟩
  | cons q t ih =>
    intro kvs hwf hfresh hnd
    obtain ⟨pk, pa⟩ := q
    simp only [List.map_cons, List.nodup_cons] at hnd
    have hwfh : axisWF pk pa = true := hwf (pk, pa) (by simp)
    have hkey : pa.doi.m_strName = pk := by
      unfold axisWF at hwfh
      simp only [Bool.and_eq_true, beq_iff_eq] at hwfh
      exact hwfh.1.1.1.1.1.symm
    obtain ⟨jaa, hser, ax2, hpar, hview⟩ := axis_roundtrip pk pa hwfh
    have hfr : alookup kvs pk = none := hfresh (pk, pa) (by simp)
    have hfresh2 : ∀ p ∈ t, alookup (kvs ++ [(pk, jaa)]) p.1 = none := by
      intro p hp
      rw [alookup_append, hfresh p (List.mem_cons_of_mem _ hp)]
      have hne : pk ≠ p.1 := fun hh => hnd.1 (hh ▸ List.mem_map_of_mem Prod.fst hp)
      simp [alookup, hne]
    obtain ⟨ents, hrun, hkeys, hfa⟩ :=
      ih (kvs ++ [(pk, jaa)]) (fun p hp => hwf p (List.mem_cons_of_mem _ hp))
        hfresh2 hnd.2
    refine ⟨(pk, jaa) :: ents, ?_, ?_, ?_⟩
    · conv_lhs => rw [axesSectionToJSON.eq_def]
      simp only []
      rw [hser]
      simp only [objSet, hkey]
      rw [aupdate_of_none _ hfr]
      rw [hrun]
      simp [List.append_assoc]
    · simp [hkeys]
    · exact List.Forall₂.cons ⟨ax2, hpar, hview⟩ hfa

theorem axesFromJSON_build (axes : List (String × AxisInfo)) (ents : List (String × Json)) :
    ∀ acc : List (String × AxisInfo),
    List.Forall₂ (fun p e => ∃ ax2, axisFromJSON p.1 e.2 = .ok ax2
        ∧ axisView ax2 = axisView p.2) axes ents →
    ents.map Prod.fst = axes.map Prod.fst →
    (axes.map Prod.fst).Nodup →
    (∀ p ∈ axes, alookup acc p.1 = none) →
    ∃ axes2, axesFromJSON acc ents = .ok (acc ++ axes2)
      ∧ axes2.map (fun p => (p.1, axisView p.2))
        = axes.map (fun p => (p.1, axisView p.2)) := by
  intro acc hfa
  induction hfa generalizing acc with
  | nil =>
    intro _ _ _
    exact ⟨[], by simp [axesFromJSON], rfl⟩
  | cons hr hfa ih =>
    next p e t ents2 =>
    intro hkeys hnd hfresh
    obtain ⟨pk, pa⟩ := p
    obtain ⟨ek, ev⟩ := e
    simp only [List.map_cons, List.cons.injEq] at hkeys
    obtain ⟨hek, hkeys2⟩ := hkeys
    subst hek
    simp only [List.map_cons, List.nodup_cons] at hnd
    obtain ⟨ax2, hok, hview⟩ := hr
    have hfr : alookup acc ek = none := hfresh (ek, pa) (by simp)
    have hins : ainsert acc ek ax2 = acc ++ [(ek, ax2)] := ainsert_of_none _ hfr
    have hfresh2 : ∀ p ∈ t, alookup (acc ++ [(ek, ax2)]) p.1 = none := by
      intro p hp
      rw [alookup_append, hfresh p (List.mem_cons_of_mem _ hp)]
      have hne : ek ≠ p.1 := fun hh => hnd.1 (hh ▸ List.mem_map_of_mem Prod.fst hp)
      simp [alookup, hne]
    obtain ⟨axes2, hrun, hviews⟩ := ih (acc ++ [(ek, ax2)]) hkeys2 hnd.2 hfresh2
    refine ⟨(ek, ax2) :: axes2, ?_, ?_⟩
    · conv_lhs => rw [axesFromJSON.eq_def]
      simp only []
      rw [hok]
      simp only []
      rw [hins, hrun]
      simp [List.append_assoc]
    · simp [hviews, hview]

theorem varsSection_build (vars : List (String × VariableInfo)) :
    ∀ kvs : List (String × Json),
    (∀ p ∈ vars, varWF p.1 p.2 = true) →
    (∀ p ∈ vars, alookup kvs p.1 = none) →
    (vars.map Prod.fst).Nodup →
    ∃ ents, varsSectionToJSON vars (.obj kvs) = .ok (.obj (kvs ++ ents))
      ∧ ents.map Prod.fst = vars.map Prod.fst
      ∧ List.Forall₂ (fun p e => ∃ vi2, varFromJSON p.1 e.2 = .ok vi2
          ∧ vi2.m_mapSubAxisToFileIdMaps = p.2.m_mapSubAxisToFileIdMaps) vars ents := by
  induction vars with
  | nil =>
    intro kvs _ _ _
    exact ⟨[], by simp [varsSectionToJSON], rfl, List.Forall₂.nil⟩
  | cons q t ih =>
    intro kvs hwf hfresh hnd
    obtain ⟨pk, pa⟩ := q
    simp only [List.map_cons, List.nodup_cons] at hnd
    have hwfh : varWF pk pa = true := hwf (pk, pa) (by simp)
    have hkey : pa.doi.m_strName = pk := by
      unfold varWF at hwfh
      simp only [Bool.and_eq_true, beq_iff_eq] at hwfh
      exact hwfh.1.1.1.symm
    obtain ⟨jvv, hser, vi2, hpar, hmaps⟩ := var_roundtrip pk pa hwfh
    have hfr : alookup kvs pk = none := hfresh (pk, pa) (by simp)
    have hfresh2 : ∀ p ∈ t, alookup (kvs ++ [(pk, jvv)]) p.1 = none := by
      intro p hp
      rw [alookup_append, hfresh p (List.mem_cons_of_mem _ hp)]
      have hne : pk ≠ p.1 := fun hh => hnd.1 (hh ▸ List.mem_map_of_mem Prod.fst hp)
      simp [alookup, hne]
    obtain ⟨ents, hrun, hkeys, hfa⟩ :=
      ih (kvs ++ [(pk, jvv)]) (fun p hp => hwf p (List.mem_cons_of_mem _ hp))
        hfresh2 hnd.2
    refine ⟨(pk, jvv) :: ents, ?_, ?_, ?_⟩
    · conv_lhs => rw [varsSectionToJSON.eq_def]
      simp only []
      rw [hser]
      simp only [objSet, hkey]
      rw [aupdate_of_none _ hfr]
      rw [hrun]
      simp [List.append_assoc]
    · simp [hkeys]
    · exact List.Forall₂.cons ⟨vi2, hpar, hmaps⟩ hfa

theorem varsFromJSON_build (vars : List (String × VariableInfo))
    (ents : List (String × Json)) :
    ∀ acc : List (String × VariableInfo),
    List.Forall₂ (fun p e => ∃ vi2, varFromJSON p.1 e.2 = .ok vi2
        ∧ vi2.m_mapSubAxisToFileIdMaps = p.2.m_mapSubAxisToFileIdMaps) vars ents →
    ents.map Prod.fst = vars.map Prod.fst →
    (vars.map Prod.fst).Nodup →
    (∀ p ∈ vars, alookup acc p.1 = none) →
    ∃ vars2, varsFromJSON acc ents = .ok (acc ++ vars2)
      ∧ vars2.map (fun p => (p.1, p.2.m_mapSubAxisToFileIdMaps))
        = vars.map (fun p => (p.1, p.2.m_mapSubAxisToFileIdMaps)) := by
  intro acc hfa
  induction hfa generalizing acc with
  | nil =>
    intro _ _ _
    exact ⟨[], by simp [varsFromJSON], rfl⟩
  | cons hr hfa ih =>
    next p e t ents2 =>
    intro hkeys hnd hfresh
    obtain ⟨pk, pa⟩ := p
    obtain ⟨ek, ev⟩ := e
    simp only [List.map_cons, List.cons.injEq] at hkeys
    obtain ⟨hek, hkeys2⟩ := hkeys
    subst hek
    simp only [List.map_cons, List.nodup_cons] at hnd
    obtain ⟨vi2, hok, hmaps⟩ := hr
    have hfr : alookup acc ek = none := hfresh (ek, pa) (by simp)
    have hins : ainsert acc ek vi2 = acc ++ [(ek, vi2)] := ainsert_of_none _ hfr
    have hfresh2 : ∀ p ∈ t, alookup (acc ++ [(ek, vi2)]) p.1 = none := by
      intro p hp
      rw [alookup_append, hfresh p (List.mem_cons_of_mem _ hp)]
      have hne : ek ≠ p.1 := fun hh => hnd.1 (hh ▸ List.mem_map_of_mem Prod.fst hp)
      simp [alookup, hne]
    obtain ⟨vars2, hrun, hviews⟩ := ih (acc ++ [(ek, vi2)]) hkeys2 hnd.2 hfresh2
    refine ⟨(ek, vi2) :: vars2, ?_, ?_⟩
    · conv_lhs => rw [varsFromJSON.eq_def]
      simp only []
      rw [hok]
      simp only []
      rw [hins, hrun]
      simp [List.append_assoc]
    · simp [hviews, hmaps]

/-- The shape preserved by the attribute writers: a null document or an
object whose members are all strings with distinct keys. -/
def StrObjOrNull (j : Json) : Prop :=
  j = .null ∨ ∃ kvs, j = .obj kvs ∧ NodupKeys kvs ∧ ∀ p ∈ kvs, ∃ s, p.2 = Json.str s

theorem setAttrs_preserves (atts : AttributeMap) :
    ∀ j, StrObjOrNull j → ∃ j2, setAttrs j atts = .ok j2 ∧ StrObjOrNull j2 := by
  induction atts with
  | nil => intro j hj; exact ⟨j, rfl, hj⟩
  | cons a t ih =>
    intro j hj
    obtain ⟨ak, av⟩ := a
    rcases hj with rfl | ⟨kvs, rfl, hnd, hstr⟩
    · have hstep : setAttrs Json.null ((ak, av) :: t)
          = setAttrs (.obj [(ak, .str av)]) t := by
        conv_lhs => rw [setAttrs.eq_def]
        simp only [objSet]
      obtain ⟨j2, hrun, hj2⟩ := ih (.obj [(ak, .str av)])
        (.inr ⟨_, rfl, by simp [NodupKeys], by simp⟩)
      exact ⟨j2, by rw [hstep]; exact hrun, hj2⟩
    · have hstep : setAttrs (Json.obj kvs) ((ak, av) :: t)
          = setAttrs (.obj (aupdate kvs ak (.str av))) t := by
        conv_lhs => rw [setAttrs.eq_def]
        simp only [objSet]
      obtain ⟨j2, hrun, hj2⟩ := ih (.obj (aupdate kvs ak (.str av)))
        (.inr ⟨_, rfl, nodupKeys_aupdate _ _ hnd, by
          intro p hp
          rcases mem_aupdate hp with hin | heq
          · exact hstr p hin
          · exact ⟨av, by rw [heq]⟩⟩)
      exact ⟨j2, by rw [hstep]; exact hrun, hj2⟩

theorem datasetAttrsFromJSON_ok (l : List (String × Json)) :
    ∀ dd : DataObjectInfo,
    (∀ p ∈ l, ∃ s, p.2 = .str s) →
    NodupKeys l →
    (∀ p ∈ l, alookup dd.m_mapOtherAttributes p.1 = none) →
    ∃ d2, datasetAttrsFromJSON dd l = .ok d2 := by
  induction l with
  | nil => intro dd _ _ _; exact ⟨dd, rfl⟩
  | cons q t ih =>
    intro dd hstr hnd hdisj
    obtain ⟨qk, qv⟩ := q
    unfold NodupKeys at hnd
    simp only [List.map_cons, List.nodup_cons] at hnd
    obtain ⟨s, hs⟩ := hstr (qk, qv) (by simp)
    have hqv : qv = Json.str s := hs
    have hd0 : alookup dd.m_mapOtherAttributes qk = none := hdisj (qk, qv) (by simp)
    have hins : dd.insertAttribute qk s
        = .ok { dd with m_mapOtherAttributes := dd.m_mapOtherAttributes ++ [(qk, s)] } := by
      unfold DataObjectInfo.insertAttribute
      rw [hd0]
      rfl
    have hfresh2 : ∀ p ∈ t, alookup (dd.m_mapOtherAttributes ++ [(qk, s)]) p.1 = none := by
      intro p hp
      rw [alookup_append, hdisj p (List.mem_cons_of_mem _ hp)]
      have hne : qk ≠ p.1 := fun hh => hnd.1 (hh ▸ List.mem_map_of_mem Prod.fst hp)
      simp [alookup, hne]
    obtain ⟨d2, hrun⟩ :=
      ih { dd with m_mapOtherAttributes := dd.m_mapOtherAttributes ++ [(qk, s)] }
        (fun p hp => hstr p (List.mem_cons_of_mem _ hp)) hnd.2 hfresh2
    refine ⟨d2, ?_⟩
    conv_lhs => rw [datasetAttrsFromJSON.eq_def]
    simp only []
    rw [hqv]
    simp only [Json.asStrE]
    rw [hins]
    exact hrun

theorem datasetSection_roundtrip (dd : DataObjectInfo) :
    ∃ jd, datasetSectionToJSON dd = .ok jd
      ∧ ∃ d2, datasetAttrsFromJSON DataObjectInfo.mkEmpty (jsonEntries jd) = .ok d2 := by
  obtain ⟨j1, h1, hj1⟩ := setAttrs_preserves dd.m_mapKeyAttributes .null (.inl rfl)
  obtain ⟨j2, h2, hj2⟩ := setAttrs_preserves dd.m_mapOtherAttributes j1 hj1
  refine ⟨j2, ?_, ?_⟩
  · unfold datasetSectionToJSON
    rw [h1]
    exact h2
  · rcases hj2 with rfl | ⟨kvs, rfl, hnd, hstr⟩
    · exact ⟨_, rfl⟩
    · exact datasetAttrsFromJSON_ok kvs DataObjectInfo.mkEmpty
        (by simpa [jsonEntries] using hstr) hnd (fun p _ => rfl)

/-- The file-entry states the JSON round-trip can reload: at least one
axis/variant pair (an empty axes map serializes as a null axes member, which
FromJSONFile rejects as not an array) and attribute keys avoiding the name
and axes members. -/
def fileWF (fi : FileInfo) : Bool :=
  !fi.m_mapAxisSubAxis.isEmpty
  && (fi.doi.m_mapKeyAttributes ++ fi.doi.m_mapOtherAttributes).all
      (fun kv => !(kv.1 == "axes") && !(kv.1 == "name"))

theorem fileAxesFromJSON_ok (pairs : List (String × String)) :
    ∀ fi : FileInfo,
    ∃ fi2, fileAxesFromJSON fi
        (pairs.map (fun q => Json.arr [.str q.1, .str q.2])) = .ok fi2
      ∧ fi2.doi = fi.doi := by
  induction pairs with
  | nil => intro fi; exact ⟨fi, rfl, rfl⟩
  | cons q t ih =>
    intro fi
    obtain ⟨a, b⟩ := q
    obtain ⟨fi2, hrun, hdoi⟩ :=
      ih { fi with m_mapAxisSubAxis := ainsert fi.m_mapAxisSubAxis a b }
    exact ⟨fi2, hrun, hdoi.trans rfl⟩

theorem fileMembersFromJSON_ok (l : List (String × Json)) :
    ∀ fi : FileInfo,
    NodupKeys l →
    (∀ p ∈ l, p.1 = "name"
      ∨ (p.1 = "axes" ∧ ∃ pairs : List (String × String),
          p.2 = .arr (pairs.map (fun q => Json.arr [.str q.1, .str q.2])))
      ∨ (p.1 ≠ "axes" ∧ ∃ s, p.2 = .str s)) →
    (∀ p ∈ l, alookup fi.doi.m_mapOtherAttributes p.1 = none) →
    ∃ fi2, fileMembersFromJSON fi l = .ok fi2 := by
  induction l with
  | nil => intro fi _ _ _; exact ⟨fi, rfl⟩
  | cons q t ih =>
    intro fi hnd hcls hdisj
    obtain ⟨qk, qv⟩ := q
    unfold NodupKeys at hnd
    simp only [List.map_cons, List.nodup_cons] at hnd
    by_cases hqn : qk = "name"
    · obtain ⟨fi2, hrun⟩ := ih fi hnd.2 (fun p hp => hcls p (List.mem_cons_of_mem _ hp))
        (fun p hp => hdisj p (List.mem_cons_of_mem _ hp))
      refine ⟨fi2, ?_⟩
      conv_lhs => rw [fileMembersFromJSON.eq_def]
      simp only []
      rw [if_pos hqn]
      exact hrun
    · rcases hcls (qk, qv) (by simp) with h | ⟨hax, pairs, hpv⟩ | ⟨hax, s, hsv⟩
      · exact absurd h hqn
      · obtain ⟨fi1, hxrun, hxdoi⟩ := fileAxesFromJSON_ok pairs fi
        obtain ⟨fi2, hrun⟩ := ih fi1 hnd.2 (fun p hp => hcls p (List.mem_cons_of_mem _ hp))
          (by
            intro p hp
            rw [hxdoi]
            exact hdisj p (List.mem_cons_of_mem _ hp))
        refine ⟨fi2, ?_⟩
        conv_lhs => rw [fileMembersFromJSON.eq_def]
        simp only []
        rw [if_neg hqn, if_pos hax]
        have hqv : qv = Json.arr (pairs.map (fun q => Json.arr [.str q.1, .str q.2])) := hpv
        rw [hqv]
        simp only []
        rw [hxrun]
        exact hrun
      · have hd0 : alookup fi.doi.m_mapOtherAttributes qk = none := hdisj (qk, qv) (by simp)
        have hins : fi.doi.insertAttribute qk s
            = .ok { fi.doi with
                m_mapOtherAttributes := fi.doi.m_mapOtherAttributes ++ [(qk, s)] } := by
          unfold DataObjectInfo.insertAttribute
          rw [hd0]
          rfl
        have hfresh2 : ∀ p ∈ t,
            alookup (fi.doi.m_mapOtherAttributes ++ [(qk, s)]) p.1 = none := by
          intro p hp
          rw [alookup_append, hdisj p (List.mem_cons_of_mem _ hp)]
          have hne : qk ≠ p.1 := fun hh => hnd.1 (hh ▸ List.mem_map_of_mem Prod.fst hp)
          simp [alookup, hne]
        obtain ⟨fi2, hrun⟩ := ih { fi with doi := { fi.doi with
            m_mapOtherAttributes := fi.doi.m_mapOtherAttributes ++ [(qk, s)] } }
          hnd.2 (fun p hp => hcls p (List.mem_cons_of_mem _ hp)) hfresh2
        refine ⟨fi2, ?_⟩
        conv_lhs => rw [fileMembersFromJSON.eq_def]
        simp only []
        rw [if_neg hqn, if_neg hax]
        have hqv : qv = Json.str s := hsv
        rw [hqv]
        simp only [attrValueToString]
        rw [hins]
        exact hrun

theorem fileEntry_roundtrip (fi : FileInfo) (hwf : fileWF fi = true) :
    ∃ kvs, fileEntryToJSON fi = .ok (.obj kvs)
      ∧ alookup kvs "name" = some (.str fi.m_strFilename)
      ∧ ∃ fi2, fileMembersFromJSON (FileInfo.mkNamed fi.m_strFilename) kvs = .ok fi2 := by
  unfold fileWF at hwf
  simp only [Bool.and_eq_true, Bool.not_eq_true', List.isEmpty_eq_false,
    List.all_eq_true, beq_eq_false_iff_ne, ne_eq] at hwf
  obtain ⟨hne, hattrs⟩ := hwf
  have hnax : ∀ k ∈ (fi.doi.m_mapKeyAttributes ++ fi.doi.m_mapOtherAttributes).map Prod.fst,
      k ≠ "axes" ∧ k ≠ "name" := by
    intro k hk
    obtain ⟨kv, hkv, rfl⟩ := List.mem_map.mp hk
    exact hattrs kv hkv
  have hninK : ∀ k, (k = "axes" ∨ k = "name") →
      k ∉ fi.doi.m_mapKeyAttributes.map Prod.fst := by
    intro k hk hmem
    have := hnax k (by rw [List.map_append]; exact List.mem_append_left _ hmem)
    rcases hk with h | h <;> subst h
    · exact this.1 rfl
    · exact this.2 rfl
  have hninO : ∀ k, (k = "axes" ∨ k = "name") →
      k ∉ fi.doi.m_mapOtherAttributes.map Prod.fst := by
    intro k hk hmem
    have := hnax k (by rw [List.map_append]; exact List.mem_append_right _ hmem)
    rcases hk with h | h <;> subst h
    · exact this.1 rfl
    · exact this.2 rfl
  obtain ⟨kvs1, e1, pres1, cls1, nd1⟩ :=
    setAttrs_obj fi.doi.m_mapKeyAttributes [("name", .str fi.m_strFilename)]
  obtain ⟨kvs2, e2, pres2, cls2, nd2⟩ := setAttrs_obj fi.doi.m_mapOtherAttributes kvs1
  have look1 : ∀ k, (k = "axes" ∨ k = "name") →
      alookup kvs2 k = alookup [("name", Json.str fi.m_strFilename)] k := by
    intro k hk
    rw [pres2 k (hninO k hk), pres1 k (hninK k hk)]
  have haxN : alookup kvs2 "axes" = none := by
    rw [look1 "axes" (.inl rfl)]; rfl
  have hnm : alookup kvs2 "name" = some (.str fi.m_strFilename) := by
    rw [look1 "name" (.inr rfl)]; rfl
  have hpairs : fi.m_mapAxisSubAxis.map (fun p => Json.arr [.str p.1, .str p.2])
      = fi.m_mapAxisSubAxis.map (fun q => Json.arr [.str q.1, .str q.2]) := rfl
  have hrun : fileEntryToJSON fi = .ok (.obj (kvs2 ++ [("axes",
      .arr (fi.m_mapAxisSubAxis.map (fun q => Json.arr [.str q.1, .str q.2])))])) := by
    unfold fileEntryToJSON
    simp only [objSet]
    rw [e1]
    simp only []
    rw [e2]
    simp only []
    unfold pushMember
    rw [show objGet (Json.obj kvs2) "axes" = none from haxN]
    simp only [Option.getD_none]
    unfold pushAllE
    rw [if_neg (by simpa [isEmpty_map] using hne)]
    simp only [objSet]
    rw [aupdate_of_none _ haxN]
  refine ⟨_, hrun, ?_, ?_⟩
  · rw [alookup_append, hnm]
  · apply fileMembersFromJSON_ok
    · rw [show ((kvs2 ++ [("axes",
        Json.arr (fi.m_mapAxisSubAxis.map (fun q => Json.arr [.str q.1, .str q.2])))]))
        = aupdate kvs2 "axes" (Json.arr (fi.m_mapAxisSubAxis.map
            (fun q => Json.arr [.str q.1, .str q.2]))) from (aupdate_of_none _ haxN).symm]
      exact nodupKeys_aupdate _ _ (nd2 (nd1 (by simp [NodupKeys])))
    · intro p hp
      rcases List.mem_append.mp hp with hp1 | hp1
      · rcases cls2 p hp1 with hp0 | hstr
        · rcases cls1 p hp0 with hp00 | hstr
          · simp only [List.mem_cons, List.not_mem_nil, or_false] at hp00
            left; rw [hp00]
          · right; right
            refine ⟨(hnax _ ?_).1, hstr.2⟩
            rw [List.map_append]
            exact List.mem_append_left _ hstr.1
        · right; right
          exact ⟨(hnax _ (by rw [List.map_append]; exact List.mem_append_right _ hstr.1)).1,
            hstr.2⟩
      · simp only [List.mem_cons, List.not_mem_nil, or_false] at hp1
        right; left
        rw [hp1]
        exact ⟨rfl, fi.m_mapAxisSubAxis, rfl⟩
    · intro p _
      rfl

theorem filesSection_build (files : List (String × FileInfo)) :
    ∀ kvs : List (String × Json),
    (∀ p ∈ files, fileWF p.2 = true) →
    (∀ p ∈ files, alookup kvs p.1 = none) →
    (files.map Prod.fst).Nodup →
    ∃ ents, filesSectionToJSON files (.obj kvs) = .ok (.obj (kvs ++ ents))
      ∧ ∀ e ∈ ents, ∃ nm kvsf, e.2 = .obj kvsf
          ∧ alookup kvsf "name" = some (.str nm)
          ∧ ∃ fi2, fileMembersFromJSON (FileInfo.mkNamed nm) kvsf = .ok fi2 := by
  induction files with
  | nil =>
    intro kvs _ _ _
    exact ⟨[], by simp [filesSectionToJSON], by simp⟩
  | cons q t ih =>
    intro kvs hwf hfresh hnd
    obtain ⟨pk, pa⟩ := q
    simp only [List.map_cons, List.nodup_cons] at hnd
    obtain ⟨kvsf, hser, hnm, hfok⟩ := fileEntry_roundtrip pa (hwf (pk, pa) (by simp))
    have hfr : alookup kvs pk = none := hfresh (pk, pa) (by simp)
    have hfresh2 : ∀ p ∈ t, alookup (kvs ++ [(pk, .obj kvsf)]) p.1 = none := by
      intro p hp
      rw [alookup_append, hfresh p (List.mem_cons_of_mem _ hp)]
      have hne : pk ≠ p.1 := fun hh => hnd.1 (hh ▸ List.mem_map_of_mem Prod.fst hp)
      simp [alookup, hne]
    obtain ⟨ents, hrun, hprop⟩ :=
      ih (kvs ++ [(pk, .obj kvsf)]) (fun p hp => hwf p (List.mem_cons_of_mem _ hp))
        hfresh2 hnd.2
    refine ⟨(pk, .obj kvsf) :: ents, ?_, ?_⟩
    · conv_lhs => rw [filesSectionToJSON.eq_def]
      simp only []
      rw [hser]
      simp only [objSet]
      rw [aupdate_of_none _ hfr]
      rw [hrun]
      simp [List.append_assoc]
    · intro e he
      rcases List.mem_cons.mp he with he1 | he1
      · rw [he1]
        exact ⟨pa.m_strFilename, kvsf, rfl, hnm, hfok⟩
      · exact hprop e he1

theorem filesFromJSON_ok (ents : List (String × Json)) :
    ∀ acc : List (String × FileInfo),
    (∀ e ∈ ents, ∃ nm kvsf, e.2 = .obj kvsf
      ∧ alookup kvsf "name" = some (.str nm)
      ∧ ∃ fi2, fileMembersFromJSON (FileInfo.mkNamed nm) kvsf = .ok fi2) →
    ∃ res, filesFromJSON acc ents = .ok res := by
  induction ents with
  | nil => intro acc _; exact ⟨acc, rfl⟩
  | cons e t ih =>
    intro acc hprop
    obtain ⟨ek, ev⟩ := e
    obtain ⟨nm, kvsf, hev, hnm, fi2, hfok⟩ := hprop (ek, ev) (by simp)
    have hev2 : ev = Json.obj kvsf := hev
    obtain ⟨res, hrun⟩ := ih (ainsert acc ek fi2) (fun e he => hprop e (List.mem_cons_of_mem _ he))
    refine ⟨res, ?_⟩
    conv_lhs => rw [filesFromJSON.eq_def]
    simp only []
    rw [hev2]
    rw [show objGet (Json.obj kvsf) "name" = some (.str nm) from hnm]
    simp only [Json.asStrE]
    rw [show jsonEntries (Json.obj kvsf) = kvsf from rfl]
    rw [hfok]
    simp only []
    exact hrun

theorem axesSection_null_eq (q : String × AxisInfo) (t : List (String × AxisInfo)) :
    axesSectionToJSON (q :: t) .null = axesSectionToJSON (q :: t) (.obj []) := by
  obtain ⟨pk, pa⟩ := q
  conv_lhs => rw [axesSectionToJSON.eq_def]
  conv_rhs => rw [axesSectionToJSON.eq_def]
  simp only [objSet, aupdate]

theorem varsSection_null_eq (q : String × VariableInfo) (t : List (String × VariableInfo)) :
    varsSectionToJSON (q :: t) .null = varsSectionToJSON (q :: t) (.obj []) := by
  obtain ⟨pk, pa⟩ := q
  conv_lhs => rw [varsSectionToJSON.eq_def]
  conv_rhs => rw [varsSectionToJSON.eq_def]
  simp only [objSet, aupdate]

theorem filesSection_null_eq (q : String × FileInfo) (t : List (String × FileInfo)) :
    filesSectionToJSON (q :: t) .null = filesSectionToJSON (q :: t) (.obj []) := by
  obtain ⟨pk, pa⟩ := q
  conv_lhs => rw [filesSectionToJSON.eq_def]
  conv_rhs => rw [filesSectionToJSON.eq_def]
  simp only [objSet, aupdate]

theorem axesSection_roundtrip_full (axes : List (String × AxisInfo))
    (hwf : ∀ p ∈ axes, axisWF p.1 p.2 = true)
    (hnd : (axes.map Prod.fst).Nodup) :
    ∃ ja, axesSectionToJSON axes .null = .ok ja
      ∧ ∃ axes2, axesFromJSON [] (jsonEntries ja) = .ok axes2
        ∧ axes2.map (fun p => (p.1, axisView p.2))
          = axes.map (fun p => (p.1, axisView p.2)) := by
  cases axes with
  | nil => exact ⟨.null, rfl, [], rfl, rfl⟩
  | cons q t =>
    obtain ⟨ents, hrun, hkeys, hfa⟩ :=
      axesSection_build (q :: t) [] hwf (fun p _ => rfl) hnd
    obtain ⟨axes2, hrun2, hviews⟩ :=
      axesFromJSON_build (q :: t) ents [] hfa hkeys hnd (fun p _ => rfl)
    refine ⟨.obj ([] ++ ents), ?_, axes2, ?_, hviews⟩
    · rw [axesSection_null_eq]
      exact hrun
    · simpa [jsonEntries] using hrun2

theorem varsSection_roundtrip_full (vars : List (String × VariableInfo))
    (hwf : ∀ p ∈ vars, varWF p.1 p.2 = true)
    (hnd : (vars.map Prod.fst).Nodup) :
    ∃ jv, varsSectionToJSON vars .null = .ok jv
      ∧ ∃ vars2, varsFromJSON [] (jsonEntries jv) = .ok vars2
        ∧ vars2.map (fun p => (p.1, p.2.m_mapSubAxisToFileIdMaps))
          = vars.map (fun p => (p.1, p.2.m_mapSubAxisToFileIdMaps)) := by
  cases vars with
  | nil => exact ⟨.null, rfl, [], rfl, rfl⟩
  | cons q t =>
    obtain ⟨ents, hrun, hkeys, hfa⟩ :=
      varsSection_build (q :: t) [] hwf (fun p _ => rfl) hnd
    obtain ⟨vars2, hrun2, hviews⟩ :=
      varsFromJSON_build (q :: t) ents [] hfa hkeys hnd (fun p _ => rfl)
    refine ⟨.obj ([] ++ ents), ?_, vars2, ?_, hviews⟩
    · rw [varsSection_null_eq]
      exact hrun
    · simpa [jsonEntries] using hrun2

theorem filesSection_roundtrip_full (files : List (String × FileInfo))
    (hwf : ∀ p ∈ files, fileWF p.2 = true)
    (hnd : (files.map Prod.fst).Nodup) :
    ∃ jf, filesSectionToJSON files .null = .ok jf
      ∧ ∃ res, filesFromJSON [] (jsonEntries jf) = .ok res := by
  cases files with
  | nil => exact ⟨.null, rfl, [], rfl⟩
  | cons q t =>
    obtain ⟨ents, hrun, hprop⟩ :=
      filesSection_build (q :: t) [] hwf (fun p _ => rfl) hnd
    obtain ⟨res, hrun2⟩ := filesFromJSON_ok ents [] hprop
    refine ⟨.obj ([] ++ ents), ?_, res, ?_⟩
    · rw [filesSection_null_eq]
      exact hrun
    · simpa [jsonEntries] using hrun2

/-- The catalog states whose JSON serialization can be reloaded: every file,
axis and variable entry is well-formed and the identifiers of each section
are distinct, exactly as ingestion produces them. -/
def C3WF (d : IndexedDataset) : Bool :=
  d.m_vecFileInfo.all (fun p => fileWF p.2)
  && decide ((d.m_vecFileInfo.map Prod.fst).Nodup)
  && d.m_vecAxisInfo.all (fun p => axisWF p.1 p.2)
  && decide ((d.m_vecAxisInfo.map Prod.fst).Nodup)
  && d.m_vecVariableInfo.all (fun p => varWF p.1 p.2)
  && decide ((d.m_vecVariableInfo.map Prod.fst).Nodup)

def c3mvar : VariableInfo :=
  ⟨⟨"tas", .ncDouble, "", [], []⟩,
   [(["lat"], [(["0"], "0")]), (["lat", "lev"], [(["0", "0"], "1")])]⟩

def c3mgroups : Json :=
  .obj [("0", .obj [("axisids", .arr [.str "lat", .str "lat", .str "lev"]),
    ("subaxismap", .arr [.arr [.str "0", .str "0"],
      .arr [.str "0", .str "0", .str "1"]])])]

/-- C3 (amended): on well-formed catalogs, where in particular every
variable holds exactly one axis-name-list group, the JSON round-trip
succeeds and reproduces, for every axis in order, the variant ids together
with each variant's nctype, size and typed value arrays, and, for every
variable in order, the full location index.  A variable with two or more
groups cannot round-trip: the serializer never increments ixAxisGroup, so
it writes both groups of the two-group variable tas under axisgroups key
"0", appending the second group's axis names and map entries onto the
arrays of the first group. -/
theorem claim_C3 :
    (∀ d : IndexedDataset, C3WF d = true →
      ∃ jdoc d2, d.toJSONFile = .ok jdoc
        ∧ IndexedDataset.fromJSONFile jdoc = .ok d2
        ∧ d2.m_vecAxisInfo.map (fun p => (p.1, axisView p.2))
            = d.m_vecAxisInfo.map (fun p => (p.1, axisView p.2))
        ∧ d2.m_vecVariableInfo.map (fun p => (p.1, p.2.m_mapSubAxisToFileIdMaps))
            = d.m_vecVariableInfo.map (fun p => (p.1, p.2.m_mapSubAxisToFileIdMaps)))
  ∧ varEntryToJSON c3mvar =
      .ok (.obj [("units", .str ""), ("datatype", .str "Double"),
        ("axisgroups", c3mgroups)]) := by
  refine ⟨?_, rfl⟩
  intro d hwf
  unfold C3WF at hwf
  simp only [Bool.and_eq_true, List.all_eq_true, decide_eq_true_eq] at hwf
  obtain ⟨⟨⟨⟨⟨hfwf, hfnd⟩, hawf⟩, hand⟩, hvwf⟩, hvnd⟩ := hwf
  obtain ⟨jd, hjd, dd2, hdd⟩ := datasetSection_roundtrip d.m_datainfo
  obtain ⟨jf, hjf, fres, hfres⟩ := filesSection_roundtrip_full d.m_vecFileInfo hfwf hfnd
  obtain ⟨ja, hja, axes2, haxes, haviews⟩ := axesSection_roundtrip_full d.m_vecAxisInfo hawf hand
  obtain ⟨jv, hjv, vars2, hvars, hvviews⟩ := varsSection_roundtrip_full d.m_vecVariableInfo hvwf hvnd
  refine ⟨.obj [("dataset", jd), ("file", jf), ("axes", ja), ("variables", jv)],
    ⟨dd2, fres, axes2, vars2⟩, ?_, ?_, haviews, hvviews⟩
  · unfold IndexedDataset.toJSONFile
    rw [hjd]
    simp only []
    rw [hjf]
    simp only []
    rw [hja]
    simp only []
    rw [hjv]
  · unfold IndexedDataset.fromJSONFile
    rw [show objGet (Json.obj [("dataset", jd), ("file", jf), ("axes", ja),
        ("variables", jv)]) "dataset" = some jd from rfl]
    simp only []
    rw [hdd]
    simp only []
    rw [show objGet (Json.obj [("dataset", jd), ("file", jf), ("axes", ja),
        ("variables", jv)]) "file" = some jf from by simp [objGet, alookup]]
    simp only []
    rw [hfres]
    simp only []
    rw [show objGet (Json.obj [("dataset", jd), ("file", jf), ("axes", ja),
        ("variables", jv)]) "axes" = some ja from by simp [objGet, alookup]]
    simp only []
    rw [haxes]
    simp only []
    rw [show objGet (Json.obj [("dataset", jd), ("file", jf), ("axes", ja),
        ("variables", jv)]) "variables" = some jv from by simp [objGet, alookup]]
    simp only []
    rw [hvars]

def c3reader : NcReader := fun s =>
  if s = "f" then
    some ⟨[], [("lat", 2)], [⟨"lat", .ncDouble, [("subaxes", "x")], ["lat"], [1, 2]⟩]⟩
  else none

def c3run : IngestResult := IndexedDataset.mkEmpty.indexVariableData "" ["f"] c3reader

def c3d : IndexedDataset :=
  match c3run with
  | .done _ d => d
  | .fatal _ => IndexedDataset.mkEmpty

def c3json : Json :=
  match c3d.toJSONFile with
  | .ok j => j
  | .error _ => .null

/-- Counterexample to C3 as stated: a catalog built by a fully successful
ingestion of one file whose coordinate variable carries a NetCDF attribute
named subaxes serializes fine, but loading the serialized document back
fails fatally, because the attribute member collides with the reserved
subaxes member of the axis entry next to the inline values member. -/
theorem claim_C3_counterexample :
    c3run = .done "" c3d
    ∧ IndexedDataset.toJSONFile c3d = .ok c3json
    ∧ IndexedDataset.fromJSONFile c3json =
        .error "axis \"lat\" specifies both \"values\" and \"subaxes\"" := by
  refine ⟨?_, ?_, ?_⟩ <;> rfl

def c3wd : IndexedDataset :=
  ⟨DataObjectInfo.mkEmpty,
   [("0", ⟨DataObjectInfo.mkEmpty, "f", [("lat", "0")]⟩)],
   [("lat", ⟨⟨"lat", .ncDouble, "", [], []⟩,
     [("0", ⟨DataObjectInfo.mkEmpty, .ncDouble, 2, [], [], [1, 2]⟩)]⟩)],
   [("tas", ⟨⟨"tas", .ncDouble, "", [], []⟩, [(["lat"], [(["0"], "0")])]⟩)]⟩

theorem claim_C3_witness :
    C3WF c3wd = true
    ∧ (∃ jdoc d2, c3wd.toJSONFile = .ok jdoc
      ∧ IndexedDataset.fromJSONFile jdoc = .ok d2
      ∧ d2.m_vecAxisInfo.map (fun p => (p.1, axisView p.2))
          = c3wd.m_vecAxisInfo.map (fun p => (p.1, axisView p.2))
      ∧ d2.m_vecVariableInfo.map (fun p => (p.1, p.2.m_mapSubAxisToFileIdMaps))
          = c3wd.m_vecVariableInfo.map (fun p => (p.1, p.2.m_mapSubAxisToFileIdMaps))) :=
  ⟨by decide, claim_C3.1 c3wd (by decide)⟩
